import Mathlib

/-!
# Int8 reformat insertion pass (`net_optimizer_insert_int8_reformat.cc`)

A shallow embedding of `NetOptimizerInsertInt8Reformat` and a verification of its
specification.

Modelling conventions.

* Tensor names, layer names and map keys are `String`.
* `std::vector<std::shared_ptr<LayerInfo>>` is a `List LayerInfo` of values.  The
  layer objects reached through `layers_orig` are the graph's own objects (the
  vector copy shares them), so the final value of `layers_orig` is "the original
  layers after the call"; distinct vector entries are assumed to be distinct
  objects.  Freshly created `Reformat` layers are never part of `layers_orig`.
* `std::set<std::string>` (`blobs`) is a list read through membership, with
  `setInsert` adding a name only when it is absent.
* `std::map<std::string, std::shared_ptr<LayerResource>>` (`resource_map`) is an
  association list from key to the identity of the shared object; `mapFind` is
  `find`, `mapInsert` is `insert(std::make_pair(k, v))` (which keeps an existing
  entry).
* `inputs_shape_map` is given by its keys in iteration order;
  `input_data_type_map` is the total function computed by `operator[]`.
* `int` counters and indices are unbounded (`Nat`/`Int`).
-/

namespace TNN

namespace optimizer

/-! ## Data model -/

/-- Element types of `DataType` (declared in the core headers). -/
inductive DataType where
  | DATA_TYPE_AUTO
  | DATA_TYPE_FLOAT
  | DATA_TYPE_HALF
  | DATA_TYPE_INT8
  | DATA_TYPE_INT32
  | DATA_TYPE_BFP16
  deriving DecidableEq

/-- Memory layouts named by `CreateReformat`. -/
inductive DataFormat where
  | DATA_FORMAT_NHWC4
  | DATA_FORMAT_NC4HW4
  deriving DecidableEq

/-- Backend kinds. -/
inductive DeviceType where
  | DEVICE_NAIVE
  | DEVICE_X86
  | DEVICE_ARM
  | DEVICE_OPENCL
  | DEVICE_METAL
  | DEVICE_CUDA
  deriving DecidableEq

/-- Layer type tags; only `LAYER_REFORMAT` is inspected by the pass. -/
inductive LayerType where
  | LAYER_NOT_SUPPORT
  | LAYER_REFORMAT
  | LAYER_OTHER (tag : Nat)
  deriving DecidableEq

/-- Status codes returned by `Optimize`. -/
inductive Status where
  | TNN_OK
  | TNNERR_NET_ERR
  | TNNERR_UNSUPPORT_NET
  deriving DecidableEq

/-- Fields of `ReformatLayerParam` written by `CreateReformat`; a format that is
not assigned keeps its declared default, written `none`. -/
structure ReformatLayerParam where
  src_type : DataType
  dst_type : DataType
  src_format : Option DataFormat
  dst_format : Option DataFormat
  deriving DecidableEq

/-- The part of `LayerParam` the pass reads or writes: type and name strings, the
`quantized` flag, and the `Reformat` payload when the parameter is a
`ReformatLayerParam`. -/
structure LayerParam where
  type : String
  name : String
  quantized : Bool
  reformat : Option ReformatLayerParam
  deriving DecidableEq

/-- A default-constructed `LayerParam` (`quantized` is declared `false`). -/
def LayerParam.new : LayerParam :=
  { type := "", name := "", quantized := false, reformat := none }

/-- The record `LayerInfo`. -/
structure LayerInfo where
  type : LayerType
  type_str : String
  name : String
  inputs : List String
  outputs : List String
  param : LayerParam
  deriving DecidableEq

/-- A default-constructed `LayerInfo` carrying the given parameter object. -/
def LayerInfo.new (param : LayerParam) : LayerInfo :=
  { type := LayerType.LAYER_NOT_SUPPORT, type_str := "", name := "", inputs := [],
    outputs := [], param := param }

/-- The fields of `NetStructure` used by the pass. -/
structure NetStructure where
  layers : List LayerInfo
  blobs : List String
  inputs_shape_map : List String
  input_data_type_map : String → DataType

/-- The field of `NetResource` used by the pass. -/
structure NetResource where
  resource_map : List (String × Nat)
  deriving DecidableEq

/-! ## Constants and containers -/

/-- The constant `REFORMAT_NAME_SUFFIX`. -/
def REFORMAT_NAME_SUFFIX : String := "_int8_reformat"

/-- Modelled from the spec: `BLOB_SCALE_SUFFIX` is declared in a header that is
not part of the sources at hand; the spec gives the key convention
`tensorName + ".scale"`. -/
def BLOB_SCALE_SUFFIX : String := ".scale"

/-- Insertion into a `std::set`. -/
def setInsert (x : String) (s : List String) : List String :=
  if x ∈ s then s else s ++ [x]

/-- Lookup `std::map::find`: the mapped object, `none` for `end()`. -/
def mapFind (m : List (String × Nat)) (k : String) : Option Nat :=
  match m with
  | [] => none
  | (k', v) :: rest => if k' = k then some v else mapFind rest k

/-- Insertion `std::map::insert`: adds the pair unless the key is present. -/
def mapInsert (m : List (String × Nat)) (k : String) (v : Nat) : List (String × Nat) :=
  match mapFind m k with
  | some _ => m
  | none => m ++ [(k, v)]

/-- Apply `f` to the elements whose position `pos, pos+1, ...` lies in `[lo, hi)`:
the loop `for (next_id = lo; next_id < hi; next_id++) f(layers[next_id])`. -/
def forRange (f : LayerInfo → LayerInfo) (lo hi : Int) : Nat → List LayerInfo → List LayerInfo
  | _, [] => []
  | pos, x :: xs =>
    (if lo ≤ (pos : Int) ∧ (pos : Int) < hi then f x else x) :: forRange f lo hi (pos + 1) xs

/-! ## The pass -/

/-- Modelled from the spec: `GetQuantizedInfoFromNetStructure` is defined outside
the sources at hand; by the spec the network is quantized when some layer has
`quantized = true`. -/
def GetQuantizedInfoFromNetStructure (net : NetStructure) : Bool :=
  net.layers.any fun l => l.param.quantized

/-- The predicate `IsSupported` (the binding of `device_` is the `device_type`
argument of the functions below). -/
def IsSupported (device : DeviceType) : Bool :=
  device = DeviceType.DEVICE_ARM ∨ device = DeviceType.DEVICE_NAIVE ∨
    device = DeviceType.DEVICE_X86

/-- The factory `CreateReformat`. -/
def CreateReformat (device_type : DeviceType) (name : String) (src_quantized : Bool) :
    LayerInfo :=
  let src_type := if src_quantized then DataType.DATA_TYPE_INT8 else DataType.DATA_TYPE_FLOAT
  let dst_type := if src_quantized then DataType.DATA_TYPE_FLOAT else DataType.DATA_TYPE_INT8
  let param : ReformatLayerParam :=
    if device_type = DeviceType.DEVICE_ARM then
      { src_type := src_type, dst_type := dst_type,
        src_format := some (if src_quantized then DataFormat.DATA_FORMAT_NHWC4
                            else DataFormat.DATA_FORMAT_NC4HW4),
        dst_format := some (if src_quantized then DataFormat.DATA_FORMAT_NC4HW4
                            else DataFormat.DATA_FORMAT_NHWC4) }
    else
      { src_type := src_type, dst_type := dst_type, src_format := none, dst_format := none }
  { type := LayerType.LAYER_REFORMAT, type_str := "Reformat", name := name, inputs := [],
    outputs := [],
    param := { type := "Reformat", name := name, quantized := LayerParam.new.quantized,
               reformat := some param } }

/-- The objects `AdjustLayer` mutates: the layers reached through `layers_orig`,
`structure->blobs`, `resource->resource_map` and the new layer. -/
structure AdjustState where
  layers_orig : List LayerInfo
  blobs : List String
  resource_map : List (String × Nat)
  new_layer : LayerInfo
  deriving DecidableEq

/-- Body of the innermost loop of `AdjustLayer`: every input of `next_layer` equal
to `cur_out` becomes `new_out` when the quantized flags differ. -/
def rewire (cur_out new_out : String) (cur_quantized : Bool) (next_layer : LayerInfo) :
    LayerInfo :=
  { next_layer with
    inputs := next_layer.inputs.map fun next_in =>
      if next_in = cur_out ∧ next_layer.param.quantized ≠ cur_quantized then new_out
      else next_in }

/-- The first statements of one iteration of the loop of `AdjustLayer`, for
`cur_out`: the new name is appended to the outputs of the new layer and inserted
into the blobs, and the layers after `index` are rewired. -/
def AdjustLayer.rewireStep (cur_layer : LayerInfo) (index : Int) (count : Nat)
    (cur_out : String) (st : AdjustState) : AdjustState :=
  let new_out := cur_out ++ REFORMAT_NAME_SUFFIX
  { st with
    new_layer := { st.new_layer with outputs := st.new_layer.outputs ++ [new_out] },
    blobs := setInsert new_out st.blobs,
    layers_orig :=
      forRange (rewire cur_out new_out cur_layer.param.quantized) (index + 1) count 0
        st.layers_orig }

/-- One iteration of the loop of `AdjustLayer`: the state it leaves and whether it
executed `return` (the scale entry of a float tensor is missing). -/
def AdjustLayer.body (cur_layer : LayerInfo) (index : Int) (count : Nat)
    (cur_out : String) (st : AdjustState) : AdjustState × Bool :=
  let st1 := AdjustLayer.rewireStep cur_layer index count cur_out st
  if cur_layer.param.quantized = false then
    let old_blob_scale_name := cur_out ++ BLOB_SCALE_SUFFIX
    let new_blob_scale_name := cur_out ++ REFORMAT_NAME_SUFFIX ++ BLOB_SCALE_SUFFIX
    match mapFind st1.resource_map old_blob_scale_name with
    | none => (st1, true)
    | some blob_scale =>
      ({ st1 with resource_map := mapInsert st1.resource_map new_blob_scale_name blob_scale },
        false)
  else
    (st1, false)

/-- The loop of `AdjustLayer` over `cur_layer_outputs`; an iteration that returns
leaves the remaining outputs unprocessed. -/
def AdjustLayer.loop (cur_layer : LayerInfo) (index : Int) (count : Nat) :
    List String → AdjustState → AdjustState
  | [], st => st
  | cur_out :: rest, st =>
    match AdjustLayer.body cur_layer index count cur_out st with
    | (st', true) => st'
    | (st', false) => AdjustLayer.loop cur_layer index count rest st'

/-- The function `AdjustLayer`. -/
def AdjustLayer (layers_orig : List LayerInfo) (blobs : List String)
    (resource_map : List (String × Nat)) (cur_layer new_layer : LayerInfo)
    (cur_layer_outputs : List String) (index : Int) (count : Nat) : AdjustState :=
  AdjustLayer.loop cur_layer index count cur_layer_outputs
    { layers_orig := layers_orig, blobs := blobs, resource_map := resource_map,
      new_layer := { new_layer with inputs := cur_layer_outputs } }

/-- The state of `Optimize` between loop iterations. -/
structure OptState where
  layers_orig : List LayerInfo
  blobs : List String
  resource_map : List (String × Nat)
  layers_fused : List LayerInfo
  deriving DecidableEq

/-- Counter `need_int8_input`: the layers that read `model_input` and are
quantized (each layer counts once, because of the `break`). -/
def need_int8_input (model_input : String) (layers_orig : List LayerInfo) : Nat :=
  layers_orig.countP fun cur_layer =>
    decide (model_input ∈ cur_layer.inputs) && cur_layer.param.quantized

/-- Counter `need_fp32_input`: the layers that read `model_input` and are not
quantized. -/
def need_fp32_input (model_input : String) (layers_orig : List LayerInfo) : Nat :=
  layers_orig.countP fun cur_layer =>
    decide (model_input ∈ cur_layer.inputs) && !cur_layer.param.quantized

/-- The branch on `input_data_type` in the first loop: the value given to
`src_quantized` (and to the `quantized` flag of the fake input layer), `none` when
the branch returns the error status. -/
def src_quantized_of (input_data_type : DataType) : Option Bool :=
  if input_data_type = DataType.DATA_TYPE_FLOAT then some false
  else if input_data_type = DataType.DATA_TYPE_INT8 then some true
  else none

/-- The body of `if (need_int8_input > 0 && need_fp32_input > 0)` in the first
loop of `Optimize`, for the graph input `model_input`; `none` when it returns the
error status. -/
def insertForInput (device_type : DeviceType) (input_data_type_map : String → DataType)
    (count : Nat) (model_input : String) (st : OptState) : Option OptState :=
  let reformat_outs := [model_input]
  let input_data_type := input_data_type_map model_input
  match src_quantized_of input_data_type with
  | none => none
  | some src_quantized =>
    let fake_input_layer := LayerInfo.new { LayerParam.new with quantized := src_quantized }
    let new_layer_name := model_input ++ REFORMAT_NAME_SUFFIX ++ "__from_model_input__"
    let new_layer := CreateReformat device_type new_layer_name src_quantized
    let r := AdjustLayer st.layers_orig st.blobs st.resource_map fake_input_layer
      new_layer reformat_outs (-1) count
    some { layers_orig := r.layers_orig, blobs := r.blobs, resource_map := r.resource_map,
           layers_fused := st.layers_fused ++ [r.new_layer] }

/-- The first loop of `Optimize`, over the keys of `inputs_shape_map`.  The status
is not `TNN_OK` when the loop returned early; the state is the one reached. -/
def phaseA (device_type : DeviceType) (input_data_type_map : String → DataType)
    (count : Nat) : List String → OptState → Status × OptState
  | [], st => (Status.TNN_OK, st)
  | model_input :: rest, st =>
    if 0 < need_int8_input model_input st.layers_orig ∧
        0 < need_fp32_input model_input st.layers_orig then
      match insertForInput device_type input_data_type_map count model_input st with
      | none => (Status.TNNERR_UNSUPPORT_NET, st)
      | some st' => phaseA device_type input_data_type_map count rest st'
    else
      phaseA device_type input_data_type_map count rest st

/-- The flag `need_reformat` for output `cur_out` of the layer at `index`: some
later layer that is not a `Reformat` reads it with a different quantized flag. -/
def need_reformat (layers_orig : List LayerInfo) (index : Nat) (cur_quantized : Bool)
    (cur_out : String) : Bool :=
  (layers_orig.drop (index + 1)).any fun next_layer =>
    next_layer.type ≠ LayerType.LAYER_REFORMAT ∧
      next_layer.inputs.any fun next_in =>
        next_in = cur_out ∧ next_layer.param.quantized ≠ cur_quantized

/-- The vector `reformat_outs` computed for the layer at `index`: its outputs
that need a reformat, in output order. -/
def reformat_outs (layers_orig : List LayerInfo) (index : Nat) (cur_layer : LayerInfo) :
    List String :=
  cur_layer.outputs.filter fun cur_out =>
    need_reformat layers_orig index cur_layer.param.quantized cur_out

/-- One iteration of the second loop of `Optimize`, for the layer at `index`. -/
def stepB (device_type : DeviceType) (count : Nat) (index : Nat) (st : OptState) : OptState :=
  match st.layers_orig[index]? with
  | none => st
  | some cur_layer =>
    let layers_fused := st.layers_fused ++ [cur_layer]
    if cur_layer.type = LayerType.LAYER_REFORMAT then
      { st with layers_fused := layers_fused }
    else if (reformat_outs st.layers_orig index cur_layer).length = 0 then
      { st with layers_fused := layers_fused }
    else
      let new_layer := CreateReformat device_type (cur_layer.name ++ REFORMAT_NAME_SUFFIX)
        cur_layer.param.quantized
      let r := AdjustLayer st.layers_orig st.blobs st.resource_map cur_layer new_layer
        (reformat_outs st.layers_orig index cur_layer) index count
      { layers_orig := r.layers_orig, blobs := r.blobs, resource_map := r.resource_map,
        layers_fused := layers_fused ++ [r.new_layer] }

/-- The second loop of `Optimize` run for `index = 0, ..., n - 1`. -/
def phaseB (device_type : DeviceType) (count : Nat) : Nat → OptState → OptState
  | 0, st => st
  | n + 1, st => stepB device_type count n (phaseB device_type count n st)

/-- The state of `Optimize` before its first loop: `layers_orig` is the copy of
`structure->layers` and `layers_fused` is empty. -/
def OptState.init (net : NetStructure) (resource : NetResource) : OptState :=
  { layers_orig := net.layers, blobs := net.blobs, resource_map := resource.resource_map,
    layers_fused := [] }

/-- The body of `Optimize` on a non-null structure: the status and the final
values of `layers_orig`, `blobs`, `resource_map` and `layers_fused`; `none` for
the fast exits, which touch nothing. -/
def Optimize.run (device_type : DeviceType) (net : NetStructure)
    (resource : NetResource) : Option (Status × OptState) :=
  let layers_orig := net.layers
  let count := layers_orig.length
  if count ≤ 1 then none
  else if ¬ GetQuantizedInfoFromNetStructure net then none
  else
    let st0 := OptState.init net resource
    let rA := phaseA device_type net.input_data_type_map count net.inputs_shape_map st0
    if rA.1 = Status.TNN_OK then some (Status.TNN_OK, phaseB device_type count count rA.2)
    else some rA

/-- The method `Optimize`: the returned status, the structure and the resource
after the call.  A null `structure` pointer is `none`.  On the early error return
`structure->layers` keeps its (shared, possibly rewired) layer objects. -/
def Optimize (device_type : DeviceType) (net : Option NetStructure)
    (resource : NetResource) : Status × Option NetStructure × NetResource :=
  match net with
  | none => (Status.TNNERR_NET_ERR, none, resource)
  | some s =>
    match Optimize.run device_type s resource with
    | none => (Status.TNN_OK, some s, resource)
    | some (status, st) =>
      if status = Status.TNN_OK then
        (Status.TNN_OK, some { s with layers := st.layers_fused, blobs := st.blobs },
          { resource with resource_map := st.resource_map })
      else
        (status, some { s with layers := st.layers_orig, blobs := st.blobs },
          { resource with resource_map := st.resource_map })

/-- The original layer objects after the call: the final value of `layers_orig`
(the unchanged layers when `Optimize` takes a fast exit). -/
def layersAfter (device_type : DeviceType) (net : NetStructure) (resource : NetResource) :
    List LayerInfo :=
  match Optimize.run device_type net resource with
  | none => net.layers
  | some (_, st) => st.layers_orig

/-! ## Vocabulary of the specification -/

/-- A name ends in the reformat suffix. -/
def EndsWithSuffix (t : String) : Prop := REFORMAT_NAME_SUFFIX.data <:+ t.data

instance decidableEndsWithSuffix (t : String) : Decidable (EndsWithSuffix t) := by
  unfold EndsWithSuffix; infer_instance

/-- Layer `b` is layer `a` up to its input list. -/
def SameFields (a b : LayerInfo) : Prop :=
  b.type = a.type ∧ b.type_str = a.type_str ∧ b.name = a.name ∧ b.outputs = a.outputs ∧
    b.param = a.param

/-- The layers `L'` are the layers `L` with inputs renamed position by position,
the renaming of an input of layer `a` at index `j` being constrained by `R j a`. -/
def LayersRel (R : Nat → LayerInfo → String → String → Prop) (L L' : List LayerInfo) : Prop :=
  L'.length = L.length ∧
    ∀ j a b, L[j]? = some a → L'[j]? = some b →
      SameFields a b ∧ List.Forall₂ (R j a) a.inputs b.inputs

/-- The layers `L` are the layers `L0` up to the input lists, whose lengths agree. -/
def Shape (L0 L : List LayerInfo) : Prop := LayersRel (fun _ _ _ _ => True) L0 L

/-- Each tensor has a single producer: no two layers share an output name. -/
def SingleProducer (layers : List LayerInfo) : Prop :=
  layers.Pairwise fun a b => ∀ t ∈ a.outputs, t ∉ b.outputs

instance decidableSingleProducer (layers : List LayerInfo) : Decidable (SingleProducer layers) := by
  unfold SingleProducer; infer_instance

/-- No layer output shares its name with a declared graph input. -/
def OutputsNotInputs (net : NetStructure) : Prop :=
  ∀ l ∈ net.layers, ∀ o ∈ l.outputs, o ∉ net.inputs_shape_map

instance decidableOutputsNotInputs (net : NetStructure) : Decidable (OutputsNotInputs net) := by
  unfold OutputsNotInputs; infer_instance

/-- A layer that is not a `Reformat`, given by name, flag, inputs and outputs. -/
def plainLayer (name : String) (quantized : Bool) (inputs outputs : List String) : LayerInfo :=
  { type := LayerType.LAYER_OTHER 0, type_str := "Op", name := name, inputs := inputs,
    outputs := outputs,
    param := { type := "Op", name := name, quantized := quantized, reformat := none } }

/-- Graph of the fast-exit witness: a single quantized layer. -/
def netOneLayer : NetStructure :=
  { layers := [plainLayer "A" true ["data"] ["a"]], blobs := ["data", "a"],
    inputs_shape_map := ["data"], input_data_type_map := fun _ => DataType.DATA_TYPE_FLOAT }

/-- Graph with a name collision: `P0` (int8) outputs `x`, `P` (float) outputs
`x_int8_reformat`, and the float layer `C` reads `x`. -/
def netCollideSame : NetStructure :=
  { layers := [plainLayer "P0" true ["in"] ["x"],
               plainLayer "P" false ["in"] ["x_int8_reformat"],
               plainLayer "C" false ["x"] ["y"]],
    blobs := ["in", "x", "x_int8_reformat", "y"],
    inputs_shape_map := ["in"], input_data_type_map := fun _ => DataType.DATA_TYPE_INT8 }

/-- Graph of scenario 2: `P` (float) outputs `x`, read by `Q` (int8) and `R` (float). -/
def netScenario2 : NetStructure :=
  { layers := [plainLayer "P" false ["in"] ["x"], plainLayer "Q" true ["x"] ["q"],
               plainLayer "R" false ["x"] ["r"]],
    blobs := ["in", "x", "q", "r"],
    inputs_shape_map := ["in"], input_data_type_map := fun _ => DataType.DATA_TYPE_FLOAT }

/-- Some layer with quantized flag `q` reads the tensor `I`. -/
def ReadBy (layers : List LayerInfo) (I : String) (q : Bool) : Prop :=
  ∃ l ∈ layers, I ∈ l.inputs ∧ l.param.quantized = q

instance decidableReadBy (layers : List LayerInfo) (I : String) (q : Bool) :
    Decidable (ReadBy layers I q) := by
  unfold ReadBy; infer_instance

/-- The tensor `I` is read by both a quantized and a non-quantized layer. -/
def ReadByBoth (layers : List LayerInfo) (I : String) : Prop :=
  ReadBy layers I true ∧ ReadBy layers I false

instance decidableReadByBoth (layers : List LayerInfo) (I : String) :
    Decidable (ReadByBoth layers I) := by
  unfold ReadByBoth; infer_instance

/-- Graph input `data` of declared type half, read by a float and an int8 layer. -/
def netHalfInput : NetStructure :=
  { layers := [plainLayer "A" false ["data"] ["a"], plainLayer "B" true ["data"] ["b"]],
    blobs := ["data", "a", "b"],
    inputs_shape_map := ["data"], input_data_type_map := fun _ => DataType.DATA_TYPE_HALF }

/-- Graph inputs `a` (float, read by both kinds of layers) and `a_int8_reformat`
(half, read by a float layer only). -/
def netInputCollide : NetStructure :=
  { layers := [plainLayer "Q" true ["a"] ["q"], plainLayer "F" false ["a"] ["f"],
               plainLayer "F1" false ["a_int8_reformat"] ["g"]],
    blobs := ["a", "a_int8_reformat", "q", "f", "g"],
    inputs_shape_map := ["a", "a_int8_reformat"],
    input_data_type_map := fun n =>
      if n = "a" then DataType.DATA_TYPE_FLOAT else DataType.DATA_TYPE_HALF }

/-- The layer sequence of the structure after a call (empty for a null structure). -/
def resultLayers (r : Status × Option NetStructure × NetResource) : List LayerInfo :=
  match r.2.1 with
  | some s => s.layers
  | none => []

/-- The blobs of the structure after a call (empty for a null structure). -/
def resultBlobs (r : Status × Option NetStructure × NetResource) : List String :=
  match r.2.1 with
  | some s => s.blobs
  | none => []

/-- Name, inputs and outputs of each layer of a sequence. -/
def wiring (layers : List LayerInfo) : List (String × List String × List String) :=
  layers.map fun l => (l.name, l.inputs, l.outputs)

/-- Some `Reformat` layer reads a tensor that a `Reformat` layer outputs. -/
def ChainedReformat (layers : List LayerInfo) : Prop :=
  ∃ r ∈ layers, ∃ r' ∈ layers, r.type = LayerType.LAYER_REFORMAT ∧
    r'.type = LayerType.LAYER_REFORMAT ∧ ∃ t ∈ r.inputs, t ∈ r'.outputs

instance decidableChainedReformat (layers : List LayerInfo) :
    Decidable (ChainedReformat layers) := by
  unfold ChainedReformat; infer_instance

/-- The float layer `P` outputs `a` and `b`, both read by the int8 layer `Q`. -/
def netTwoOutputs : NetStructure :=
  { layers := [plainLayer "P" false ["in"] ["a", "b"], plainLayer "Q" true ["a", "b"] ["q"]],
    blobs := ["in", "a", "b", "q"],
    inputs_shape_map := ["in"], input_data_type_map := fun _ => DataType.DATA_TYPE_FLOAT }

/-- The int8 layer `P` outputs `x`, read by a `Reformat` layer `R0` (int8 to float,
flag false) already in the graph and by the float layer `F`. -/
def netReformatConsumer : NetStructure :=
  { layers := [plainLayer "P" true ["in"] ["x"],
               { CreateReformat DeviceType.DEVICE_ARM "R0" true with
                 inputs := ["x"], outputs := ["xf"] },
               plainLayer "F" false ["x"] ["y"]],
    blobs := ["in", "x", "xf", "y"],
    inputs_shape_map := ["in"], input_data_type_map := fun _ => DataType.DATA_TYPE_INT8 }

/-- Every entry of the store `M` is an entry of `M'`. -/
def MapExtends (M M' : List (String × Nat)) : Prop :=
  ∀ k v, mapFind M k = some v → mapFind M' k = some v

/-- Some layer after position `k` that is not a `Reformat` reads `o` and has the
quantized flag `q`. -/
def LaterReader (layers : List LayerInfo) (k : Nat) (o : String) (q : Bool) : Prop :=
  ∃ c ∈ layers.drop (k + 1), c.type ≠ LayerType.LAYER_REFORMAT ∧ o ∈ c.inputs ∧
    c.param.quantized = q

instance decidableLaterReader (layers : List LayerInfo) (k : Nat) (o : String) (q : Bool) :
    Decidable (LaterReader layers k o q) := by
  unfold LaterReader; infer_instance

/-- Every output of a non-quantized layer (not a `Reformat`) that a later quantized
layer (not a `Reformat`) reads has its scale entry in the store. -/
def InteriorScales (layers : List LayerInfo) (M : List (String × Nat)) : Prop :=
  ∀ (k : Nat) (hk : k < layers.length),
    layers[k].type ≠ LayerType.LAYER_REFORMAT → layers[k].param.quantized = false →
    ∀ o ∈ layers[k].outputs, LaterReader layers k o true →
      mapFind M (o ++ BLOB_SCALE_SUFFIX) ≠ none

instance decidableInteriorScales (layers : List LayerInfo) (M : List (String × Nat)) :
    Decidable (InteriorScales layers M) := by
  unfold InteriorScales; infer_instance

/-- No layer output ends in the reformat suffix. -/
def OutputsFresh (layers : List LayerInfo) : Prop :=
  ∀ l ∈ layers, ∀ o ∈ l.outputs, ¬ EndsWithSuffix o

instance decidableOutputsFresh (layers : List LayerInfo) : Decidable (OutputsFresh layers) := by
  unfold OutputsFresh; infer_instance

/-- Graph with a suffix collision: `P1` and `P2` (float) output `x` and
`x_int8_reformat`, the int8 layer `C` reads `x`. -/
def netCollideChain : NetStructure :=
  { layers := [plainLayer "P1" false ["in"] ["x"],
               plainLayer "P2" false ["in"] ["x_int8_reformat"],
               plainLayer "C" true ["x"] ["y"]],
    blobs := ["in", "x", "x_int8_reformat", "y"],
    inputs_shape_map := ["in"], input_data_type_map := fun _ => DataType.DATA_TYPE_FLOAT }

/-- Graph in which the output `x` of the float layer `P` is also a declared graph
input (float), read by the int8 layer `C` and the float layer `D`. -/
def netOutputIsInput : NetStructure :=
  { layers := [plainLayer "P" false [] ["x"], plainLayer "C" true ["x"] ["c"],
               plainLayer "D" false ["x"] ["d"]],
    blobs := ["x", "c", "d"],
    inputs_shape_map := ["x"], input_data_type_map := fun _ => DataType.DATA_TYPE_FLOAT }

/-- Graph with an interior boundary (`P` float outputs `x`, read by the int8 layer
`Q`) and a graph input `data` of declared type half read by both kinds of layers. -/
def netBoundaryAndHalfInput : NetStructure :=
  { layers := [plainLayer "P" false ["data"] ["x"], plainLayer "Q" true ["x", "data"] ["q"]],
    blobs := ["data", "x", "q"],
    inputs_shape_map := ["data"], input_data_type_map := fun _ => DataType.DATA_TYPE_HALF }

/-- The layers are in topological order: every input of a layer is a declared graph
input or an output of an earlier layer. -/
def Topological (net : NetStructure) : Prop :=
  ∀ (j : Nat) (hj : j < net.layers.length), ∀ x ∈ net.layers[j].inputs,
    x ∈ net.inputs_shape_map ∨ ∃ l ∈ net.layers.take j, x ∈ l.outputs

instance decidableTopological (net : NetStructure) : Decidable (Topological net) := by
  unfold Topological; infer_instance

/-- The `Reformat` layer that `CreateReformat` and `AdjustLayer` build for the
names `outs`, of which the first `n` have been processed: every name is an input and
each processed name has the output name + suffix. -/
def reformatFor (dev : DeviceType) (name : String) (q : Bool) (outs : List String) (n : Nat) :
    LayerInfo :=
  { CreateReformat dev name q with
    inputs := outs, outputs := (outs.take n).map (· ++ REFORMAT_NAME_SUFFIX) }

/-- The scale store after the iterations of the loop of `AdjustLayer` for the names
`outs` when the producer has the flag `q`: an alias is inserted for each name of a
float producer whose own entry is found. -/
def aliasFold (q : Bool) (outs : List String) (M : List (String × Nat)) : List (String × Nat) :=
  outs.foldl (fun M o =>
    if q = false then
      match mapFind M (o ++ BLOB_SCALE_SUFFIX) with
      | none => M
      | some v => mapInsert M (o ++ REFORMAT_NAME_SUFFIX ++ BLOB_SCALE_SUFFIX) v
    else M) M

/-- Each layer of `blocks` followed by the layers standing right after it. -/
def flattenBlocks (blocks : List (LayerInfo × List LayerInfo)) : List LayerInfo :=
  blocks.flatMap fun b => b.1 :: b.2

/-- What the second loop appends after the layer `P`: nothing, or (for a `P` that is
not a `Reformat`) one `Reformat` layer made for `P`, whose inputs are some outputs of
`P` in output order and whose outputs are the names of the first `n ≥ 1` inputs with
the suffix. -/
def InsertedAfter (dev : DeviceType) (P : LayerInfo) (extra : List LayerInfo) : Prop :=
  extra = [] ∨
    (P.type ≠ LayerType.LAYER_REFORMAT ∧ ∃ (outs : List String) (n : Nat),
      outs.Sublist P.outputs ∧ 0 < n ∧ n ≤ outs.length ∧
      extra = [reformatFor dev (P.name ++ REFORMAT_NAME_SUFFIX) P.param.quantized outs n])

/-- The `Reformat` layer is one the first loop makes for a declared graph input. -/
def CreatedForInput (dev : DeviceType) (net : NetStructure) (R : LayerInfo) : Prop :=
  ∃ K ∈ net.inputs_shape_map, ∃ v, src_quantized_of (net.input_data_type_map K) = some v ∧
    R = reformatFor dev (K ++ REFORMAT_NAME_SUFFIX ++ "__from_model_input__") v [K] 1

/-- No declared graph input name ends in the reformat suffix. -/
def InputsFresh (net : NetStructure) : Prop :=
  ∀ K ∈ net.inputs_shape_map, ¬ EndsWithSuffix K

instance decidableInputsFresh (net : NetStructure) : Decidable (InputsFresh net) := by
  unfold InputsFresh; infer_instance

/-- The virtual quantized status of a graph input: true for a declared type int8
(and false for float). -/
def virtualStatus (net : NetStructure) (K : String) : Bool :=
  decide (net.input_data_type_map K = DataType.DATA_TYPE_INT8)

/-- The `Reformat` layer expected for the graph input `K`: named `K` + suffix +
marker, with the single input `K` and the single output `K` + suffix. -/
def inputReformat (dev : DeviceType) (net : NetStructure) (K : String) : LayerInfo :=
  reformatFor dev (K ++ REFORMAT_NAME_SUFFIX ++ "__from_model_input__") (virtualStatus net K)
    [K] 1

/-- The `Reformat` layers expected for the graph inputs: one for each declared input
that is read by both kinds of layers, in the order of the declared inputs. -/
def inputReformats (dev : DeviceType) (net : NetStructure) : List LayerInfo :=
  (net.inputs_shape_map.filter fun K => decide (ReadByBoth net.layers K)).map
    (inputReformat dev net)

/-- The name an input `x` of the layer `a` has after the first loop: `x` + suffix
when `x` is read by both kinds of layers and the flag of `a` differs from the virtual
status of `x`. -/
def renameInput (net : NetStructure) (a : LayerInfo) (x : String) : String :=
  if ReadByBoth net.layers x ∧ a.param.quantized ≠ virtualStatus net x then
    x ++ REFORMAT_NAME_SUFFIX
  else x

/-- Graph of scenario 1: the float graph input `data` feeds the float layer `A` and
the int8 layer `B`. -/
def netScenario1 : NetStructure :=
  { layers := [plainLayer "A" false ["data"] ["a"], plainLayer "B" true ["data"] ["b"]],
    blobs := ["data", "a", "b"],
    inputs_shape_map := ["data"], input_data_type_map := fun _ => DataType.DATA_TYPE_FLOAT }

/-- Graph inputs `data` (float, read by both kinds of layers) and `other` (half,
read by both kinds of layers). -/
def netTwoInputsOneHalf : NetStructure :=
  { layers := [plainLayer "A" false ["data", "other"] ["a"],
               plainLayer "B" true ["data", "other"] ["b"]],
    blobs := ["data", "other", "a", "b"],
    inputs_shape_map := ["data", "other"],
    input_data_type_map := fun n =>
      if n = "data" then DataType.DATA_TYPE_FLOAT else DataType.DATA_TYPE_HALF }

/-- Graph inputs `a` (float, read by both kinds of layers) and `a_int8_reformat`
(float, read by a float layer only). -/
def netInputSuffix : NetStructure :=
  { layers := [plainLayer "Q" true ["a"] ["q"], plainLayer "F" false ["a"] ["f"],
               plainLayer "F1" false ["a_int8_reformat"] ["g"]],
    blobs := ["a", "a_int8_reformat", "q", "f", "g"],
    inputs_shape_map := ["a", "a_int8_reformat"],
    input_data_type_map := fun _ => DataType.DATA_TYPE_FLOAT }

/-- Graph in which the float graph input `x`, read by the int8 layer `C` and the
float layer `D`, is also the output of the int8 layer `P`. -/
def netInputIsOutput : NetStructure :=
  { layers := [plainLayer "P" true [] ["x"], plainLayer "C" true ["x"] ["c"],
               plainLayer "D" false ["x"] ["d"]],
    blobs := ["x", "c", "d"],
    inputs_shape_map := ["x"], input_data_type_map := fun _ => DataType.DATA_TYPE_FLOAT }

/-- Graph in which the float layer `P0` outputs `d_int8_reformat`, the name the pass
gives to the reformatted graph input `d`. -/
def netOutputSuffix : NetStructure :=
  { layers := [plainLayer "P0" false ["d"] ["d_int8_reformat"],
               plainLayer "B1" true ["d"] ["b"]],
    blobs := ["d", "d_int8_reformat", "b"],
    inputs_shape_map := ["d"], input_data_type_map := fun _ => DataType.DATA_TYPE_FLOAT }

/-- The tensor names of a graph: the declared inputs, the inputs and outputs of the
layers, and the blobs. -/
def tensorNames (net : NetStructure) : List String :=
  net.inputs_shape_map ++ net.layers.flatMap (fun l => l.inputs ++ l.outputs) ++ net.blobs

/-- No tensor name of the graph ends in the reformat suffix. -/
def NamesFresh (net : NetStructure) : Prop :=
  ∀ t ∈ tensorNames net, ¬ EndsWithSuffix t

instance decidableNamesFresh (net : NetStructure) : Decidable (NamesFresh net) := by
  unfold NamesFresh; infer_instance


/-- The `Reformat` layer `R` delivers the tensor `y` in the representation of a
consumer with quantized flag `q`: `y` is an output of `R` and the destination type
of `R` is int8 exactly when `q` is true. -/
def Delivers (R : LayerInfo) (q : Bool) (y : String) : Prop :=
  R.type = LayerType.LAYER_REFORMAT ∧ y ∈ R.outputs ∧
    ∃ rp ∈ R.param.reformat, (rp.dst_type = DataType.DATA_TYPE_INT8 ↔ q = true)

instance decidableDelivers (R : LayerInfo) (q : Bool) (y : String) :
    Decidable (Delivers R q y) := by
  unfold Delivers; infer_instance

/-- Graph whose float graph input `data` is read by the int8 layer `Q` only. -/
def netFloatInputToInt8 : NetStructure :=
  { layers := [plainLayer "Q" true ["data"] ["q"], plainLayer "Q2" true ["q"] ["r"]],
    blobs := ["data", "q", "r"],
    inputs_shape_map := ["data"], input_data_type_map := fun _ => DataType.DATA_TYPE_FLOAT }

/-- Graph with a suffix collision and no missing scale entry: the float layers `P1`
and `P2` output `x` and `x_int8_reformat`, the int8 layer `C` reads `x` and the float
layer `D` reads `x_int8_reformat`. -/
def netCollideReader : NetStructure :=
  { layers := [plainLayer "P1" false ["in"] ["x"],
               plainLayer "P2" false ["in"] ["x_int8_reformat"],
               plainLayer "C" true ["x"] ["c"],
               plainLayer "D" false ["x_int8_reformat"] ["d"]],
    blobs := ["in", "x", "x_int8_reformat", "c", "d"],
    inputs_shape_map := ["in"], input_data_type_map := fun _ => DataType.DATA_TYPE_FLOAT }

/-- Graph with the int8 graph inputs `a` (read by the float layer `F` and the int8
layer `G0`) and `a_int8_reformat` (read by the int8 layer `G`). -/
def netInputSuffixInt8 : NetStructure :=
  { layers := [plainLayer "F" false ["a"] ["f"], plainLayer "G0" true ["a"] ["g0"],
               plainLayer "G" true ["a_int8_reformat"] ["g"]],
    blobs := ["a", "a_int8_reformat", "f", "g0", "g"],
    inputs_shape_map := ["a", "a_int8_reformat"],
    input_data_type_map := fun _ => DataType.DATA_TYPE_INT8 }

/-- No layer of the graph is a `Reformat` layer. -/
def NoReformat (layers : List LayerInfo) : Prop :=
  ∀ l ∈ layers, l.type ≠ LayerType.LAYER_REFORMAT

instance decidableNoReformat (layers : List LayerInfo) : Decidable (NoReformat layers) := by
  unfold NoReformat; infer_instance

/-- The tensor `X` is produced in the representation of the layer `C` by a layer of
`result`: by a layer that is not a `Reformat` and has the flag of `C`, or by a
`Reformat` layer whose destination type is int8 exactly when `C` is quantized. -/
def ProducedInKind (result : List LayerInfo) (C : LayerInfo) (X : String) : Prop :=
  (∃ l ∈ result, l.type ≠ LayerType.LAYER_REFORMAT ∧ X ∈ l.outputs ∧
      l.param.quantized = C.param.quantized) ∨
    ∃ R ∈ result, Delivers R C.param.quantized X

instance decidableProducedInKind (result : List LayerInfo) (C : LayerInfo) (X : String) :
    Decidable (ProducedInKind result C X) := by
  unfold ProducedInKind; infer_instance

/-- The layer `l`, which outputs `X`, is of the kind of the layer `C`: it is not a
`Reformat` and has the flag of `C`, or it is a `Reformat` layer whose destination type
is int8 exactly when `C` is quantized. -/
def OfKind (l C : LayerInfo) (X : String) : Prop :=
  (l.type ≠ LayerType.LAYER_REFORMAT ∧ l.param.quantized = C.param.quantized) ∨
    Delivers l C.param.quantized X

instance decidableOfKind (l C : LayerInfo) (X : String) : Decidable (OfKind l C X) := by
  unfold OfKind; infer_instance

/-- Every float-declared graph input that is read by both kinds of layer has its
scale entry in `M`. -/
def InputScales (net : NetStructure) (M : List (String × Nat)) : Prop :=
  ∀ K ∈ net.inputs_shape_map, net.input_data_type_map K = DataType.DATA_TYPE_FLOAT →
    ReadByBoth net.layers K → mapFind M (K ++ BLOB_SCALE_SUFFIX) ≠ none

instance decidableInputScales (net : NetStructure) (M : List (String × Nat)) :
    Decidable (InputScales net M) := by
  unfold InputScales; infer_instance

/-- The tensor `T` is a float tensor at a float-to-int8 boundary of the graph: an
output of a non-quantized layer (not a `Reformat`) that a later quantized layer (not
a `Reformat`) reads, or a float-declared graph input read by both kinds of layer. -/
def FloatBoundary (net : NetStructure) (T : String) : Prop :=
  (∃ k, k < net.layers.length ∧ ∃ P ∈ net.layers[k]?,
      P.type ≠ LayerType.LAYER_REFORMAT ∧ P.param.quantized = false ∧ T ∈ P.outputs ∧
        LaterReader net.layers k T true) ∨
    (T ∈ net.inputs_shape_map ∧ net.input_data_type_map T = DataType.DATA_TYPE_FLOAT ∧
      ReadByBoth net.layers T)

instance decidableFloatBoundary (net : NetStructure) (T : String) :
    Decidable (FloatBoundary net T) := by
  unfold FloatBoundary; infer_instance

/-- The scale store after the call. -/
def scalesAfter (r : Status × Option NetStructure × NetResource) : List (String × Nat) :=
  r.2.2.resource_map

/-- The invariant of the scale store: it extends the original store `M0`, every
new key is the alias key of a float boundary tensor and holds its original scale,
and every renamed input of a quantized layer has its alias entry. -/
def ScaleInv (net : NetStructure) (M0 : List (String × Nat)) (L : List LayerInfo)
    (M : List (String × Nat)) : Prop :=
  MapExtends M0 M ∧
    (∀ key v, mapFind M0 key = none → mapFind M key = some v →
      ∃ T, FloatBoundary net T ∧ key = T ++ REFORMAT_NAME_SUFFIX ++ BLOB_SCALE_SUFFIX ∧
        mapFind M0 (T ++ BLOB_SCALE_SUFFIX) = some v) ∧
    LayersRel (fun _ a x y => y = x ∨ (a.param.quantized = true →
      mapFind M (x ++ REFORMAT_NAME_SUFFIX ++ BLOB_SCALE_SUFFIX) ≠ none)) net.layers L

/-- Graph with both kinds of float-to-int8 boundary: the float graph input `data` is
read by the float layer `A` and the int8 layer `B`, and the output `a` of `A` is read
by `B`. -/
def netTwoBoundaries : NetStructure :=
  { layers := [plainLayer "A" false ["data"] ["a"], plainLayer "B" true ["data", "a"] ["b"]],
    blobs := ["data", "a", "b"],
    inputs_shape_map := ["data"], input_data_type_map := fun _ => DataType.DATA_TYPE_FLOAT }

/-- Graph of scenario 4: two quantized layers, directly connected, fed by an int8
graph input. -/
def netScenario4 : NetStructure :=
  { layers := [plainLayer "A" true ["data"] ["a"], plainLayer "B" true ["a"] ["b"]],
    blobs := ["data", "a", "b"],
    inputs_shape_map := ["data"], input_data_type_map := fun _ => DataType.DATA_TYPE_INT8 }

/-- No later layer reads an output of an earlier layer with a different quantized
flag. -/
def NoInteriorBoundary (layers : List LayerInfo) : Prop :=
  ∀ (j : Nat) (hj : j < layers.length) (k : Nat) (hk : k < j),
    ∀ o ∈ (layers[k]).outputs, o ∈ layers[j].inputs →
      layers[j].param.quantized = (layers[k]).param.quantized

instance decidableNoInteriorBoundary (layers : List LayerInfo) :
    Decidable (NoInteriorBoundary layers) := by
  unfold NoInteriorBoundary; infer_instance

/-- No declared graph input is read by both a quantized and a non-quantized layer. -/
def NoMixedInput (net : NetStructure) : Prop :=
  ∀ K ∈ net.inputs_shape_map, ¬ ReadByBoth net.layers K

instance decidableNoMixedInput (net : NetStructure) : Decidable (NoMixedInput net) := by
  unfold NoMixedInput; infer_instance

/-- No output of a layer that is not a `Reformat` is marked: none is read by a later
layer that is not a `Reformat` and has a different quantized flag. -/
def NoMarkedOutput (layers : List LayerInfo) : Prop :=
  ∀ (k : Nat) (cur : LayerInfo), layers[k]? = some cur →
    cur.type ≠ LayerType.LAYER_REFORMAT →
    ∀ o ∈ cur.outputs, ¬ LaterReader layers k o (!cur.param.quantized)

/-- Graph whose int8 graph input `data` feeds the float layer `A` and the int8 layer
`B`. -/
def netInt8Mixed : NetStructure :=
  { layers := [plainLayer "A" false ["data"] ["a"], plainLayer "B" true ["data"] ["b"]],
    blobs := ["data", "a", "b"],
    inputs_shape_map := ["data"], input_data_type_map := fun _ => DataType.DATA_TYPE_INT8 }

/-- The number of `Reformat` layers of a sequence. -/
def reformatCount (layers : List LayerInfo) : Nat :=
  layers.countP fun l => decide (l.type = LayerType.LAYER_REFORMAT)

/-- The `Reformat` layer `R` converts from the representation of a producer with
quantized flag `q` to the opposite one on the device `dev`: int8 to float for
`q = true`, float to int8 otherwise; the formats are set for ARM only (NHWC4 to
NC4HW4 for int8 to float, NC4HW4 to NHWC4 for float to int8). -/
def ConvertsFrom (dev : DeviceType) (q : Bool) (R : LayerInfo) : Prop :=
  R.type = LayerType.LAYER_REFORMAT ∧
  ∃ rp ∈ R.param.reformat,
    rp.src_type = (if q then DataType.DATA_TYPE_INT8 else DataType.DATA_TYPE_FLOAT) ∧
    rp.dst_type = (if q then DataType.DATA_TYPE_FLOAT else DataType.DATA_TYPE_INT8) ∧
    rp.src_type ≠ rp.dst_type ∧
    (dev = DeviceType.DEVICE_ARM →
      rp.src_format = some (if q then DataFormat.DATA_FORMAT_NHWC4
        else DataFormat.DATA_FORMAT_NC4HW4) ∧
      rp.dst_format = some (if q then DataFormat.DATA_FORMAT_NC4HW4
        else DataFormat.DATA_FORMAT_NHWC4)) ∧
    (dev ≠ DeviceType.DEVICE_ARM → rp.src_format = none ∧ rp.dst_format = none)

instance decidableConvertsFrom (dev : DeviceType) (q : Bool) (R : LayerInfo) :
    Decidable (ConvertsFrom dev q R) := by
  unfold ConvertsFrom; infer_instance

/-- The name `x` followed by `n` copies of the reformat suffix. -/
def addSuffix : Nat → String → String
  | 0, x => x
  | n + 1, x => addSuffix n x ++ REFORMAT_NAME_SUFFIX

/-- What iteration `k` of the second loop does in the state `st`, recorded as the
block `b`: `b.1` is the layer at `k`; nothing is inserted when it is a `Reformat`
or has no marked output; otherwise one `Reformat` layer is inserted, made for the
marked outputs, of which the first `n ≥ 1` were processed (all of them when the layer
is quantized or every marked output has its scale entry). -/
def StepRecord (dev : DeviceType) (k : Nat) (st : OptState)
    (b : LayerInfo × List LayerInfo) : Prop :=
  st.layers_orig[k]? = some b.1 ∧
    (((b.1.type = LayerType.LAYER_REFORMAT ∨ reformat_outs st.layers_orig k b.1 = []) ∧
        b.2 = []) ∨
      (b.1.type ≠ LayerType.LAYER_REFORMAT ∧ reformat_outs st.layers_orig k b.1 ≠ [] ∧
        ∃ n, 0 < n ∧ n ≤ (reformat_outs st.layers_orig k b.1).length ∧
          b.2 = [reformatFor dev (b.1.name ++ REFORMAT_NAME_SUFFIX) b.1.param.quantized
            (reformat_outs st.layers_orig k b.1) n] ∧
          ((b.1.param.quantized = true ∨ ∀ o ∈ reformat_outs st.layers_orig k b.1,
              mapFind st.resource_map (o ++ BLOB_SCALE_SUFFIX) ≠ none) →
            n = (reformat_outs st.layers_orig k b.1).length)))

/-- The sequence `F` is in topological order with respect to the graph inputs
`keys`: every input of a layer is in `keys` or an output of an earlier layer. -/
def TopoList (keys : List String) (F : List LayerInfo) : Prop :=
  ∀ (j : Nat) (hj : j < F.length), ∀ x ∈ F[j].inputs,
    x ∈ keys ∨ ∃ l ∈ F.take j, x ∈ l.outputs

/-- The marked outputs of the layer `P` at position `k`: its outputs that some later
layer, not a `Reformat`, reads with a different quantized flag, in output order. -/
def markedOutputs (layers : List LayerInfo) (k : Nat) (P : LayerInfo) : List String :=
  P.outputs.filter fun o => decide (LaterReader layers k o (!P.param.quantized))

/-- Two float layers `P1` and `P2` both output `x`, read by the int8 layer `C`. -/
def netTwoProducers : NetStructure :=
  { layers := [plainLayer "P1" false ["in"] ["x"], plainLayer "P2" false ["in"] ["x"],
               plainLayer "C" true ["x"] ["y"]],
    blobs := ["in", "x", "y"],
    inputs_shape_map := ["in"], input_data_type_map := fun _ => DataType.DATA_TYPE_FLOAT }

/-- The output `x` of the float layer `P` is also a declared graph input of type
float, read by the int8 layer `C` and the float layer `D`. -/
def netOutputIsFloatInput : NetStructure :=
  { layers := [plainLayer "P" false [] ["x"], plainLayer "C" true ["x"] ["c"],
               plainLayer "D" false ["x"] ["d"]],
    blobs := ["x", "c", "d"],
    inputs_shape_map := ["x"], input_data_type_map := fun _ => DataType.DATA_TYPE_FLOAT }

/-- Every key added to the scale store `M0` is the alias key of a float tensor at a
float-to-int8 boundary of the graph. -/
def NewKeysAliased (net : NetStructure) (M0 M : List (String × Nat)) : Prop :=
  ∀ key, mapFind M0 key = none → mapFind M key ≠ none →
    ∃ T, FloatBoundary net T ∧ key = T ++ REFORMAT_NAME_SUFFIX ++ BLOB_SCALE_SUFFIX
/-! ## Basic facts -/

theorem str_append_right_cancel {a b s : String} (h : a ++ s = b ++ s) : a = b := by
  have h1 : (a ++ s).data = (b ++ s).data := by rw [h]
  simp only [String.data_append] at h1
  exact String.ext (List.append_cancel_right h1)

theorem endsWithSuffix_append (a : String) : EndsWithSuffix (a ++ REFORMAT_NAME_SUFFIX) := by
  unfold EndsWithSuffix
  rw [String.data_append]
  exact List.suffix_append _ _

theorem endsWithSuffix_iff (t : String) :
    EndsWithSuffix t ↔ ∃ b, t = b ++ REFORMAT_NAME_SUFFIX := by
  constructor
  · rintro ⟨pre, hpre⟩
    refine ⟨⟨pre⟩, String.ext ?_⟩
    rw [String.data_append, ← hpre]
  · rintro ⟨b, rfl⟩
    exact endsWithSuffix_append b

theorem ne_append_of_not_endsWith {t a : String} (h : ¬ EndsWithSuffix t) :
    t ≠ a ++ REFORMAT_NAME_SUFFIX := fun e => h (e ▸ endsWithSuffix_append a)

theorem append_suffix_ne_self (a : String) : a ++ REFORMAT_NAME_SUFFIX ≠ a := by
  intro h
  have h1 : (a ++ REFORMAT_NAME_SUFFIX).data.length = a.data.length := by rw [h]
  rw [String.data_append, List.length_append] at h1
  have : REFORMAT_NAME_SUFFIX.data.length = 14 := by decide
  omega

theorem forRange_length (f : LayerInfo → LayerInfo) (lo hi : Int) :
    ∀ (pos : Nat) (L : List LayerInfo), (forRange f lo hi pos L).length = L.length
  | _, [] => rfl
  | pos, x :: xs => by simp [forRange, forRange_length f lo hi (pos + 1) xs]

theorem forRange_getElem? (f : LayerInfo → LayerInfo) (lo hi : Int) :
    ∀ (pos : Nat) (L : List LayerInfo) (j : Nat),
      (forRange f lo hi pos L)[j]? =
        (L[j]?).map fun x =>
          if lo ≤ ((pos + j : Nat) : Int) ∧ ((pos + j : Nat) : Int) < hi then f x else x
  | _, [], j => by simp [forRange]
  | pos, x :: xs, 0 => by simp [forRange]
  | pos, x :: xs, j + 1 => by
    simp only [forRange, List.getElem?_cons_succ]
    rw [forRange_getElem? f lo hi (pos + 1) xs j]
    have : pos + 1 + j = pos + (j + 1) := by omega
    rw [this]

theorem sameFields_refl (a : LayerInfo) : SameFields a a := ⟨rfl, rfl, rfl, rfl, rfl⟩

theorem sameFields_rewire (o n : String) (q : Bool) {a b : LayerInfo} (h : SameFields a b) :
    SameFields a (rewire o n q b) := h

theorem layersRel_refl {R : Nat → LayerInfo → String → String → Prop}
    (hrefl : ∀ j a x, R j a x x) (L : List LayerInfo) : LayersRel R L L := by
  refine ⟨rfl, fun j a b ha hb => ?_⟩
  rw [ha] at hb
  cases hb
  exact ⟨sameFields_refl a, List.forall₂_same.2 fun x _ => hrefl j a x⟩

/-- One rewiring pass turns a relation `R` into a relation `R'` that every renamed
name and every name left at its place satisfies. -/
theorem layersRel_step_gen {R R' : Nat → LayerInfo → String → String → Prop}
    {L0 L : List LayerInfo} {o n : String} {q : Bool} {lo hi : Int}
    (h : LayersRel R L0 L)
    (hc : ∀ (j : Nat) a x b, L0[j]? = some a → R j a x b →
      R' j a x (if (lo ≤ (j : Int) ∧ (j : Int) < hi) ∧ b = o ∧ a.param.quantized ≠ q then n
        else b)) :
    LayersRel R' L0 (forRange (rewire o n q) lo hi 0 L) := by
  refine ⟨by rw [forRange_length, h.1], fun j a b ha hb => ?_⟩
  rw [forRange_getElem?] at hb
  cases hL : L[j]? with
  | none => rw [hL] at hb; cases hb
  | some c =>
    rw [hL] at hb
    obtain ⟨hsf, hin⟩ := h.2 j a c ha hL
    simp only [Option.map_some', Option.some.injEq, Nat.zero_add] at hb
    split at hb
    · rename_i hr
      subst hb
      refine ⟨sameFields_rewire o n q hsf, ?_⟩
      show List.Forall₂ (R' j a) a.inputs (c.inputs.map _)
      rw [List.forall₂_map_right_iff]
      refine hin.imp fun x b hxb => ?_
      have := hc j a x b ha hxb
      rw [hsf.2.2.2.2]
      simp only [hr, and_self, true_and] at this
      exact this
    · rename_i hr
      subst hb
      refine ⟨hsf, hin.imp fun x b hxb => ?_⟩
      have := hc j a x b ha hxb
      rw [if_neg (fun h => hr h.1)] at this
      exact this

/-- One rewiring pass keeps a relation that is closed under the renaming. -/
theorem layersRel_step {R : Nat → LayerInfo → String → String → Prop}
    {L0 L : List LayerInfo} {o n : String} {q : Bool} {lo hi : Int}
    (h : LayersRel R L0 L)
    (hc : ∀ (j : Nat) a x b, lo ≤ (j : Int) → (j : Int) < hi → L0[j]? = some a → R j a x b →
      a.param.quantized ≠ q → b = o → R j a x n) :
    LayersRel R L0 (forRange (rewire o n q) lo hi 0 L) := by
  refine layersRel_step_gen h fun j a x b ha hr => ?_
  split
  · rename_i hcond
    exact hc j a x b hcond.1.1 hcond.1.2 ha hr hcond.2.2 hcond.2.1
  · exact hr

theorem body_layers (cur : LayerInfo) (idx : Int) (count : Nat) (o : String) (st : AdjustState) :
    (AdjustLayer.body cur idx count o st).1.layers_orig =
      forRange (rewire o (o ++ REFORMAT_NAME_SUFFIX) cur.param.quantized) (idx + 1) count 0
        st.layers_orig := by
  unfold AdjustLayer.body
  simp only []
  split
  · split <;> rfl
  · rfl

theorem body_new_layer (cur : LayerInfo) (idx : Int) (count : Nat) (o : String)
    (st : AdjustState) :
    (AdjustLayer.body cur idx count o st).1.new_layer =
      { st.new_layer with outputs := st.new_layer.outputs ++ [o ++ REFORMAT_NAME_SUFFIX] } := by
  unfold AdjustLayer.body
  simp only []
  split
  · split <;> rfl
  · rfl

theorem body_blobs (cur : LayerInfo) (idx : Int) (count : Nat) (o : String)
    (st : AdjustState) :
    (AdjustLayer.body cur idx count o st).1.blobs =
      setInsert (o ++ REFORMAT_NAME_SUFFIX) st.blobs := by
  unfold AdjustLayer.body
  simp only []
  split
  · split <;> rfl
  · rfl

theorem body_resource_map (cur : LayerInfo) (idx : Int) (count : Nat) (o : String)
    (st : AdjustState) :
    (AdjustLayer.body cur idx count o st).1.resource_map =
      if cur.param.quantized = false then
        match mapFind st.resource_map (o ++ BLOB_SCALE_SUFFIX) with
        | none => st.resource_map
        | some v =>
          mapInsert st.resource_map (o ++ REFORMAT_NAME_SUFFIX ++ BLOB_SCALE_SUFFIX) v
      else st.resource_map := by
  unfold AdjustLayer.body
  simp only []
  split
  · simp only [AdjustLayer.rewireStep]
    split <;> simp_all
  · rfl

theorem body_returns (cur : LayerInfo) (idx : Int) (count : Nat) (o : String)
    (st : AdjustState) :
    (AdjustLayer.body cur idx count o st).2 =
      decide (cur.param.quantized = false ∧
        mapFind st.resource_map (o ++ BLOB_SCALE_SUFFIX) = none) := by
  unfold AdjustLayer.body
  simp only []
  split
  · simp only [AdjustLayer.rewireStep]
    split <;> simp_all
  · simp_all

/-- Induction over the iterations of the loop of `AdjustLayer`. -/
theorem loop_induct (cur : LayerInfo) (idx : Int) (count : Nat) (Inv : AdjustState → Prop) :
    ∀ (outs : List String) (st : AdjustState),
      (∀ st o, o ∈ outs → Inv st → Inv (AdjustLayer.body cur idx count o st).1) →
      Inv st → Inv (AdjustLayer.loop cur idx count outs st)
  | [], st, _, h0 => h0
  | o :: rest, st, hstep, h0 => by
    unfold AdjustLayer.loop
    have h1 := hstep st o (List.mem_cons_self _ _) h0
    split
    · rename_i st' heq
      rw [heq] at h1; exact h1
    · rename_i st' heq
      rw [heq] at h1
      exact loop_induct cur idx count Inv rest st'
        (fun st o ho => hstep st o (List.mem_cons_of_mem _ ho)) h1

theorem shape_refl (L : List LayerInfo) : Shape L L := layersRel_refl (fun _ _ _ => trivial) L

theorem shape_step {L0 L : List LayerInfo} (o n : String) (q : Bool) (lo hi : Int)
    (h : Shape L0 L) : Shape L0 (forRange (rewire o n q) lo hi 0 L) :=
  layersRel_step h fun _ _ _ _ _ _ _ _ _ _ => trivial

theorem shape_get {L0 L : List LayerInfo} (h : Shape L0 L) {k : Nat} {cur : LayerInfo}
    (hk : L[k]? = some cur) : ∃ a, L0[k]? = some a ∧ SameFields a cur := by
  have hlt : k < L0.length := by
    rw [← h.1]; exact (List.getElem?_eq_some_iff.1 hk).1
  refine ⟨L0[k], List.getElem?_eq_getElem hlt, (h.2 k _ cur (List.getElem?_eq_getElem hlt) hk).1⟩

theorem AdjustLayer_layers (Q : List LayerInfo → Prop) (L : List LayerInfo) (B : List String)
    (M : List (String × Nat)) (cur new : LayerInfo) (outs : List String) (idx : Int)
    (count : Nat)
    (hstep : ∀ L' o, o ∈ outs → Q L' →
      Q (forRange (rewire o (o ++ REFORMAT_NAME_SUFFIX) cur.param.quantized) (idx + 1) count 0 L'))
    (h0 : Q L) : Q (AdjustLayer L B M cur new outs idx count).layers_orig := by
  unfold AdjustLayer
  refine loop_induct cur idx count (fun st => Q st.layers_orig) outs _ ?_ h0
  intro st o ho hst
  show Q (AdjustLayer.body cur idx count o st).1.layers_orig
  rw [body_layers]
  exact hstep _ o ho hst

theorem insertForInput_layers (dev : DeviceType) (tm : String → DataType) (count : Nat)
    (Q : List LayerInfo → Prop) (o : String) (st st' : OptState)
    (hstep : ∀ L q, src_quantized_of (tm o) = some q → Q L →
      Q (forRange (rewire o (o ++ REFORMAT_NAME_SUFFIX) q) 0 count 0 L))
    (h0 : Q st.layers_orig) (h : insertForInput dev tm count o st = some st') :
    Q st'.layers_orig := by
  unfold insertForInput at h
  simp only [] at h
  split at h
  · cases h
  · rename_i q hq
    simp only [Option.some.injEq] at h
    subst h
    refine AdjustLayer_layers Q _ _ _ _ _ _ _ _ ?_ h0
    intro L' o' ho' hL'
    rw [List.mem_singleton] at ho'
    subst ho'
    exact hstep L' _ hq hL'

/-- Every property of the layers that each rewiring for a graph input keeps is kept
by the first loop of `Optimize`. -/
theorem phaseA_layers (dev : DeviceType) (tm : String → DataType) (count : Nat)
    (Q : List LayerInfo → Prop) :
    ∀ (keys : List String) (st : OptState),
      (∀ L o q, o ∈ keys → src_quantized_of (tm o) = some q → Q L →
        Q (forRange (rewire o (o ++ REFORMAT_NAME_SUFFIX) q) 0 count 0 L)) →
      Q st.layers_orig → Q (phaseA dev tm count keys st).2.layers_orig
  | [], st, _, h0 => h0
  | o :: rest, st, hstep, h0 => by
    unfold phaseA
    have hrest : ∀ L o' q, o' ∈ rest → src_quantized_of (tm o') = some q → Q L →
        Q (forRange (rewire o' (o' ++ REFORMAT_NAME_SUFFIX) q) 0 count 0 L) :=
      fun L o' q ho' => hstep L o' q (List.mem_cons_of_mem _ ho')
    split
    · split
      · exact h0
      · rename_i st' hst'
        refine phaseA_layers dev tm count Q rest st' hrest ?_
        exact insertForInput_layers dev tm count Q o st st'
          (fun L q => hstep L o q (List.mem_cons_self _ _)) h0 hst'
    · exact phaseA_layers dev tm count Q rest st hrest h0

theorem mem_reformat_outs {L : List LayerInfo} {k : Nat} {cur : LayerInfo} {o : String}
    (h : o ∈ reformat_outs L k cur) : o ∈ cur.outputs := (List.mem_filter.1 h).1

/-- One iteration of the second loop keeps the shape and every property of the
layers that each rewiring for an output of a non-`Reformat` layer keeps. -/
theorem stepB_layers (dev : DeviceType) (count : Nat) (L0 : List LayerInfo)
    (Q : List LayerInfo → Prop) (k : Nat)
    (hB : ∀ L a o, L0[k]? = some a →
      a.type ≠ LayerType.LAYER_REFORMAT → o ∈ a.outputs → Shape L0 L → Q L →
      Q (forRange (rewire o (o ++ REFORMAT_NAME_SUFFIX) a.param.quantized) ((k : Int) + 1)
        count 0 L))
    (st : OptState) (hs : Shape L0 st.layers_orig) (hq : Q st.layers_orig) :
    Shape L0 (stepB dev count k st).layers_orig ∧ Q (stepB dev count k st).layers_orig := by
  unfold stepB
  split
  · exact ⟨hs, hq⟩
  · rename_i cur hcur
    obtain ⟨a, ha, hsf⟩ := shape_get hs hcur
    simp only []
    split
    · exact ⟨hs, hq⟩
    · rename_i hty
      split
      · exact ⟨hs, hq⟩
      · refine AdjustLayer_layers (fun L => Shape L0 L ∧ Q L) _ _ _ _ _ _ _ _ ?_ ⟨hs, hq⟩
        intro L' o ho hL'
        refine ⟨shape_step _ _ _ _ _ hL'.1, ?_⟩
        have ho' : o ∈ a.outputs := hsf.2.2.2.1 ▸ mem_reformat_outs ho
        have := hB L' a o ha (by rw [← hsf.1]; exact hty) ho' hL'.1 hL'.2
        rw [hsf.2.2.2.2]
        exact this

theorem phaseB_layers (dev : DeviceType) (count : Nat) (L0 : List LayerInfo)
    (Q : List LayerInfo → Prop) :
    ∀ (m : Nat) (st : OptState),
      (∀ L (k : Nat) a o, k < m → L0[k]? = some a → a.type ≠ LayerType.LAYER_REFORMAT →
        o ∈ a.outputs → Shape L0 L → Q L →
        Q (forRange (rewire o (o ++ REFORMAT_NAME_SUFFIX) a.param.quantized) ((k : Int) + 1)
          count 0 L)) →
      Shape L0 st.layers_orig → Q st.layers_orig →
      Shape L0 (phaseB dev count m st).layers_orig ∧ Q (phaseB dev count m st).layers_orig
  | 0, _, _, hs, hq => ⟨hs, hq⟩
  | m + 1, st, hB, hs, hq => by
    obtain ⟨h1, h2⟩ := phaseB_layers dev count L0 Q m st
      (fun L k a o hk => hB L k a o (by omega)) hs hq
    exact stepB_layers dev count L0 Q m
      (fun L a o => hB L m a o (by omega)) _ h1 h2

theorem run_eq_none_iff (dev : DeviceType) (net : NetStructure) (res : NetResource) :
    Optimize.run dev net res = none ↔
      (net.layers.length ≤ 1 ∨ GetQuantizedInfoFromNetStructure net = false) := by
  unfold Optimize.run
  simp only []
  split
  · simp_all
  · split
    · simp_all
    · split <;> simp_all

theorem run_eq_some (dev : DeviceType) (net : NetStructure) (res : NetResource)
    (h1 : 1 < net.layers.length) (h2 : GetQuantizedInfoFromNetStructure net = true) :
    Optimize.run dev net res =
      (let rA := phaseA dev net.input_data_type_map net.layers.length net.inputs_shape_map
        (OptState.init net res)
       if rA.1 = Status.TNN_OK then
         some (Status.TNN_OK, phaseB dev net.layers.length net.layers.length rA.2)
       else some rA) := by
  unfold Optimize.run
  simp only []
  rw [if_neg (by omega), if_neg (by simp [h2])]

/-- Induction over the rewirings of a run: a property of the layers that holds
before the call and is kept by each rewiring (for a graph input, or for an output
of a non-`Reformat` layer applied to the layers after it) holds of the original
layers after the call. -/
theorem layersAfter_induct (dev : DeviceType) (net : NetStructure) (res : NetResource)
    (Q : List LayerInfo → Prop) (h0 : Q net.layers)
    (hA : ∀ L o q, o ∈ net.inputs_shape_map →
      src_quantized_of (net.input_data_type_map o) = some q → Shape net.layers L → Q L →
      Q (forRange (rewire o (o ++ REFORMAT_NAME_SUFFIX) q) 0 net.layers.length 0 L))
    (hB : ∀ L (k : Nat) a o, net.layers[k]? = some a → a.type ≠ LayerType.LAYER_REFORMAT →
      o ∈ a.outputs → Shape net.layers L → Q L →
      Q (forRange (rewire o (o ++ REFORMAT_NAME_SUFFIX) a.param.quantized) ((k : Int) + 1)
        net.layers.length 0 L)) :
    Shape net.layers (layersAfter dev net res) ∧ Q (layersAfter dev net res) := by
  unfold layersAfter
  by_cases hfast : net.layers.length ≤ 1 ∨ GetQuantizedInfoFromNetStructure net = false
  · rw [(run_eq_none_iff dev net res).2 hfast]
    exact ⟨shape_refl _, h0⟩
  · rw [not_or] at hfast
    rw [run_eq_some dev net res (by omega) (by simpa using hfast.2)]
    have hAfter := phaseA_layers dev net.input_data_type_map net.layers.length
      (fun L => Shape net.layers L ∧ Q L) net.inputs_shape_map
      (OptState.init net res)
      (fun L o q ho hq hL => ⟨shape_step _ _ _ _ _ hL.1, hA L o q ho hq hL.1 hL.2⟩)
      ⟨shape_refl _, h0⟩
    simp only []
    by_cases hok : (phaseA dev net.input_data_type_map net.layers.length net.inputs_shape_map
        (OptState.init net res)).1 = Status.TNN_OK
    · rw [if_pos hok]
      exact phaseB_layers dev _ net.layers Q _ _ (fun L k a o _ => hB L k a o) hAfter.1 hAfter.2
    · rw [if_neg hok]
      exact hAfter

theorem forall₂_getElem?_left {α β : Type} {R : α → β → Prop} {l : List α} {l' : List β}
    (h : List.Forall₂ R l l') : ∀ (p : Nat) (x : α), l[p]? = some x →
      ∃ y, l'[p]? = some y ∧ R x y := by
  induction h with
  | nil => intro p x hx; simp at hx
  | cons hab _ ih =>
    intro p x hx
    cases p with
    | zero =>
      simp only [List.getElem?_cons_zero, Option.some.injEq] at hx
      subst hx
      exact ⟨_, by simp, hab⟩
    | succ p =>
      simp only [List.getElem?_cons_succ] at hx ⊢
      exact ih p x hx

theorem forall₂_getElem?_right {α β : Type} {R : α → β → Prop} {l : List α} {l' : List β}
    (h : List.Forall₂ R l l') (p : Nat) (y : β) (hy : l'[p]? = some y) :
    ∃ x, l[p]? = some x ∧ R x y := by
  obtain ⟨x, hx, hr⟩ := forall₂_getElem?_left h.flip p y hy
  exact ⟨x, hx, hr⟩

theorem singleProducer_unique {L : List LayerInfo} (h : SingleProducer L) {i k : Nat}
    {a b : LayerInfo} {t : String} (ha : L[i]? = some a) (hb : L[k]? = some b)
    (hta : t ∈ a.outputs) (htb : t ∈ b.outputs) : i = k := by
  obtain ⟨hi, rfl⟩ := List.getElem?_eq_some_iff.1 ha
  obtain ⟨hk, rfl⟩ := List.getElem?_eq_some_iff.1 hb
  by_contra hne
  rcases Nat.lt_or_gt_of_ne hne with hlt | hgt
  · exact List.pairwise_iff_getElem.1 h i k hi hk hlt t hta htb
  · exact List.pairwise_iff_getElem.1 h k i hk hi hgt t htb hta

/-- The original layers after the call are the original layers with inputs renamed
position by position, for every relation `R` that holds of unchanged names and is
kept by each renaming the pass can do: of a graph input `o` into `o` + suffix, and of
an output `o` of a non-`Reformat` layer into `o` + suffix in a later layer whose
flag differs. -/
theorem layersAfter_rel (dev : DeviceType) (net : NetStructure) (res : NetResource)
    (R : Nat → LayerInfo → String → String → Prop) (hrefl : ∀ j a x, R j a x x)
    (hA : ∀ (j : Nat) a x o q, o ∈ net.inputs_shape_map →
      src_quantized_of (net.input_data_type_map o) = some q → net.layers[j]? = some a →
      a.param.quantized ≠ q → R j a x o → R j a x (o ++ REFORMAT_NAME_SUFFIX))
    (hB : ∀ (j k : Nat) a P x o, net.layers[k]? = some P →
      P.type ≠ LayerType.LAYER_REFORMAT → o ∈ P.outputs → k < j → net.layers[j]? = some a →
      a.param.quantized ≠ P.param.quantized → R j a x o →
      R j a x (o ++ REFORMAT_NAME_SUFFIX)) :
    LayersRel R net.layers (layersAfter dev net res) := by
  refine (layersAfter_induct dev net res (LayersRel R net.layers)
    (layersRel_refl hrefl _) ?_ ?_).2
  · intro L o q ho hq _ hL
    refine layersRel_step hL ?_
    intro j a x b _ _ ha hr hne hb
    subst hb
    exact hA j a x b q ho hq ha hne hr
  · intro L k P o hP hty ho _ hL
    refine layersRel_step hL ?_
    intro j a x b hlo _ ha hr hne hb
    subst hb
    exact hB j k a P x b hP hty ho (by omega) ha hne hr

theorem mem_of_getElem?_some {α : Type} {l : List α} {i : Nat} {a : α} (h : l[i]? = some a) :
    a ∈ l := by
  obtain ⟨hi, rfl⟩ := List.getElem?_eq_some_iff.1 h
  exact List.getElem_mem hi

theorem layersRel_get {R : Nat → LayerInfo → String → String → Prop} {L L' : List LayerInfo}
    (h : LayersRel R L L') {j : Nat} {a : LayerInfo} (ha : L[j]? = some a) :
    ∃ b, L'[j]? = some b ∧ SameFields a b ∧ List.Forall₂ (R j a) a.inputs b.inputs := by
  have hlt : j < L'.length := by
    rw [h.1]; exact (List.getElem?_eq_some_iff.1 ha).1
  exact ⟨L'[j], List.getElem?_eq_getElem hlt, h.2 j a _ ha (List.getElem?_eq_getElem hlt)⟩

theorem need_int8_input_pos (I : String) (L : List LayerInfo) :
    0 < need_int8_input I L ↔ ReadBy L I true := by
  unfold need_int8_input ReadBy
  rw [List.countP_pos_iff]
  simp

theorem need_fp32_input_pos (I : String) (L : List LayerInfo) :
    0 < need_fp32_input I L ↔ ReadBy L I false := by
  unfold need_fp32_input ReadBy
  rw [List.countP_pos_iff]
  simp

theorem mixed_iff (I : String) (L : List LayerInfo) :
    (0 < need_int8_input I L ∧ 0 < need_fp32_input I L) ↔ ReadByBoth L I := by
  rw [need_int8_input_pos, need_fp32_input_pos]; rfl

theorem forall₂_mem_left {α β : Type} {R : α → β → Prop} {l : List α} {l' : List β}
    (h : List.Forall₂ R l l') {x : α} (hx : x ∈ l) : ∃ y ∈ l', R x y := by
  obtain ⟨p, hp, rfl⟩ := List.getElem_of_mem hx
  obtain ⟨y, hy, hr⟩ := forall₂_getElem?_left h p _ (List.getElem?_eq_getElem hp)
  exact ⟨y, mem_of_getElem?_some hy, hr⟩

theorem forall₂_mem_right {α β : Type} {R : α → β → Prop} {l : List α} {l' : List β}
    (h : List.Forall₂ R l l') {y : β} (hy : y ∈ l') : ∃ x ∈ l, R x y := by
  obtain ⟨x, hx, hr⟩ := forall₂_mem_left h.flip hy
  exact ⟨x, hx, hr⟩

/-- A reader of `I` before is a reader after, when `I` is never renamed. -/
theorem readBy_forward {R : Nat → LayerInfo → String → String → Prop} {L L' : List LayerInfo}
    (h : LayersRel R L L') {I : String} (hI : ∀ j a b, R j a I b → b = I) {q : Bool}
    (hr : ReadBy L I q) : ReadBy L' I q := by
  obtain ⟨l, hl, hIl, hq⟩ := hr
  obtain ⟨j, hj, rfl⟩ := List.getElem_of_mem hl
  obtain ⟨b, hb, hsf, hin⟩ := layersRel_get h (List.getElem?_eq_getElem hj)
  obtain ⟨y, hy, hxy⟩ := forall₂_mem_left hin hIl
  refine ⟨b, mem_of_getElem?_some hb, ?_, by rw [hsf.2.2.2.2]; exact hq⟩
  rw [← hI _ _ _ hxy]; exact hy

/-- A reader of `I` after was a reader before, when no renaming produces `I`. -/
theorem readBy_backward {R : Nat → LayerInfo → String → String → Prop} {L L' : List LayerInfo}
    (h : LayersRel R L L') {I : String} (hI : ∀ j a x, R j a x I → x = I) {q : Bool}
    (hr : ReadBy L' I q) : ReadBy L I q := by
  obtain ⟨l, hl, hIl, hq⟩ := hr
  obtain ⟨j, hj, rfl⟩ := List.getElem_of_mem hl
  have hj' : j < L.length := h.1 ▸ hj
  obtain ⟨hsf, hin⟩ := h.2 j _ _ (List.getElem?_eq_getElem hj') (List.getElem?_eq_getElem hj)
  obtain ⟨x, hx, hxy⟩ := forall₂_mem_right hin hIl
  refine ⟨L[j], List.getElem_mem hj', ?_, by rw [← hsf.2.2.2.2]; exact hq⟩
  rw [← hI _ _ _ hxy]; exact hx

theorem insertForInput_rel {dev : DeviceType} {tm : String → DataType} {count : Nat}
    {R : Nat → LayerInfo → String → String → Prop} {L0 : List LayerInfo} {o : String}
    {st st' : OptState} (h : LayersRel R L0 st.layers_orig)
    (hc : ∀ (j : Nat) a x, L0[j]? = some a → R j a x o → R j a x (o ++ REFORMAT_NAME_SUFFIX))
    (hins : insertForInput dev tm count o st = some st') : LayersRel R L0 st'.layers_orig := by
  refine insertForInput_layers dev tm count (LayersRel R L0) o st st' ?_ h hins
  intro L q _ hL
  refine layersRel_step hL ?_
  intro j a x b _ _ ha hr _ hb
  subst hb
  exact hc j a x ha hr

theorem insertForInput_isSome (dev : DeviceType) (tm : String → DataType) (count : Nat)
    (o : String) (st : OptState) :
    insertForInput dev tm count o st = none ↔ src_quantized_of (tm o) = none := by
  unfold insertForInput
  simp only []
  split <;> simp_all

/-- The status of the first loop: it fails exactly when some graph input is read by
both kinds of layers in the original layers and has an unsupported declared type,
provided the names still to be examined do not end in the reformat suffix. -/
theorem phaseA_status (dev : DeviceType) (tm : String → DataType) (count : Nat)
    (L0 : List LayerInfo) :
    ∀ (ks done : List String) (st : OptState),
      LayersRel (fun _ _ x b => (¬ EndsWithSuffix b → b = x) ∧ (x ∉ done → b = x)) L0
        st.layers_orig →
      (∀ I ∈ done, ¬ (ReadByBoth L0 I ∧ src_quantized_of (tm I) = none)) →
      (∀ I ∈ ks, ¬ EndsWithSuffix I) →
      ((phaseA dev tm count ks st).1 ≠ Status.TNN_OK ↔
        ∃ I ∈ ks, ReadByBoth L0 I ∧ src_quantized_of (tm I) = none)
  | [], _, _, _, _, _ => by simp [phaseA]
  | I :: rest, done, st, hrel, hdone, hks => by
    have hIs : ¬ EndsWithSuffix I := hks I (List.mem_cons_self _ _)
    have hback : ReadByBoth st.layers_orig I → ReadByBoth L0 I := fun h =>
      ⟨readBy_backward hrel (fun _ _ x hx => (hx.1 hIs).symm) h.1,
        readBy_backward hrel (fun _ _ x hx => (hx.1 hIs).symm) h.2⟩
    have hweak : ∀ {L}, LayersRel (fun _ _ x b => (¬ EndsWithSuffix b → b = x) ∧
        (x ∉ done → b = x)) L0 L →
        LayersRel (fun _ _ x b => (¬ EndsWithSuffix b → b = x) ∧ (x ∉ I :: done → b = x))
          L0 L := fun h =>
      ⟨h.1, fun j a b ha hb => ⟨(h.2 j a b ha hb).1, (h.2 j a b ha hb).2.imp
        fun x y hxy => ⟨hxy.1, fun hx => hxy.2 fun hd => hx (List.mem_cons_of_mem _ hd)⟩⟩⟩
    unfold phaseA
    by_cases hmix : 0 < need_int8_input I st.layers_orig ∧ 0 < need_fp32_input I st.layers_orig
    · rw [if_pos hmix]
      have hmix0 : ReadByBoth L0 I := hback ((mixed_iff _ _).1 hmix)
      cases hins : insertForInput dev tm count I st with
      | none =>
        simp only []
        refine ⟨fun _ => ⟨I, List.mem_cons_self _ _, hmix0,
          (insertForInput_isSome dev tm count I st).1 hins⟩, fun _ => by decide⟩
      | some st' =>
        simp only []
        have hsup : src_quantized_of (tm I) ≠ none := fun h => by
          rw [(insertForInput_isSome dev tm count I st).2 h] at hins; cases hins
        have hrel' := insertForInput_rel (hweak hrel) (o := I)
          (fun j a x _ hr => ⟨fun hne => absurd (endsWithSuffix_append I) hne,
            fun hx => absurd (hr.2 hx) (fun h => hx (h ▸ List.mem_cons_self _ _))⟩) hins
        rw [phaseA_status dev tm count L0 rest (I :: done) st' hrel'
          (fun I' hI' => by
            rcases List.mem_cons.1 hI' with rfl | h
            · exact fun h => hsup h.2
            · exact hdone I' h)
          (fun I' hI' => hks I' (List.mem_cons_of_mem _ hI'))]
        constructor
        · rintro ⟨I', hI', h⟩; exact ⟨I', List.mem_cons_of_mem _ hI', h⟩
        · rintro ⟨I', hI', h⟩
          rcases List.mem_cons.1 hI' with rfl | h'
          · exact absurd h.2 hsup
          · exact ⟨I', h', h⟩
    · rw [if_neg hmix]
      have hnot : ¬ (ReadByBoth L0 I ∧ src_quantized_of (tm I) = none) := by
        by_cases hd : I ∈ done
        · exact hdone I hd
        · rintro ⟨h, -⟩
          exact hmix ((mixed_iff _ _).2
            ⟨readBy_forward hrel (fun _ _ b hb => hb.2 hd) h.1,
              readBy_forward hrel (fun _ _ b hb => hb.2 hd) h.2⟩)
      rw [phaseA_status dev tm count L0 rest (I :: done) st (hweak hrel)
        (fun I' hI' => by
          rcases List.mem_cons.1 hI' with rfl | h
          · exact hnot
          · exact hdone I' h)
        (fun I' hI' => hks I' (List.mem_cons_of_mem _ hI'))]
      constructor
      · rintro ⟨I', hI', h⟩; exact ⟨I', List.mem_cons_of_mem _ hI', h⟩
      · rintro ⟨I', hI', h⟩
        rcases List.mem_cons.1 hI' with rfl | h'
        · exact absurd h hnot
        · exact ⟨I', h', h⟩

theorem src_quantized_of_eq_none_iff (t : DataType) :
    src_quantized_of t = none ↔ t ≠ DataType.DATA_TYPE_FLOAT ∧ t ≠ DataType.DATA_TYPE_INT8 := by
  unfold src_quantized_of
  split
  · simp_all
  · split <;> simp_all

theorem Optimize_of_run_none {dev : DeviceType} {net : NetStructure} {res : NetResource}
    (h : Optimize.run dev net res = none) :
    Optimize dev (some net) res = (Status.TNN_OK, some net, res) := by
  unfold Optimize
  simp only [h]

theorem Optimize_of_run_ok {dev : DeviceType} {net : NetStructure} {res : NetResource}
    {st : OptState} (h : Optimize.run dev net res = some (Status.TNN_OK, st)) :
    Optimize dev (some net) res =
      (Status.TNN_OK, some { net with layers := st.layers_fused, blobs := st.blobs },
        { res with resource_map := st.resource_map }) := by
  unfold Optimize
  simp only [h, if_true]

theorem Optimize_of_run_err {dev : DeviceType} {net : NetStructure} {res : NetResource}
    {e : Status} {st : OptState} (h : Optimize.run dev net res = some (e, st))
    (he : e ≠ Status.TNN_OK) :
    Optimize dev (some net) res =
      (e, some { net with layers := st.layers_orig, blobs := st.blobs },
        { res with resource_map := st.resource_map }) := by
  unfold Optimize
  simp only [h, if_neg he]

theorem run_of_phaseA_ok (dev : DeviceType) {net : NetStructure} (res : NetResource)
    (h1 : 1 < net.layers.length) (h2 : GetQuantizedInfoFromNetStructure net = true)
    (hok : (phaseA dev net.input_data_type_map net.layers.length net.inputs_shape_map
      (OptState.init net res)).1 = Status.TNN_OK) :
    Optimize.run dev net res = some (Status.TNN_OK,
      phaseB dev net.layers.length net.layers.length
        (phaseA dev net.input_data_type_map net.layers.length net.inputs_shape_map
          (OptState.init net res)).2) := by
  rw [run_eq_some dev net res h1 h2]
  simp only [hok, if_true]

theorem run_of_phaseA_err {dev : DeviceType} {net : NetStructure} {res : NetResource}
    (h1 : 1 < net.layers.length) (h2 : GetQuantizedInfoFromNetStructure net = true)
    (hok : (phaseA dev net.input_data_type_map net.layers.length net.inputs_shape_map
      (OptState.init net res)).1 ≠ Status.TNN_OK) :
    Optimize.run dev net res = some
      (phaseA dev net.input_data_type_map net.layers.length net.inputs_shape_map
        (OptState.init net res)) := by
  rw [run_eq_some dev net res h1 h2]
  simp only [hok, if_false]

theorem Optimize_status (dev : DeviceType) (net : NetStructure) (res : NetResource) :
    (Optimize dev (some net) res).1 =
      match Optimize.run dev net res with
      | none => Status.TNN_OK
      | some r => r.1 := by
  cases h : Optimize.run dev net res with
  | none => rw [Optimize_of_run_none h]
  | some r =>
    obtain ⟨e, st⟩ := r
    by_cases he : e = Status.TNN_OK
    · subst he; rw [Optimize_of_run_ok h]
    · rw [Optimize_of_run_err h he]

theorem readByBoth_length {L : List LayerInfo} {I : String} (h : ReadByBoth L I) :
    1 < L.length ∧ L.any (fun l => l.param.quantized) = true := by
  obtain ⟨⟨l1, h1, -, hq1⟩, ⟨l2, h2, -, hq2⟩⟩ := h
  refine ⟨?_, List.any_eq_true.2 ⟨l1, h1, hq1⟩⟩
  match L, h1, h2 with
  | [], h1, _ => cases h1
  | [x], h1, h2 =>
    rw [List.mem_singleton] at h1 h2
    subst h1; subst h2
    rw [hq1] at hq2; cases hq2
  | _ :: _ :: _, _, _ => simp

/-- The status of `Optimize` on a non-null graph whose declared input names do not
end in the suffix: it fails exactly when some declared input is read by both kinds
of layers and has a declared type other than float and int8. -/
theorem Optimize_fails_iff (dev : DeviceType) (net : NetStructure) (res : NetResource)
    (hfresh : ∀ I ∈ net.inputs_shape_map, ¬ EndsWithSuffix I) :
    (Optimize dev (some net) res).1 ≠ Status.TNN_OK ↔
      ∃ I ∈ net.inputs_shape_map, ReadByBoth net.layers I ∧
        net.input_data_type_map I ≠ DataType.DATA_TYPE_FLOAT ∧
        net.input_data_type_map I ≠ DataType.DATA_TYPE_INT8 := by
  rw [Optimize_status]
  by_cases hfast : net.layers.length ≤ 1 ∨ GetQuantizedInfoFromNetStructure net = false
  · rw [(run_eq_none_iff dev net res).2 hfast]
    simp only [ne_eq, not_true_eq_false, false_iff]
    rintro ⟨I, -, hI, -⟩
    obtain ⟨h1, h2⟩ := readByBoth_length hI
    rcases hfast with h | h
    · omega
    · unfold GetQuantizedInfoFromNetStructure at h
      rw [h2] at h; cases h
  · rw [not_or] at hfast
    have h1 : 1 < net.layers.length := by omega
    have h2 : GetQuantizedInfoFromNetStructure net = true := by simpa using hfast.2
    have hst := phaseA_status dev net.input_data_type_map net.layers.length net.layers
      net.inputs_shape_map []
      (OptState.init net res)
      (layersRel_refl (fun _ _ _ => ⟨fun _ => rfl, fun _ => rfl⟩) _)
      (fun _ h => by cases h) hfresh
    simp only [src_quantized_of_eq_none_iff] at hst
    rw [← hst]
    by_cases hok : (phaseA dev net.input_data_type_map net.layers.length net.inputs_shape_map
      (OptState.init net res)).1 = Status.TNN_OK
    · rw [run_of_phaseA_ok dev res h1 h2 hok]
      simp [hok]
    · rw [run_of_phaseA_err h1 h2 hok]

theorem mapFind_append (M : List (String × Nat)) (k' : String) (v' : Nat) (k : String) :
    mapFind (M ++ [(k', v')]) k =
      match mapFind M k with
      | some v => some v
      | none => if k' = k then some v' else none := by
  induction M with
  | nil => simp [mapFind]
  | cons kv rest ih =>
    obtain ⟨k1, v1⟩ := kv
    simp only [List.cons_append, mapFind]
    split
    · rfl
    · exact ih

theorem mapFind_mapInsert (M : List (String × Nat)) (k' : String) (v' : Nat) (k : String) :
    mapFind (mapInsert M k' v') k =
      match mapFind M k with
      | some v => some v
      | none => if k' = k then some v' else none := by
  unfold mapInsert
  cases h : mapFind M k' with
  | some w =>
    simp only []
    cases hk : mapFind M k with
    | some v => rfl
    | none =>
      simp only []
      split
      · rename_i heq; subst heq; rw [h] at hk; cases hk
      · rfl
  | none => exact mapFind_append M k' v' k

theorem mapExtends_refl (M : List (String × Nat)) : MapExtends M M := fun _ _ h => h

theorem mapExtends_trans {M1 M2 M3 : List (String × Nat)} (h1 : MapExtends M1 M2)
    (h2 : MapExtends M2 M3) : MapExtends M1 M3 := fun k v h => h2 k v (h1 k v h)

theorem mapExtends_mapInsert (M : List (String × Nat)) (k : String) (v : Nat) :
    MapExtends M (mapInsert M k v) := by
  intro k1 v1 h
  rw [mapFind_mapInsert, h]

theorem body_mapExtends (cur : LayerInfo) (idx : Int) (count : Nat) (o : String)
    (st : AdjustState) :
    MapExtends st.resource_map (AdjustLayer.body cur idx count o st).1.resource_map := by
  rw [body_resource_map]
  split
  · split
    · exact mapExtends_refl _
    · exact mapExtends_mapInsert _ _ _
  · exact mapExtends_refl _

theorem AdjustLayer_mapExtends (L : List LayerInfo) (B : List String) (M : List (String × Nat))
    (cur new : LayerInfo) (outs : List String) (idx : Int) (count : Nat) :
    MapExtends M (AdjustLayer L B M cur new outs idx count).resource_map := by
  unfold AdjustLayer
  refine loop_induct cur idx count (fun st => MapExtends M st.resource_map) outs _ ?_
    (mapExtends_refl M)
  intro st o _ hst
  exact mapExtends_trans hst (body_mapExtends cur idx count o st)

theorem insertForInput_mapExtends {dev : DeviceType} {tm : String → DataType} {count : Nat}
    {o : String} {st st' : OptState} (h : insertForInput dev tm count o st = some st') :
    MapExtends st.resource_map st'.resource_map := by
  unfold insertForInput at h
  simp only [] at h
  split at h
  · cases h
  · simp only [Option.some.injEq] at h
    subst h
    exact AdjustLayer_mapExtends _ _ _ _ _ _ _ _

theorem phaseA_mapExtends (dev : DeviceType) (tm : String → DataType) (count : Nat) :
    ∀ (keys : List String) (st : OptState),
      MapExtends st.resource_map (phaseA dev tm count keys st).2.resource_map
  | [], _ => mapExtends_refl _
  | o :: rest, st => by
    unfold phaseA
    split
    · cases h : insertForInput dev tm count o st with
      | none => exact mapExtends_refl _
      | some st' =>
        exact mapExtends_trans (insertForInput_mapExtends h)
          (phaseA_mapExtends dev tm count rest st')
    · exact phaseA_mapExtends dev tm count rest st

theorem stepB_mapExtends (dev : DeviceType) (count k : Nat) (st : OptState) :
    MapExtends st.resource_map (stepB dev count k st).resource_map := by
  unfold stepB
  split
  · exact mapExtends_refl _
  · simp only []
    split
    · exact mapExtends_refl _
    · split
      · exact mapExtends_refl _
      · exact AdjustLayer_mapExtends _ _ _ _ _ _ _ _

theorem phaseB_mapExtends (dev : DeviceType) (count : Nat) :
    ∀ (m : Nat) (st : OptState),
      MapExtends st.resource_map (phaseB dev count m st).resource_map
  | 0, _ => mapExtends_refl _
  | m + 1, st =>
    mapExtends_trans (phaseB_mapExtends dev count m st) (stepB_mapExtends dev count m _)

/-! ### The fused sequence -/

theorem phaseB_succ (dev : DeviceType) (count m : Nat) (st : OptState) :
    phaseB dev count (m + 1) st = stepB dev count m (phaseB dev count m st) := rfl

theorem getElem?_append_length {α : Type} (l : List α) (a : α) (r : List α) :
    (l ++ a :: r)[l.length]? = some a := by
  induction l with
  | nil => simp
  | cons x xs ih => simpa using ih

theorem stepB_of_none {dev : DeviceType} {count k : Nat} {st : OptState}
    (h : st.layers_orig[k]? = none) : stepB dev count k st = st := by
  unfold stepB
  simp only [h]

/-- The three outcomes of an iteration of the second loop on the layer `cur`. -/
theorem stepB_of_some {dev : DeviceType} {count k : Nat} {st : OptState} {cur : LayerInfo}
    (h : st.layers_orig[k]? = some cur) :
    stepB dev count k st =
      if cur.type = LayerType.LAYER_REFORMAT ∨ reformat_outs st.layers_orig k cur = [] then
        { st with layers_fused := st.layers_fused ++ [cur] }
      else
        { layers_orig := (AdjustLayer st.layers_orig st.blobs st.resource_map cur
            (CreateReformat dev (cur.name ++ REFORMAT_NAME_SUFFIX) cur.param.quantized)
            (reformat_outs st.layers_orig k cur) k count).layers_orig,
          blobs := (AdjustLayer st.layers_orig st.blobs st.resource_map cur
            (CreateReformat dev (cur.name ++ REFORMAT_NAME_SUFFIX) cur.param.quantized)
            (reformat_outs st.layers_orig k cur) k count).blobs,
          resource_map := (AdjustLayer st.layers_orig st.blobs st.resource_map cur
            (CreateReformat dev (cur.name ++ REFORMAT_NAME_SUFFIX) cur.param.quantized)
            (reformat_outs st.layers_orig k cur) k count).resource_map,
          layers_fused := st.layers_fused ++ [cur] ++
            [(AdjustLayer st.layers_orig st.blobs st.resource_map cur
              (CreateReformat dev (cur.name ++ REFORMAT_NAME_SUFFIX) cur.param.quantized)
              (reformat_outs st.layers_orig k cur) k count).new_layer] } := by
  unfold stepB
  simp only [h]
  by_cases hty : cur.type = LayerType.LAYER_REFORMAT
  · simp only [hty, if_true, true_or]
  · simp only [hty, if_false, false_or, List.length_eq_zero]

theorem stepB_fused (dev : DeviceType) (count : Nat) {k : Nat} {st : OptState}
    {cur : LayerInfo} (h : st.layers_orig[k]? = some cur) :
    ∃ extra, (stepB dev count k st).layers_fused = st.layers_fused ++ cur :: extra := by
  rw [stepB_of_some h]
  split
  · exact ⟨[], rfl⟩
  · exact ⟨_, List.append_assoc _ _ _⟩

theorem stepB_fused_grows (dev : DeviceType) (count k : Nat) (st : OptState) :
    st.layers_fused <+: (stepB dev count k st).layers_fused := by
  cases h : st.layers_orig[k]? with
  | none => rw [stepB_of_none h]
  | some cur =>
    obtain ⟨extra, he⟩ := stepB_fused dev count h
    rw [he]
    exact List.prefix_append _ _

theorem phaseB_fused_grows (dev : DeviceType) (count : Nat) (st : OptState) :
    ∀ (m d : Nat), (phaseB dev count m st).layers_fused <+:
      (phaseB dev count (m + d) st).layers_fused
  | m, 0 => List.prefix_refl _
  | m, d + 1 => by
    rw [← Nat.add_assoc, phaseB_succ]
    exact (phaseB_fused_grows dev count st m d).trans (stepB_fused_grows dev count (m + d) _)

/-- An iteration of the second loop leaves the layers up to its own untouched. -/
theorem stepB_layers_stable (dev : DeviceType) (count : Nat) {k j : Nat} (hjk : j ≤ k)
    (st : OptState) :
    (stepB dev count k st).layers_orig[j]? = st.layers_orig[j]? := by
  refine (stepB_layers dev count st.layers_orig
    (fun L => L[j]? = st.layers_orig[j]?) k ?_ st (shape_refl _) rfl).2
  intro L a o _ _ _ _ hL
  rw [forRange_getElem?, hL]
  cases st.layers_orig[j]? with
  | none => rfl
  | some c =>
    simp only [Option.map_some', Nat.zero_add, Option.some.injEq]
    rw [if_neg]
    omega

theorem stepB_length (dev : DeviceType) (count k : Nat) (st : OptState) :
    (stepB dev count k st).layers_orig.length = st.layers_orig.length :=
  (stepB_layers dev count st.layers_orig (fun _ => True) k
    (fun _ _ _ _ _ _ _ _ => trivial) st (shape_refl _) trivial).1.1

theorem phaseB_length (dev : DeviceType) (count : Nat) (st : OptState) :
    ∀ m, (phaseB dev count m st).layers_orig.length = st.layers_orig.length
  | 0 => rfl
  | m + 1 => by
    rw [phaseB_succ, stepB_length, phaseB_length dev count st m]

theorem phaseB_layers_stable (dev : DeviceType) (count : Nat) (st : OptState) {j : Nat} :
    ∀ (m d : Nat), j ≤ m → (phaseB dev count (m + d) st).layers_orig[j]? =
      (phaseB dev count m st).layers_orig[j]?
  | m, 0, _ => rfl
  | m, d + 1, h => by
    rw [← Nat.add_assoc, phaseB_succ, stepB_layers_stable dev count (by omega),
      phaseB_layers_stable dev count st m d h]

/-- Where the layer at index `k` stands in the sequence built by the second loop:
right after the part built by the first `k` iterations. -/
theorem phaseB_fused_at (dev : DeviceType) (count : Nat) (st : OptState) {k : Nat}
    {cur : LayerInfo} (h : (phaseB dev count k st).layers_orig[k]? = some cur) (d : Nat) :
    (phaseB dev count (k + 1 + d) st).layers_fused[(phaseB dev count k st).layers_fused.length]?
      = some cur := by
  obtain ⟨extra, he⟩ := stepB_fused dev count h
  obtain ⟨t, ht⟩ := phaseB_fused_grows dev count st (k + 1) d
  rw [← ht, phaseB_succ, he, List.append_assoc]
  exact getElem?_append_length _ _ _

theorem need_reformat_iff (L : List LayerInfo) (k : Nat) (q : Bool) (o : String) :
    need_reformat L k q o = true ↔ LaterReader L k o (!q) := by
  unfold need_reformat LaterReader
  simp only [List.any_eq_true, decide_eq_true_eq, Bool.decide_and, Bool.and_eq_true,
    ne_eq]
  constructor
  · rintro ⟨c, hc, hty, x, hx, rfl, hq⟩
    exact ⟨c, hc, hty, hx, by cases q <;> cases hcq : c.param.quantized <;> simp_all⟩
  · rintro ⟨c, hc, hty, hx, hq⟩
    exact ⟨c, hc, hty, o, hx, rfl, by cases q <;> simp_all⟩

theorem mem_reformat_outs_iff {L : List LayerInfo} {k : Nat} {cur : LayerInfo} {o : String} :
    o ∈ reformat_outs L k cur ↔ o ∈ cur.outputs ∧ LaterReader L k o (!cur.param.quantized) := by
  unfold reformat_outs
  rw [List.mem_filter, need_reformat_iff]

theorem layersRel_mono {R R' : Nat → LayerInfo → String → String → Prop}
    {L L' : List LayerInfo} (himp : ∀ j a x b, R j a x b → R' j a x b)
    (h : LayersRel R L L') : LayersRel R' L L' :=
  ⟨h.1, fun j a b ha hb => ⟨(h.2 j a b ha hb).1, (h.2 j a b ha hb).2.imp (himp j a)⟩⟩

/-- Without a missing scale entry the loop of `AdjustLayer` processes every output:
the new layer gets one output per name and the layers are rewired for each name in
turn. -/
theorem loop_no_return (cur : LayerInfo) (idx : Int) (count : Nat) :
    ∀ (outs : List String) (st : AdjustState),
      (cur.param.quantized = true ∨
        ∀ o ∈ outs, mapFind st.resource_map (o ++ BLOB_SCALE_SUFFIX) ≠ none) →
      (AdjustLayer.loop cur idx count outs st).new_layer =
          { st.new_layer with
            outputs := st.new_layer.outputs ++ outs.map (· ++ REFORMAT_NAME_SUFFIX) } ∧
        (AdjustLayer.loop cur idx count outs st).layers_orig =
          outs.foldl (fun L o => forRange
            (rewire o (o ++ REFORMAT_NAME_SUFFIX) cur.param.quantized) (idx + 1) count 0 L)
            st.layers_orig
  | [], st, _ => by simp [AdjustLayer.loop]
  | o :: rest, st, h => by
    unfold AdjustLayer.loop
    have hret : (AdjustLayer.body cur idx count o st).2 = false := by
      rw [body_returns]
      rcases h with h | h
      · simp [h]
      · simpa using fun _ => h o (List.mem_cons_self _ _)
    have hnext : cur.param.quantized = true ∨ ∀ o' ∈ rest,
        mapFind (AdjustLayer.body cur idx count o st).1.resource_map
          (o' ++ BLOB_SCALE_SUFFIX) ≠ none := by
      rcases h with h | h
      · exact Or.inl h
      · right
        intro o' ho'
        have := h o' (List.mem_cons_of_mem _ ho')
        cases hf : mapFind st.resource_map (o' ++ BLOB_SCALE_SUFFIX) with
        | none => exact absurd hf this
        | some v =>
          rw [body_mapExtends cur idx count o st _ v hf]
          simp
    obtain ⟨h1, h2⟩ := loop_no_return cur idx count rest _ hnext
    cases hb : AdjustLayer.body cur idx count o st with
    | mk st' ret =>
      rw [hb] at hret h1 h2
      simp only [] at hret h1 h2
      subst hret
      simp only []
      have e1 := body_new_layer cur idx count o st
      have e2 := body_layers cur idx count o st
      rw [hb] at e1 e2
      simp only [] at e1 e2
      rw [h1, h2, e1, e2]
      simp

theorem phaseB_layers_from (dev : DeviceType) (count : Nat) (L0 : List LayerInfo)
    (Q : List LayerInfo → Prop) (m : Nat) (st : OptState) :
    ∀ (d : Nat),
      (∀ L (k : Nat) a o, m ≤ k → k < m + d → L0[k]? = some a →
        a.type ≠ LayerType.LAYER_REFORMAT → o ∈ a.outputs → Shape L0 L → Q L →
        Q (forRange (rewire o (o ++ REFORMAT_NAME_SUFFIX) a.param.quantized) ((k : Int) + 1)
          count 0 L)) →
      Shape L0 (phaseB dev count m st).layers_orig → Q (phaseB dev count m st).layers_orig →
      Shape L0 (phaseB dev count (m + d) st).layers_orig ∧
        Q (phaseB dev count (m + d) st).layers_orig
  | 0, _, hs, hq => ⟨hs, hq⟩
  | d + 1, hB, hs, hq => by
    obtain ⟨h1, h2⟩ := phaseB_layers_from dev count L0 Q m st d
      (fun L k a o hk hk' => hB L k a o hk (by omega)) hs hq
    rw [← Nat.add_assoc, phaseB_succ]
    exact stepB_layers dev count L0 Q (m + d)
      (fun L a o => hB L (m + d) a o (by omega) (by omega)) _ h1 h2

theorem laterReader_iff (L : List LayerInfo) (k : Nat) (o : String) (q : Bool) :
    LaterReader L k o q ↔ ∃ (j : Nat) (c : LayerInfo), k < j ∧ L[j]? = some c ∧
      c.type ≠ LayerType.LAYER_REFORMAT ∧ o ∈ c.inputs ∧ c.param.quantized = q := by
  unfold LaterReader
  constructor
  · rintro ⟨c, hc, h⟩
    obtain ⟨p, hp, rfl⟩ := List.getElem_of_mem hc
    refine ⟨k + 1 + p, _, by omega, ?_, h⟩
    rw [← List.getElem?_drop]
    exact List.getElem?_eq_getElem hp
  · rintro ⟨j, c, hkj, hc, h⟩
    refine ⟨c, ?_, h⟩
    have : (L.drop (k + 1))[j - (k + 1)]? = some c := by
      rw [List.getElem?_drop, ← hc]
      congr 1
      omega
    exact mem_of_getElem?_some this

/-- A later reader of `o` after renamings was one before, when no renaming
produces `o`. -/
theorem laterReader_backward {R : Nat → LayerInfo → String → String → Prop}
    {L L' : List LayerInfo} (h : LayersRel R L L') {o : String}
    (ho : ∀ j a x, R j a x o → x = o) {k : Nat} {q : Bool}
    (hr : LaterReader L' k o q) : LaterReader L k o q := by
  rw [laterReader_iff] at hr ⊢
  obtain ⟨j, c, hkj, hc, hty, hoc, hq⟩ := hr
  have hj' : j < L.length := h.1 ▸ (List.getElem?_eq_some_iff.1 hc).1
  obtain ⟨hsf, hin⟩ := h.2 j _ _ (List.getElem?_eq_getElem hj') hc
  obtain ⟨x, hx, hxy⟩ := forall₂_mem_right hin hoc
  refine ⟨j, L[j], hkj, List.getElem?_eq_getElem hj', by rw [← hsf.1]; exact hty, ?_,
    by rw [← hsf.2.2.2.2]; exact hq⟩
  rw [← ho _ _ _ hxy]; exact hx

theorem prefix_getElem? {α : Type} {l l' : List α} (h : l <+: l') {p : Nat} {a : α}
    (hp : l[p]? = some a) : l'[p]? = some a := by
  obtain ⟨t, rfl⟩ := h
  rw [List.getElem?_append_left (List.getElem?_eq_some_iff.1 hp).1]
  exact hp

/-- Rewiring for each name of `outs` in turn renames `T` into `T` + suffix in the
layer at index `j`, when `T` is one of the names, the layer is in range and its flag
differs, and no name of `outs` ends in the suffix. -/
theorem fold_renames {L0 : List LayerInfo} (q : Bool) (lo : Int) (count : Nat) {j : Nat}
    (T : String) {C : LayerInfo} (hC : L0[j]? = some C) (hq : C.param.quantized ≠ q)
    (hlo : lo ≤ (j : Int)) (hhi : (j : Int) < count) :
    ∀ (outs : List String) (d : Prop) (L : List LayerInfo),
      (∀ o ∈ outs, ¬ EndsWithSuffix o) →
      LayersRel (fun j' _ x b => j' = j → x = T →
        (d → b = T ++ REFORMAT_NAME_SUFFIX) ∧ (¬ d → b = T)) L0 L →
      LayersRel (fun j' _ x b => j' = j → x = T →
        ((d ∨ T ∈ outs) → b = T ++ REFORMAT_NAME_SUFFIX) ∧ (¬ (d ∨ T ∈ outs) → b = T)) L0
        (outs.foldl (fun L o =>
          forRange (rewire o (o ++ REFORMAT_NAME_SUFFIX) q) lo count 0 L) L)
  | [], d, L, _, h => by
    refine layersRel_mono ?_ h
    intro j' a x b hr hj hx
    simpa using hr hj hx
  | o :: rest, d, L, hfresh, h => by
    rw [List.foldl_cons]
    have hstep : LayersRel (fun j' _ x b => j' = j → x = T →
        ((d ∨ T = o) → b = T ++ REFORMAT_NAME_SUFFIX) ∧ (¬ (d ∨ T = o) → b = T)) L0
        (forRange (rewire o (o ++ REFORMAT_NAME_SUFFIX) q) lo count 0 L) := by
      refine layersRel_step_gen h ?_
      intro j' a x b ha hr hj hx
      subst hj
      rw [hC] at ha
      cases ha
      obtain ⟨h1, h2⟩ := hr rfl hx
      have hof : ¬ EndsWithSuffix o := hfresh o (List.mem_cons_self _ _)
      by_cases hd : d
      · have hb := h1 hd
        have hne : b ≠ o := fun e => hof (e ▸ hb ▸ endsWithSuffix_append T)
        rw [if_neg (fun hc => hne hc.2.1)]
        exact ⟨fun _ => hb, fun hn => absurd (Or.inl hd) hn⟩
      · have hb := h2 hd
        by_cases hTo : T = o
        · subst hTo
          rw [if_pos ⟨⟨hlo, hhi⟩, hb, hq⟩]
          exact ⟨fun _ => rfl, fun hn => absurd (Or.inr rfl) hn⟩
        · rw [if_neg (fun hc => hTo (hb ▸ hc.2.1))]
          refine ⟨fun hc => ?_, fun _ => hb⟩
          rcases hc with hc | hc
          · exact absurd hc hd
          · exact absurd hc hTo
    refine layersRel_mono ?_ (fold_renames q lo count T hC hq hlo hhi rest (d ∨ T = o) _
      (fun o' ho' => hfresh o' (List.mem_cons_of_mem _ ho')) hstep)
    intro j' a x b hr hj hx
    obtain ⟨h1, h2⟩ := hr hj hx
    simp only [List.mem_cons]
    refine ⟨fun hc => h1 ?_, fun hc => h2 ?_⟩
    · rcases hc with hc | hc | hc
      · exact Or.inl (Or.inl hc)
      · exact Or.inl (Or.inr hc)
      · exact Or.inr hc
    · rintro ((hc' | hc') | hc')
      · exact hc (Or.inl hc')
      · exact hc (Or.inr (Or.inl hc'))
      · exact hc (Or.inr (Or.inr hc'))

theorem phaseA_ok_of_Optimize_ok {dev : DeviceType} {net : NetStructure} {res : NetResource}
    (h1 : 1 < net.layers.length) (h2 : GetQuantizedInfoFromNetStructure net = true)
    (hok : (Optimize dev (some net) res).1 = Status.TNN_OK) :
    (phaseA dev net.input_data_type_map net.layers.length net.inputs_shape_map
      (OptState.init net res)).1 = Status.TNN_OK := by
  by_contra hne
  rw [Optimize_status, run_of_phaseA_err h1 h2 hne] at hok
  exact hne hok

theorem quantized_net_of_flags_differ {net : NetStructure} {i j : Nat} {P C : LayerInfo}
    (hP : net.layers[i]? = some P) (hC : net.layers[j]? = some C)
    (hq : C.param.quantized ≠ P.param.quantized) :
    GetQuantizedInfoFromNetStructure net = true := by
  unfold GetQuantizedInfoFromNetStructure
  rw [List.any_eq_true]
  cases hp : P.param.quantized with
  | true => exact ⟨P, mem_of_getElem?_some hP, hp⟩
  | false =>
    refine ⟨C, mem_of_getElem?_some hC, ?_⟩
    cases hc : C.param.quantized with
    | true => rfl
    | false => rw [hp, hc] at hq; exact absurd rfl hq

theorem AdjustLayer_no_return (L : List LayerInfo) (B : List String) (M : List (String × Nat))
    (cur new : LayerInfo) (outs : List String) (idx : Int) (count : Nat)
    (h : cur.param.quantized = true ∨
      ∀ o ∈ outs, mapFind M (o ++ BLOB_SCALE_SUFFIX) ≠ none) :
    (AdjustLayer L B M cur new outs idx count).new_layer =
        { new with inputs := outs,
                   outputs := new.outputs ++ outs.map (· ++ REFORMAT_NAME_SUFFIX) } ∧
      (AdjustLayer L B M cur new outs idx count).layers_orig =
        outs.foldl (fun L o => forRange
          (rewire o (o ++ REFORMAT_NAME_SUFFIX) cur.param.quantized) (idx + 1) count 0 L) L := by
  unfold AdjustLayer
  exact loop_no_return cur idx count outs _ h

/-- The effect of iteration `i` of the second loop on a boundary edge.  In the state
`st`, related to the original layers `L0` by renamings that leave `T` in place and
create only names ending in the suffix, let `P = L0[i]` (not a `Reformat`) output
`T` and `C = L0[j]`, `i < j`, not a `Reformat` and with a different flag, read `T`.
When the outputs of `P` do not end in the suffix and the scale entries required by
`L0` are in the store, the iteration appends the current layer `i` and a `Reformat`
layer with all marked outputs as inputs and one output per input, and layer `j` now
reads `T` + suffix wherever `C` read `T`. -/
theorem stepB_boundary (dev : DeviceType) (count : Nat) (L0 : List LayerInfo)
    (M0 : List (String × Nat)) (st : OptState) (i j : Nat) (P C : LayerInfo) (T : String)
    (hcount : (j : Int) < count)
    (hrel : LayersRel (fun _ _ x b => (x = T → b = T) ∧ (¬ EndsWithSuffix b → b = x)) L0
      st.layers_orig)
    (hmap : MapExtends M0 st.resource_map)
    (hfresh : OutputsFresh L0) (hscale : InteriorScales L0 M0)
    (hP : L0[i]? = some P) (hC : L0[j]? = some C) (hij : i < j)
    (hPt : P.type ≠ LayerType.LAYER_REFORMAT) (hCt : C.type ≠ LayerType.LAYER_REFORMAT)
    (hT : T ∈ P.outputs) (hTC : T ∈ C.inputs)
    (hq : C.param.quantized ≠ P.param.quantized) :
    ∃ (cur : LayerInfo) (ins : List String),
      st.layers_orig[i]? = some cur ∧ SameFields P cur ∧ T ∈ ins ∧
      (stepB dev count i st).layers_fused = st.layers_fused ++
        [cur, { CreateReformat dev (P.name ++ REFORMAT_NAME_SUFFIX) P.param.quantized with
                inputs := ins, outputs := ins.map (· ++ REFORMAT_NAME_SUFFIX) }] ∧
      LayersRel (fun j' _ x b => j' = j → x = T → b = T ++ REFORMAT_NAME_SUFFIX) L0
        (stepB dev count i st).layers_orig := by
  obtain ⟨cur, hcur, hsf, -⟩ := layersRel_get hrel hP
  obtain ⟨Cj, hCj, hsfC, hinC⟩ := layersRel_get hrel hC
  have hTCj : T ∈ Cj.inputs := by
    obtain ⟨y, hy, hxy⟩ := forall₂_mem_left hinC hTC
    rw [← hxy.1 rfl]; exact hy
  have hqC : Cj.param.quantized = !cur.param.quantized := by
    rw [hsfC.2.2.2.2, hsf.2.2.2.2]
    cases hp : P.param.quantized <;> cases hc : C.param.quantized <;> simp_all
  have hTouts : T ∈ reformat_outs st.layers_orig i cur := by
    rw [mem_reformat_outs_iff, laterReader_iff]
    exact ⟨hsf.2.2.2.1 ▸ hT, j, Cj, hij, hCj, hsfC.1 ▸ hCt, hTCj, hqC⟩
  have hbranch : ¬ (cur.type = LayerType.LAYER_REFORMAT ∨
      reformat_outs st.layers_orig i cur = []) := by
    rintro (h | h)
    · exact hPt (hsf.1 ▸ h)
    · rw [h] at hTouts; cases hTouts
  have houts_fresh : ∀ o ∈ reformat_outs st.layers_orig i cur, ¬ EndsWithSuffix o :=
    fun o ho => hfresh P (mem_of_getElem?_some hP) o (hsf.2.2.2.1 ▸ mem_reformat_outs ho)
  have hnoret : cur.param.quantized = true ∨ ∀ o ∈ reformat_outs st.layers_orig i cur,
      mapFind st.resource_map (o ++ BLOB_SCALE_SUFFIX) ≠ none := by
    cases hcq : cur.param.quantized with
    | true => exact Or.inl rfl
    | false =>
      right
      intro o ho
      have ho' := mem_reformat_outs_iff.1 ho
      rw [hcq] at ho'
      have hlater : LaterReader L0 i o true :=
        laterReader_backward hrel (fun _ _ x hx => (hx.2 (houts_fresh o ho)).symm) ho'.2
      obtain ⟨hi, hPi⟩ := List.getElem?_eq_some_iff.1 hP
      have hsc := hscale i hi (hPi ▸ hPt) (by rw [hPi, ← hsf.2.2.2.2]; exact hcq) o
        (by rw [hPi, ← hsf.2.2.2.1]; exact ho'.1) hlater
      cases hf : mapFind M0 (o ++ BLOB_SCALE_SUFFIX) with
      | none => exact absurd hf hsc
      | some v => rw [hmap _ v hf]; simp
  obtain ⟨hnl, hlay⟩ := AdjustLayer_no_return st.layers_orig st.blobs st.resource_map cur
    (CreateReformat dev (cur.name ++ REFORMAT_NAME_SUFFIX) cur.param.quantized)
    (reformat_outs st.layers_orig i cur) i count hnoret
  refine ⟨cur, reformat_outs st.layers_orig i cur, hcur, hsf, hTouts, ?_, ?_⟩
  · rw [stepB_of_some hcur, if_neg hbranch]
    simp only [hnl, List.append_assoc, List.singleton_append]
    rw [hsf.2.2.1, hsf.2.2.2.2]
    rfl
  · rw [stepB_of_some hcur, if_neg hbranch]
    simp only [hlay]
    have h0 : LayersRel (fun j' _ x b => j' = j → x = T →
        (False → b = T ++ REFORMAT_NAME_SUFFIX) ∧ (¬ False → b = T)) L0 st.layers_orig :=
      layersRel_mono (fun _ _ x b hr _ hx => ⟨fun h => h.elim, fun _ => hr.1 hx⟩) hrel
    have := fold_renames cur.param.quantized ((i : Int) + 1) count T hC (by rw [hsf.2.2.2.2]; exact hq) (by omega) hcount
      (reformat_outs st.layers_orig i cur) False st.layers_orig houts_fresh h0
    refine layersRel_mono ?_ this
    intro j' a x b hr hj hx
    exact (hr hj hx).1 (Or.inr hTouts)

/-- What the loop of `AdjustLayer` does in general: it processes the first `n` names
(all of them unless a scale entry is missing, and at least one when there is one). -/
theorem loop_spec (cur : LayerInfo) (idx : Int) (count : Nat) :
    ∀ (outs : List String) (st : AdjustState),
      ∃ n, n ≤ outs.length ∧ (outs ≠ [] → 0 < n) ∧
        (AdjustLayer.loop cur idx count outs st).new_layer =
          { st.new_layer with outputs := st.new_layer.outputs ++
              (outs.take n).map (· ++ REFORMAT_NAME_SUFFIX) } ∧
        (AdjustLayer.loop cur idx count outs st).layers_orig =
          (outs.take n).foldl (fun L o => forRange
            (rewire o (o ++ REFORMAT_NAME_SUFFIX) cur.param.quantized) (idx + 1) count 0 L)
            st.layers_orig ∧
        (AdjustLayer.loop cur idx count outs st).blobs =
          (outs.take n).foldl (fun B o => setInsert (o ++ REFORMAT_NAME_SUFFIX) B) st.blobs ∧
        (AdjustLayer.loop cur idx count outs st).resource_map =
          aliasFold cur.param.quantized (outs.take n) st.resource_map
  | [], st => ⟨0, Nat.le_refl _, fun h => absurd rfl h, by simp [AdjustLayer.loop, aliasFold]⟩
  | o :: rest, st => by
    unfold AdjustLayer.loop
    have e1 := body_new_layer cur idx count o st
    have e2 := body_layers cur idx count o st
    have e3 := body_blobs cur idx count o st
    have e4 := body_resource_map cur idx count o st
    cases hb : AdjustLayer.body cur idx count o st with
    | mk st' ret =>
      rw [hb] at e1 e2 e3 e4
      simp only [] at e1 e2 e3 e4
      cases ret with
      | true =>
        refine ⟨1, by simp, fun _ => Nat.one_pos, ?_⟩
        simp only [List.take_succ_cons, List.take_zero, List.map_cons, List.map_nil,
          List.foldl_cons, List.foldl_nil, aliasFold]
        exact ⟨e1, e2, e3, e4⟩
      | false =>
        obtain ⟨n, hn, -, h1, h2, h3, h4⟩ := loop_spec cur idx count rest st'
        refine ⟨n + 1, by simpa using hn, fun _ => Nat.succ_pos _, ?_⟩
        simp only [List.take_succ_cons, List.map_cons, List.foldl_cons, aliasFold]
        rw [h1, h2, h3, h4, e1, e2, e3, e4]
        exact ⟨by simp, rfl, rfl, rfl⟩

theorem AdjustLayer_spec (L : List LayerInfo) (B : List String) (M : List (String × Nat))
    (cur new : LayerInfo) (outs : List String) (idx : Int) (count : Nat) :
    ∃ n, n ≤ outs.length ∧ (outs ≠ [] → 0 < n) ∧
      (AdjustLayer L B M cur new outs idx count).new_layer =
        { new with inputs := outs,
                   outputs := new.outputs ++ (outs.take n).map (· ++ REFORMAT_NAME_SUFFIX) } ∧
      (AdjustLayer L B M cur new outs idx count).layers_orig =
        (outs.take n).foldl (fun L o => forRange
          (rewire o (o ++ REFORMAT_NAME_SUFFIX) cur.param.quantized) (idx + 1) count 0 L) L ∧
      (AdjustLayer L B M cur new outs idx count).blobs =
        (outs.take n).foldl (fun B o => setInsert (o ++ REFORMAT_NAME_SUFFIX) B) B ∧
      (AdjustLayer L B M cur new outs idx count).resource_map =
        aliasFold cur.param.quantized (outs.take n) M := by
  unfold AdjustLayer
  exact loop_spec cur idx count outs _

/-- What the body for a graph input does: the single name is processed, the layers
are rewired once, and the new layer is appended to the fused sequence. -/
theorem insertForInput_spec {dev : DeviceType} {tm : String → DataType} {count : Nat}
    {K : String} {st st' : OptState} (h : insertForInput dev tm count K st = some st') :
    ∃ v, src_quantized_of (tm K) = some v ∧
      st'.layers_orig =
        forRange (rewire K (K ++ REFORMAT_NAME_SUFFIX) v) 0 count 0 st.layers_orig ∧
      st'.blobs = setInsert (K ++ REFORMAT_NAME_SUFFIX) st.blobs ∧
      st'.resource_map = aliasFold v [K] st.resource_map ∧
      st'.layers_fused = st.layers_fused ++
        [reformatFor dev (K ++ REFORMAT_NAME_SUFFIX ++ "__from_model_input__") v [K] 1] := by
  unfold insertForInput at h
  simp only [] at h
  split at h
  · cases h
  · rename_i v hv
    simp only [Option.some.injEq] at h
    subst h
    obtain ⟨n, hn, hpos, h1, h2, h3, h4⟩ := AdjustLayer_spec st.layers_orig st.blobs
      st.resource_map (LayerInfo.new { LayerParam.new with quantized := v })
      (CreateReformat dev (K ++ REFORMAT_NAME_SUFFIX ++ "__from_model_input__") v) [K] (-1)
      count
    have hn1 : n = 1 := by
      have := hpos (by simp)
      simp at hn
      omega
    subst hn1
    refine ⟨v, hv, ?_, ?_, ?_, ?_⟩
    · rw [h2]; rfl
    · rw [h3]; rfl
    · rw [h4]; rfl
    · simp only [h1]; rfl

/-- The outcomes of an iteration of the second loop on the layer `cur`, with the
number `n` of marked outputs that `AdjustLayer` processed. -/
theorem stepB_spec {dev : DeviceType} {count k : Nat} {st : OptState} {cur : LayerInfo}
    (h : st.layers_orig[k]? = some cur) :
    ((cur.type = LayerType.LAYER_REFORMAT ∨ reformat_outs st.layers_orig k cur = []) ∧
        stepB dev count k st = { st with layers_fused := st.layers_fused ++ [cur] }) ∨
      (cur.type ≠ LayerType.LAYER_REFORMAT ∧ ∃ n, 0 < n ∧
        n ≤ (reformat_outs st.layers_orig k cur).length ∧
        stepB dev count k st =
          { layers_orig := ((reformat_outs st.layers_orig k cur).take n).foldl
              (fun L o => forRange (rewire o (o ++ REFORMAT_NAME_SUFFIX) cur.param.quantized)
                ((k : Int) + 1) count 0 L) st.layers_orig,
            blobs := ((reformat_outs st.layers_orig k cur).take n).foldl
              (fun B o => setInsert (o ++ REFORMAT_NAME_SUFFIX) B) st.blobs,
            resource_map := aliasFold cur.param.quantized
              ((reformat_outs st.layers_orig k cur).take n) st.resource_map,
            layers_fused := st.layers_fused ++
              [cur, reformatFor dev (cur.name ++ REFORMAT_NAME_SUFFIX) cur.param.quantized
                (reformat_outs st.layers_orig k cur) n] }) := by
  rw [stepB_of_some h]
  by_cases hc : cur.type = LayerType.LAYER_REFORMAT ∨ reformat_outs st.layers_orig k cur = []
  · left
    exact ⟨hc, by rw [if_pos hc]⟩
  · right
    rw [if_neg hc]
    rw [not_or] at hc
    obtain ⟨n, hn, hpos, h1, h2, h3, h4⟩ := AdjustLayer_spec st.layers_orig st.blobs
      st.resource_map cur
      (CreateReformat dev (cur.name ++ REFORMAT_NAME_SUFFIX) cur.param.quantized)
      (reformat_outs st.layers_orig k cur) k count
    refine ⟨hc.1, n, hpos hc.2, hn, ?_⟩
    rw [h1, h2, h3, h4]
    simp only [List.append_assoc, List.singleton_append]
    rfl

theorem phaseA_fused (dev : DeviceType) (net : NetStructure) (count : Nat) :
    ∀ (keys : List String) (st : OptState), (∀ K ∈ keys, K ∈ net.inputs_shape_map) →
      ∃ A, (phaseA dev net.input_data_type_map count keys st).2.layers_fused =
          st.layers_fused ++ A ∧ ∀ R ∈ A, CreatedForInput dev net R
  | [], st, _ => ⟨[], by simp [phaseA], fun _ h => by cases h⟩
  | K :: rest, st, hsub => by
    have hrest : ∀ K' ∈ rest, K' ∈ net.inputs_shape_map :=
      fun K' h => hsub K' (List.mem_cons_of_mem _ h)
    unfold phaseA
    split
    · cases hins : insertForInput dev net.input_data_type_map count K st with
      | none => exact ⟨[], by simp, fun _ h => by cases h⟩
      | some st' =>
        obtain ⟨v, hv, -, -, -, hf⟩ := insertForInput_spec hins
        obtain ⟨A, hA, hAll⟩ := phaseA_fused dev net count rest st' hrest
        refine ⟨reformatFor dev (K ++ REFORMAT_NAME_SUFFIX ++ "__from_model_input__") v [K] 1
          :: A, ?_, ?_⟩
        · simp only []
          rw [hA, hf, List.append_assoc, List.singleton_append]
        · intro R hR
          rcases List.mem_cons.1 hR with rfl | hR
          · exact ⟨K, hsub K (List.mem_cons_self _ _), v, hv, rfl⟩
          · exact hAll R hR
    · exact phaseA_fused dev net count rest st hrest

theorem stepB_take_stable (dev : DeviceType) (count k : Nat) (st : OptState) :
    (stepB dev count k st).layers_orig.take (k + 1) = st.layers_orig.take (k + 1) := by
  apply List.ext_getElem?
  intro j
  rw [List.getElem?_take, List.getElem?_take]
  split
  · exact stepB_layers_stable dev count (by omega) st
  · rfl

/-- The sequence built by the first `m` iterations of the second loop: the first
`m` layers, each followed by what was inserted after it. -/
theorem phaseB_blocks (dev : DeviceType) (count : Nat) (st : OptState) :
    ∀ m, m ≤ st.layers_orig.length →
      ∃ blocks : List (LayerInfo × List LayerInfo),
        blocks.map Prod.fst = (phaseB dev count m st).layers_orig.take m ∧
        (phaseB dev count m st).layers_fused = st.layers_fused ++ flattenBlocks blocks ∧
        ∀ b ∈ blocks, InsertedAfter dev b.1 b.2
  | 0, _ => ⟨[], by simp, by simp [phaseB, flattenBlocks], fun _ h => by cases h⟩
  | m + 1, hm => by
    obtain ⟨blocks, hfst, hfused, hall⟩ := phaseB_blocks dev count st m (by omega)
    have hlen := phaseB_length dev count st m
    have hmlt : m < (phaseB dev count m st).layers_orig.length := by omega
    obtain ⟨cur, hcur⟩ : ∃ cur, (phaseB dev count m st).layers_orig[m]? = some cur :=
      ⟨_, List.getElem?_eq_getElem hmlt⟩
    have htake : (phaseB dev count (m + 1) st).layers_orig.take (m + 1) =
        (phaseB dev count m st).layers_orig.take m ++ [cur] := by
      rw [phaseB_succ, stepB_take_stable, List.take_succ, hcur]
      rfl
    rcases @stepB_spec dev count m _ cur hcur with ⟨-, hstep⟩ | ⟨hty, n, hn0, hn, hstep⟩
    · refine ⟨blocks ++ [(cur, [])], ?_, ?_, ?_⟩
      · rw [List.map_append, hfst, htake]; rfl
      · rw [phaseB_succ, hstep]
        simp only [hfused, flattenBlocks, List.flatMap_append, List.append_assoc]
        simp
      · intro b hb
        rcases List.mem_append.1 hb with hb | hb
        · exact hall b hb
        · rw [List.mem_singleton] at hb; subst hb; exact Or.inl rfl
    · refine ⟨blocks ++ [(cur, [reformatFor dev (cur.name ++ REFORMAT_NAME_SUFFIX)
        cur.param.quantized (reformat_outs (phaseB dev count m st).layers_orig m cur) n])],
        ?_, ?_, ?_⟩
      · rw [List.map_append, hfst, htake]; rfl
      · rw [phaseB_succ, hstep]
        simp only [hfused, flattenBlocks, List.flatMap_append, List.append_assoc]
        simp
      · intro b hb
        rcases List.mem_append.1 hb with hb | hb
        · exact hall b hb
        · rw [List.mem_singleton] at hb
          subst hb
          exact Or.inr ⟨hty, _, n, List.filter_sublist _, hn0, hn, rfl⟩

theorem virtualStatus_eq {net : NetStructure} {K : String} {v : Bool}
    (h : src_quantized_of (net.input_data_type_map K) = some v) : virtualStatus net K = v := by
  unfold src_quantized_of at h
  unfold virtualStatus
  split at h
  · rename_i hf
    cases h
    simp [hf]
  · split at h
    · rename_i hi
      cases h
      simp [hi]
    · cases h

theorem renameInput_cases (net : NetStructure) (a : LayerInfo) (x : String) :
    renameInput net a x = x ∨ renameInput net a x = x ++ REFORMAT_NAME_SUFFIX := by
  unfold renameInput
  split
  · exact Or.inr rfl
  · exact Or.inl rfl

/-- The first loop, when it succeeds on declared inputs that are distinct and do not
end in the suffix: the inputs of each layer are renamed by `renameInput` for the
declared inputs examined, and one `Reformat` layer is appended for each examined
input that is read by both kinds of layers. -/
theorem phaseA_exact (dev : DeviceType) (net : NetStructure) :
    ∀ (ks done : List String) (st : OptState),
      (done ++ ks).Nodup → (∀ K ∈ done ++ ks, ¬ EndsWithSuffix K) →
      LayersRel (fun _ a x b => (x ∈ done → b = renameInput net a x) ∧ (x ∉ done → b = x))
        net.layers st.layers_orig →
      (phaseA dev net.input_data_type_map net.layers.length ks st).1 = Status.TNN_OK →
      LayersRel (fun _ a x b => (x ∈ done ++ ks → b = renameInput net a x) ∧
          (x ∉ done ++ ks → b = x)) net.layers
          (phaseA dev net.input_data_type_map net.layers.length ks st).2.layers_orig ∧
        (phaseA dev net.input_data_type_map net.layers.length ks st).2.layers_fused =
          st.layers_fused ++
            (ks.filter fun K => decide (ReadByBoth net.layers K)).map (inputReformat dev net)
  | [], done, st, _, _, hrel, _ => by
    simp only [phaseA, List.append_nil, List.filter_nil, List.map_nil]
    exact ⟨hrel, trivial⟩
  | K :: rest, done, st, hnd, hfr, hrel, hok => by
    have hKd : K ∉ done := fun h =>
      (List.nodup_append.1 hnd).2.2 h (List.mem_cons_self _ _)
    have hKf : ¬ EndsWithSuffix K := hfr K (List.mem_append_right _ (List.mem_cons_self _ _))
    have hnd' : ((done ++ [K]) ++ rest).Nodup := by simpa using hnd
    have hfr' : ∀ K' ∈ (done ++ [K]) ++ rest, ¬ EndsWithSuffix K' := by simpa using hfr
    have hmix : ReadByBoth st.layers_orig K ↔ ReadByBoth net.layers K := by
      have hb : ∀ (j : Nat) (a : LayerInfo) (x : String),
          ((x ∈ done → K = renameInput net a x) ∧ (x ∉ done → K = x)) → x = K := by
        intro j a x hx
        by_cases hxd : x ∈ done
        · have := hx.1 hxd
          rcases renameInput_cases net a x with h | h
          · rw [h] at this; exact absurd (this ▸ hxd) hKd
          · rw [h] at this; exact absurd (this ▸ endsWithSuffix_append x) hKf
        · exact (hx.2 hxd).symm
      constructor
      · exact fun h => ⟨readBy_backward hrel hb h.1, readBy_backward hrel hb h.2⟩
      · exact fun h => ⟨readBy_forward hrel (fun _ _ b hb => hb.2 hKd) h.1,
          readBy_forward hrel (fun _ _ b hb => hb.2 hKd) h.2⟩
    unfold phaseA at hok ⊢
    by_cases hcur : 0 < need_int8_input K st.layers_orig ∧ 0 < need_fp32_input K st.layers_orig
    · rw [if_pos hcur] at hok ⊢
      have hmixed : ReadByBoth net.layers K := hmix.1 ((mixed_iff _ _).1 hcur)
      cases hins : insertForInput dev net.input_data_type_map net.layers.length K st with
      | none => rw [hins] at hok; cases hok
      | some st' =>
        rw [hins] at hok
        simp only [] at hok ⊢
        obtain ⟨v, hv, hlay, -, -, hfused⟩ := insertForInput_spec hins
        have hvs := virtualStatus_eq hv
        have hrel' : LayersRel (fun _ a x b => (x ∈ done ++ [K] → b = renameInput net a x) ∧
            (x ∉ done ++ [K] → b = x)) net.layers st'.layers_orig := by
          rw [hlay]
          refine layersRel_step_gen hrel ?_
          intro j a x b ha hr
          have hj : (0 : Int) ≤ (j : Int) ∧ (j : Int) < (net.layers.length : Int) :=
            ⟨by omega, by exact_mod_cast (List.getElem?_eq_some_iff.1 ha).1⟩
          by_cases hxd : x ∈ done
          · have hb := hr.1 hxd
            have hbK : b ≠ K := by
              intro e
              rcases renameInput_cases net a x with h | h
              · rw [h] at hb; rw [hb] at e; exact hKd (e ▸ hxd)
              · rw [h] at hb; exact hKf (e ▸ hb ▸ endsWithSuffix_append x)
            rw [if_neg (fun h => hbK h.2.1)]
            exact ⟨fun _ => hb, fun h => absurd (List.mem_append_left _ hxd) h⟩
          · have hb := hr.2 hxd
            subst hb
            by_cases hxK : b = K
            · subst hxK
              refine ⟨fun _ => ?_, fun h => absurd (List.mem_append_right _
                (List.mem_singleton.2 rfl)) h⟩
              unfold renameInput
              rw [hvs]
              by_cases hq : a.param.quantized ≠ v
              · rw [if_pos ⟨hj, rfl, hq⟩, if_pos ⟨hmixed, hq⟩]
              · rw [if_neg (fun h => hq h.2.2), if_neg (fun h => hq h.2)]
            · rw [if_neg (fun h => hxK h.2.1)]
              refine ⟨fun h => ?_, fun _ => rfl⟩
              rcases List.mem_append.1 h with h | h
              · exact absurd h hxd
              · exact absurd (List.mem_singleton.1 h) hxK
        obtain ⟨h1, h2⟩ := phaseA_exact dev net rest (done ++ [K]) st' hnd' hfr' hrel' hok
        refine ⟨?_, ?_⟩
        · simpa using h1
        · rw [h2, hfused, List.filter_cons_of_pos (by simpa using hmixed), List.map_cons,
            List.append_assoc, List.singleton_append]
          unfold inputReformat
          rw [hvs]
    · rw [if_neg hcur] at hok ⊢
      have hnot : ¬ ReadByBoth net.layers K := fun h => hcur ((mixed_iff _ _).2 (hmix.2 h))
      have hrel' : LayersRel (fun _ a x b => (x ∈ done ++ [K] → b = renameInput net a x) ∧
          (x ∉ done ++ [K] → b = x)) net.layers st.layers_orig := by
        refine layersRel_mono ?_ hrel
        intro j a x b hr
        refine ⟨fun h => ?_, fun h => hr.2 (fun hd => h (List.mem_append_left _ hd))⟩
        rcases List.mem_append.1 h with h | h
        · exact hr.1 h
        · rw [List.mem_singleton] at h
          subst h
          rw [hr.2 hKd]
          unfold renameInput
          rw [if_neg (fun h => hnot h.1)]
      obtain ⟨h1, h2⟩ := phaseA_exact dev net rest (done ++ [K]) st hnd' hfr' hrel' hok
      refine ⟨?_, ?_⟩
      · simpa using h1
      · rw [h2, List.filter_cons_of_neg (by simpa using hnot)]

theorem phaseA_length (dev : DeviceType) (tm : String → DataType) (count : Nat)
    (keys : List String) (st : OptState) :
    (phaseA dev tm count keys st).2.layers_orig.length = st.layers_orig.length :=
  phaseA_layers dev tm count (fun L => L.length = st.layers_orig.length) keys st
    (fun L _ _ _ _ hL => (forRange_length _ _ _ _ L).trans hL) rfl

theorem flattenBlocks_nil_extras (L : List LayerInfo) :
    flattenBlocks (L.map fun l => (l, [])) = L := by
  induction L with
  | nil => rfl
  | cons l ls ih =>
    simp only [flattenBlocks, List.map_cons, List.flatMap_cons] at ih ⊢
    rw [ih]
    rfl

/-- The shape of the result of a successful call: the `Reformat` layers made for
graph inputs, then each original layer (as it is after the call) followed by what the
second loop inserted after it. -/
theorem result_blocks (dev : DeviceType) (net : NetStructure) (res : NetResource)
    (hok : (Optimize dev (some net) res).1 = Status.TNN_OK) :
    ∃ (A : List LayerInfo) (blocks : List (LayerInfo × List LayerInfo)),
      resultLayers (Optimize dev (some net) res) = A ++ flattenBlocks blocks ∧
      blocks.map Prod.fst = layersAfter dev net res ∧
      (∀ R ∈ A, CreatedForInput dev net R) ∧
      (∀ b ∈ blocks, InsertedAfter dev b.1 b.2) ∧
      (1 < net.layers.length → GetQuantizedInfoFromNetStructure net = true →
        A = (phaseA dev net.input_data_type_map net.layers.length net.inputs_shape_map
          (OptState.init net res)).2.layers_fused) := by
  by_cases hfast : net.layers.length ≤ 1 ∨ GetQuantizedInfoFromNetStructure net = false
  · have hnone := (run_eq_none_iff dev net res).2 hfast
    refine ⟨[], net.layers.map fun l => (l, []), ?_, ?_, ?_, fun b hb => ?_, fun h1 h2 => ?_⟩
    · rw [Optimize_of_run_none hnone, flattenBlocks_nil_extras]; rfl
    · unfold layersAfter
      rw [hnone, List.map_map]
      exact List.map_id _
    · intro R hR; cases hR
    · obtain ⟨l, -, rfl⟩ := List.mem_map.1 hb
      exact Or.inl rfl
    · rcases hfast with h | h
      · omega
      · rw [h2] at h; cases h
  · rw [not_or] at hfast
    have h1 : 1 < net.layers.length := by omega
    have h2 : GetQuantizedInfoFromNetStructure net = true := by simpa using hfast.2
    have hA := phaseA_ok_of_Optimize_ok h1 h2 hok
    have hrun := run_of_phaseA_ok dev res h1 h2 hA
    obtain ⟨A, hAf, hAll⟩ := phaseA_fused dev net net.layers.length net.inputs_shape_map
      (OptState.init net res) (fun _ h => h)
    have hlenA := phaseA_length dev net.input_data_type_map net.layers.length
      net.inputs_shape_map (OptState.init net res)
    obtain ⟨blocks, hfst, hfused, hins⟩ := phaseB_blocks dev net.layers.length
      (phaseA dev net.input_data_type_map net.layers.length net.inputs_shape_map
        (OptState.init net res)).2 net.layers.length (by rw [hlenA]; exact Nat.le_refl _)
    have hlenB := phaseB_length dev net.layers.length
      (phaseA dev net.input_data_type_map net.layers.length net.inputs_shape_map
        (OptState.init net res)).2 net.layers.length
    refine ⟨A, blocks, ?_, ?_, hAll, hins, fun _ _ => ?_⟩
    · rw [Optimize_of_run_ok hrun]
      show (phaseB _ _ _ _).layers_fused = _
      rw [hfused, hAf]
      rfl
    · unfold layersAfter
      rw [hrun, hfst]
      simp only []
      rw [List.take_of_length_le]
      rw [hlenB, hlenA]
      exact Nat.le_refl _
    · rw [hAf]; rfl

theorem filter_inputReformats (dev : DeviceType) (net : NetStructure) (I : String) :
    ∀ (ks : List String), ks.Nodup →
      ((ks.filter fun K => decide (ReadByBoth net.layers K)).map (inputReformat dev net)).filter
          (fun l => decide (I ∈ l.inputs)) =
        if I ∈ ks ∧ ReadByBoth net.layers I then [inputReformat dev net I] else []
  | [], _ => by simp
  | K :: rest, hnd => by
    have ih := filter_inputReformats dev net I rest (List.nodup_cons.1 hnd).2
    have hKr : K ∉ rest := (List.nodup_cons.1 hnd).1
    have hin : ∀ K', (I ∈ (inputReformat dev net K').inputs) ↔ I = K' := by
      intro K'
      show I ∈ [K'] ↔ _
      simp
    by_cases hm : ReadByBoth net.layers K
    · rw [List.filter_cons_of_pos (by simpa using hm), List.map_cons]
      by_cases hIK : I = K
      · subst hIK
        rw [List.filter_cons_of_pos (by simpa using (hin I).2 rfl), ih,
          if_neg (fun h => hKr h.1), if_pos ⟨List.mem_cons_self _ _, hm⟩]
      · rw [List.filter_cons_of_neg (by simpa using fun h => hIK ((hin K).1 h)), ih]
        simp [hIK]
    · rw [List.filter_cons_of_neg (by simpa using hm), ih]
      by_cases hIK : I = K
      · subst hIK
        simp [hm]
      · simp [hIK]

theorem namesFresh_inputs {net : NetStructure} (h : NamesFresh net) : InputsFresh net :=
  fun K hK => h K (List.mem_append_left _ (List.mem_append_left _ hK))

theorem namesFresh_outputs {net : NetStructure} (h : NamesFresh net) :
    OutputsFresh net.layers := by
  intro l hl o ho
  refine h o (List.mem_append_left _ (List.mem_append_right _ ?_))
  exact List.mem_flatMap.2 ⟨l, hl, List.mem_append_right _ ho⟩

theorem reformatFor_delivers (dev : DeviceType) (name : String) (q : Bool) (outs : List String)
    (n : Nat) {aq : Bool} (haq : aq ≠ q) {o : String} (ho : o ∈ outs.take n) :
    Delivers (reformatFor dev name q outs n) aq (o ++ REFORMAT_NAME_SUFFIX) := by
  refine ⟨rfl, List.mem_map_of_mem _ ho, ?_⟩
  unfold reformatFor CreateReformat
  by_cases hd : dev = DeviceType.DEVICE_ARM
  · simp only [hd, if_true]
    refine ⟨_, rfl, ?_⟩
    cases q <;> cases aq <;> simp_all
  · simp only [hd, if_false]
    refine ⟨_, rfl, ?_⟩
    cases q <;> cases aq <;> simp_all

/-- Rewiring for each processed name keeps: an input is unchanged or delivered by a
layer of `F`, once the new `Reformat` layer is in `F`. -/
theorem fold_delivers {L0 : List LayerInfo} (q : Bool) (lo : Int) (count : Nat)
    (F : List LayerInfo) (Rnew : LayerInfo) (hR : Rnew ∈ F) (names : List String)
    (hnew : ∀ o ∈ names, ∀ aq, aq ≠ q → Delivers Rnew aq (o ++ REFORMAT_NAME_SUFFIX)) :
    ∀ (outs : List String) (L : List LayerInfo), (∀ o ∈ outs, o ∈ names) →
      LayersRel (fun _ a x y => y = x ∨ ∃ R ∈ F, Delivers R a.param.quantized y) L0 L →
      LayersRel (fun _ a x y => y = x ∨ ∃ R ∈ F, Delivers R a.param.quantized y) L0
        (outs.foldl (fun L o =>
          forRange (rewire o (o ++ REFORMAT_NAME_SUFFIX) q) lo count 0 L) L)
  | [], _, _, h => h
  | o :: rest, L, hsub, h => by
    rw [List.foldl_cons]
    refine fold_delivers q lo count F Rnew hR names hnew rest _
      (fun o' ho' => hsub o' (List.mem_cons_of_mem _ ho')) ?_
    refine layersRel_step h ?_
    intro j a x b _ _ _ _ hq _
    exact Or.inr ⟨Rnew, hR, hnew o (hsub o (List.mem_cons_self _ _)) _ hq⟩

/-- The invariant of the run behind the repaired edges: every input of an original
layer is the original name or is delivered, in the representation of the layer, by a
`Reformat` layer of the fused sequence. -/
theorem stepB_delivers (dev : DeviceType) (count : Nat) (L0 : List LayerInfo) (k : Nat)
    (st : OptState)
    (h : LayersRel (fun _ a x y => y = x ∨ ∃ R ∈ st.layers_fused,
      Delivers R a.param.quantized y) L0 st.layers_orig) :
    LayersRel (fun _ a x y => y = x ∨ ∃ R ∈ (stepB dev count k st).layers_fused,
      Delivers R a.param.quantized y) L0 (stepB dev count k st).layers_orig := by
  cases hcur : st.layers_orig[k]? with
  | none => rw [stepB_of_none hcur]; exact h
  | some cur =>
    rcases @stepB_spec dev count k st cur hcur with ⟨-, hstep⟩ | ⟨-, n, -, -, hstep⟩
    · rw [hstep]
      refine layersRel_mono ?_ h
      rintro j a x y (hy | ⟨R, hR, hd⟩)
      · exact Or.inl hy
      · exact Or.inr ⟨R, List.mem_append_left _ hR, hd⟩
    · rw [hstep]
      simp only []
      refine fold_delivers cur.param.quantized _ count _
        (reformatFor dev (cur.name ++ REFORMAT_NAME_SUFFIX) cur.param.quantized
          (reformat_outs st.layers_orig k cur) n)
        (List.mem_append_right _ (List.mem_cons_of_mem _ (List.mem_singleton.2 rfl)))
        ((reformat_outs st.layers_orig k cur).take n)
        (fun o ho aq haq => reformatFor_delivers dev _ _ _ n haq ho) _ _ (fun _ ho => ho) ?_
      refine layersRel_mono ?_ h
      rintro j a x y (hy | ⟨R, hR, hd⟩)
      · exact Or.inl hy
      · exact Or.inr ⟨R, List.mem_append_left _ hR, hd⟩

theorem phaseB_delivers (dev : DeviceType) (count : Nat) (L0 : List LayerInfo)
    (st : OptState) :
    ∀ (m : Nat),
      LayersRel (fun _ a x y => y = x ∨ ∃ R ∈ st.layers_fused,
        Delivers R a.param.quantized y) L0 st.layers_orig →
      LayersRel (fun _ a x y => y = x ∨ ∃ R ∈ (phaseB dev count m st).layers_fused,
        Delivers R a.param.quantized y) L0 (phaseB dev count m st).layers_orig
  | 0, h => h
  | m + 1, h => by
    rw [phaseB_succ]
    exact stepB_delivers dev count L0 m _ (phaseB_delivers dev count L0 st m h)

theorem phaseA_delivers (dev : DeviceType) (tm : String → DataType) (count : Nat)
    (L0 : List LayerInfo) :
    ∀ (keys : List String) (st : OptState),
      LayersRel (fun _ a x y => y = x ∨ ∃ R ∈ st.layers_fused,
        Delivers R a.param.quantized y) L0 st.layers_orig →
      LayersRel (fun _ a x y => y = x ∨ ∃ R ∈ (phaseA dev tm count keys st).2.layers_fused,
        Delivers R a.param.quantized y) L0 (phaseA dev tm count keys st).2.layers_orig
  | [], _, h => h
  | K :: rest, st, h => by
    unfold phaseA
    split
    · cases hins : insertForInput dev tm count K st with
      | none => exact h
      | some st' =>
        simp only []
        refine phaseA_delivers dev tm count L0 rest st' ?_
        obtain ⟨v, -, hlay, -, -, hfused⟩ := insertForInput_spec hins
        rw [hlay, hfused]
        have := fold_delivers v 0 count
          (st.layers_fused ++
            [reformatFor dev (K ++ REFORMAT_NAME_SUFFIX ++ "__from_model_input__") v [K] 1])
          (reformatFor dev (K ++ REFORMAT_NAME_SUFFIX ++ "__from_model_input__") v [K] 1)
          (List.mem_append_right _ (List.mem_singleton.2 rfl)) [K]
          (fun o ho aq haq => reformatFor_delivers dev _ _ _ 1 haq (by simpa using ho))
          [K] st.layers_orig (fun _ ho => ho)
          (layersRel_mono (by
            rintro j a x y (hy | ⟨R, hR, hd⟩)
            · exact Or.inl hy
            · exact Or.inr ⟨R, List.mem_append_left _ hR, hd⟩) h)
        exact this
    · exact phaseA_delivers dev tm count L0 rest st h

theorem phaseA_cons_mixed {dev : DeviceType} {tm : String → DataType} {count : Nat}
    {K : String} {rest : List String} {st st' : OptState}
    (hmix : 0 < need_int8_input K st.layers_orig ∧ 0 < need_fp32_input K st.layers_orig)
    (hins : insertForInput dev tm count K st = some st') :
    phaseA dev tm count (K :: rest) st = phaseA dev tm count rest st' := by
  rw [phaseA, if_pos hmix, hins]

theorem phaseA_cons_fail {dev : DeviceType} {tm : String → DataType} {count : Nat}
    {K : String} {rest : List String} {st : OptState}
    (hmix : 0 < need_int8_input K st.layers_orig ∧ 0 < need_fp32_input K st.layers_orig)
    (hins : insertForInput dev tm count K st = none) :
    phaseA dev tm count (K :: rest) st = (Status.TNNERR_UNSUPPORT_NET, st) := by
  rw [phaseA, if_pos hmix, hins]

theorem phaseA_cons_unmixed {dev : DeviceType} {tm : String → DataType} {count : Nat}
    {K : String} {rest : List String} {st : OptState}
    (hmix : ¬ (0 < need_int8_input K st.layers_orig ∧ 0 < need_fp32_input K st.layers_orig)) :
    phaseA dev tm count (K :: rest) st = phaseA dev tm count rest st := by
  rw [phaseA, if_neg hmix]

theorem phaseA_append (dev : DeviceType) (tm : String → DataType) (count : Nat)
    (post : List String) :
    ∀ (pre : List String) (st : OptState),
      (phaseA dev tm count (pre ++ post) st).1 = Status.TNN_OK →
      (phaseA dev tm count pre st).1 = Status.TNN_OK ∧
        phaseA dev tm count (pre ++ post) st =
          phaseA dev tm count post (phaseA dev tm count pre st).2
  | [], st, _ => ⟨rfl, rfl⟩
  | K :: pre, st, h => by
    rw [List.cons_append] at h ⊢
    by_cases hmix : 0 < need_int8_input K st.layers_orig ∧ 0 < need_fp32_input K st.layers_orig
    · cases hins : insertForInput dev tm count K st with
      | none => rw [phaseA_cons_fail hmix hins] at h; cases h
      | some st' =>
        rw [phaseA_cons_mixed hmix hins] at h ⊢
        rw [phaseA_cons_mixed hmix hins]
        exact phaseA_append dev tm count post pre st' h
    · rw [phaseA_cons_unmixed hmix] at h ⊢
      rw [phaseA_cons_unmixed hmix]
      exact phaseA_append dev tm count post pre st h

theorem exists_first_occurrence {x : String} :
    ∀ {l : List String}, x ∈ l → ∃ pre post, l = pre ++ x :: post ∧ x ∉ pre
  | [], h => by cases h
  | y :: ys, h => by
    by_cases hxy : x = y
    · subst hxy
      exact ⟨[], ys, rfl, List.not_mem_nil _⟩
    · have hx : x ∈ ys := by
        rcases List.mem_cons.1 h with h | h
        · exact absurd h hxy
        · exact h
      obtain ⟨pre, post, hl, hpre⟩ := exists_first_occurrence hx
      refine ⟨y :: pre, post, by rw [hl]; rfl, ?_⟩
      intro hmem
      rcases List.mem_cons.1 hmem with h | h
      · exact hxy h
      · exact hpre h

/-- The composition of two renamings of the layers. -/
theorem layersRel_comp {R1 R2 : Nat → LayerInfo → String → String → Prop}
    {L0 L1 L2 : List LayerInfo} (h1 : LayersRel R1 L0 L1) (h2 : LayersRel R2 L1 L2) :
    LayersRel (fun j a x z => ∃ b y, L1[j]? = some b ∧ R1 j a x y ∧ R2 j b y z) L0 L2 := by
  refine ⟨h2.1.trans h1.1, fun j a c ha hc => ?_⟩
  obtain ⟨b, hb, hsf1, hin1⟩ := layersRel_get h1 ha
  obtain ⟨hsf2, hin2⟩ := h2.2 j b c hb hc
  refine ⟨⟨hsf2.1.trans hsf1.1, hsf2.2.1.trans hsf1.2.1, hsf2.2.2.1.trans hsf1.2.2.1,
    hsf2.2.2.2.1.trans hsf1.2.2.2.1, hsf2.2.2.2.2.trans hsf1.2.2.2.2⟩, ?_⟩
  have : ∀ (l1 l2 l3 : List String), List.Forall₂ (R1 j a) l1 l2 → List.Forall₂ (R2 j b) l2 l3 →
      List.Forall₂ (fun x z => ∃ b' y, L1[j]? = some b' ∧ R1 j a x y ∧ R2 j b' y z) l1 l3 := by
    intro l1 l2 l3 h12
    induction h12 generalizing l3 with
    | nil => intro h23; cases h23; exact List.Forall₂.nil
    | cons hxy _ ih =>
      intro h23
      cases h23 with
      | cons hyz htl => exact List.Forall₂.cons ⟨b, _, hb, hxy, hyz⟩ (ih _ htl)
  exact this _ _ _ hin1 hin2

/-- Names ending in the suffix still end in it after any rewiring. -/
theorem stays_step {Lb L : List LayerInfo} (o : String) (q : Bool) (lo hi : Int)
    (h : LayersRel (fun _ _ x y => EndsWithSuffix x → EndsWithSuffix y) Lb L) :
    LayersRel (fun _ _ x y => EndsWithSuffix x → EndsWithSuffix y) Lb
      (forRange (rewire o (o ++ REFORMAT_NAME_SUFFIX) q) lo hi 0 L) :=
  layersRel_step h fun _ _ _ _ _ _ _ _ _ _ _ => endsWithSuffix_append o

theorem phaseA_stays (dev : DeviceType) (tm : String → DataType) (count : Nat)
    (keys : List String) (st : OptState) :
    LayersRel (fun _ _ x y => EndsWithSuffix x → EndsWithSuffix y) st.layers_orig
      (phaseA dev tm count keys st).2.layers_orig :=
  phaseA_layers dev tm count
    (LayersRel (fun _ _ x y => EndsWithSuffix x → EndsWithSuffix y) st.layers_orig) keys st
    (fun _ o q _ _ hL => stays_step o q _ _ hL) (layersRel_refl (fun _ _ _ h => h) _)

theorem phaseB_stays (dev : DeviceType) (count : Nat) (st : OptState) (m d : Nat) :
    LayersRel (fun _ _ x y => EndsWithSuffix x → EndsWithSuffix y)
      (phaseB dev count m st).layers_orig (phaseB dev count (m + d) st).layers_orig :=
  (phaseB_layers_from dev count (phaseB dev count m st).layers_orig
    (LayersRel (fun _ _ x y => EndsWithSuffix x → EndsWithSuffix y)
      (phaseB dev count m st).layers_orig) m st d
    (fun _ _ a o _ _ _ _ _ _ hL => stays_step o a.param.quantized _ _ hL)
    (shape_refl _) (layersRel_refl (fun _ _ _ h => h) _)).2

/-- The relation kept by every run: a name that does not end in the suffix is the
original name at its place. -/
theorem origin_step {L0 L : List LayerInfo} (o : String) (q : Bool) (lo hi : Int)
    (h : LayersRel (fun _ _ x y => ¬ EndsWithSuffix y → y = x) L0 L) :
    LayersRel (fun _ _ x y => ¬ EndsWithSuffix y → y = x) L0
      (forRange (rewire o (o ++ REFORMAT_NAME_SUFFIX) q) lo hi 0 L) :=
  layersRel_step h fun _ _ _ _ _ _ _ _ _ _ hne => absurd (endsWithSuffix_append o) hne

theorem phaseA_origin (dev : DeviceType) (tm : String → DataType) (count : Nat)
    (L0 : List LayerInfo) (keys : List String) (st : OptState)
    (h : LayersRel (fun _ _ x y => ¬ EndsWithSuffix y → y = x) L0 st.layers_orig) :
    LayersRel (fun _ _ x y => ¬ EndsWithSuffix y → y = x) L0
      (phaseA dev tm count keys st).2.layers_orig :=
  phaseA_layers dev tm count (LayersRel (fun _ _ x y => ¬ EndsWithSuffix y → y = x) L0) keys st
    (fun _ o q _ _ hL => origin_step o q _ _ hL) h

theorem phaseB_origin (dev : DeviceType) (count : Nat) (L0 : List LayerInfo) (st : OptState)
    (m : Nat) (h : LayersRel (fun _ _ x y => ¬ EndsWithSuffix y → y = x) L0 st.layers_orig) :
    LayersRel (fun _ _ x y => ¬ EndsWithSuffix y → y = x) L0
      (phaseB dev count m st).layers_orig :=
  (phaseB_layers dev count L0 (LayersRel (fun _ _ x y => ¬ EndsWithSuffix y → y = x) L0) m st
    (fun _ _ a o _ _ _ _ _ hL => origin_step o a.param.quantized _ _ hL)
    (layersRel_mono (fun _ _ _ _ _ => trivial) h) h).2

/-- The effect of iteration `i` of the second loop on the current readers of a
marked output: let `P = L0[i]` (not a `Reformat`) output `T` and let the layer at
index `j > i` (not a `Reformat`, with a different flag) read `T` in the state `st`.
When the outputs of `P` do not end in the suffix and the scale entries required by
`L0` are in the store, layer `j` reads `T` + suffix after the iteration wherever it
read `T` before it. -/
theorem stepB_boundary_cur (dev : DeviceType) (count : Nat) (L0 : List LayerInfo)
    (M0 : List (String × Nat)) (st : OptState) (i j : Nat) (P Cj : LayerInfo) (T : String)
    (hcount : (j : Int) < count)
    (hrel : LayersRel (fun _ _ x b => ¬ EndsWithSuffix b → b = x) L0 st.layers_orig)
    (hmap : MapExtends M0 st.resource_map)
    (hfresh : OutputsFresh L0) (hscale : InteriorScales L0 M0)
    (hP : L0[i]? = some P) (hij : i < j) (hPt : P.type ≠ LayerType.LAYER_REFORMAT)
    (hT : T ∈ P.outputs)
    (hCj : st.layers_orig[j]? = some Cj) (hCt : Cj.type ≠ LayerType.LAYER_REFORMAT)
    (hTC : T ∈ Cj.inputs) (hq : Cj.param.quantized ≠ P.param.quantized) :
    LayersRel (fun j' _ x b => j' = j → x = T → b = T ++ REFORMAT_NAME_SUFFIX) st.layers_orig
      (stepB dev count i st).layers_orig := by
  obtain ⟨cur, hcur, hsf, -⟩ := layersRel_get hrel hP
  have hqC : Cj.param.quantized = !cur.param.quantized := by
    rw [hsf.2.2.2.2]
    cases hp : P.param.quantized <;> cases hc : Cj.param.quantized <;> simp_all
  have hTouts : T ∈ reformat_outs st.layers_orig i cur := by
    rw [mem_reformat_outs_iff, laterReader_iff]
    exact ⟨hsf.2.2.2.1 ▸ hT, j, Cj, hij, hCj, hCt, hTC, hqC⟩
  have hbranch : ¬ (cur.type = LayerType.LAYER_REFORMAT ∨
      reformat_outs st.layers_orig i cur = []) := by
    rintro (h | h)
    · exact hPt (hsf.1 ▸ h)
    · rw [h] at hTouts; cases hTouts
  have houts_fresh : ∀ o ∈ reformat_outs st.layers_orig i cur, ¬ EndsWithSuffix o :=
    fun o ho => hfresh P (mem_of_getElem?_some hP) o (hsf.2.2.2.1 ▸ mem_reformat_outs ho)
  have hnoret : cur.param.quantized = true ∨ ∀ o ∈ reformat_outs st.layers_orig i cur,
      mapFind st.resource_map (o ++ BLOB_SCALE_SUFFIX) ≠ none := by
    cases hcq : cur.param.quantized with
    | true => exact Or.inl rfl
    | false =>
      right
      intro o ho
      have ho' := mem_reformat_outs_iff.1 ho
      rw [hcq] at ho'
      have hlater : LaterReader L0 i o true :=
        laterReader_backward hrel (fun _ _ x hx => (hx (houts_fresh o ho)).symm) ho'.2
      obtain ⟨hi, hPi⟩ := List.getElem?_eq_some_iff.1 hP
      have hsc := hscale i hi (hPi ▸ hPt) (by rw [hPi, ← hsf.2.2.2.2]; exact hcq) o
        (by rw [hPi, ← hsf.2.2.2.1]; exact ho'.1) hlater
      cases hf : mapFind M0 (o ++ BLOB_SCALE_SUFFIX) with
      | none => exact absurd hf hsc
      | some v => rw [hmap _ v hf]; simp
  obtain ⟨-, hlay⟩ := AdjustLayer_no_return st.layers_orig st.blobs st.resource_map cur
    (CreateReformat dev (cur.name ++ REFORMAT_NAME_SUFFIX) cur.param.quantized)
    (reformat_outs st.layers_orig i cur) i count hnoret
  rw [stepB_of_some hcur, if_neg hbranch]
  simp only [hlay]
  have h0 : LayersRel (fun j' _ x b => j' = j → x = T →
      (False → b = T ++ REFORMAT_NAME_SUFFIX) ∧ (¬ False → b = T)) st.layers_orig
      st.layers_orig :=
    layersRel_refl (fun _ _ x _ hx => ⟨fun h => h.elim, fun _ => hx⟩) _
  have := fold_renames cur.param.quantized ((i : Int) + 1) count T hCj
    (by rw [hsf.2.2.2.2]; exact hq) (by omega) hcount
    (reformat_outs st.layers_orig i cur) False st.layers_orig houts_fresh h0
  refine layersRel_mono ?_ this
  intro j' a x b hr hj hx
  exact (hr hj hx).1 (Or.inr hTouts)

theorem forall₂_stays_ne {l l' : List String} {p : Nat} {b y x : String}
    (h : List.Forall₂ (fun x y => EndsWithSuffix x → EndsWithSuffix y) l l')
    (hb : l[p]? = some b) (hy : l'[p]? = some y) (hend : EndsWithSuffix b)
    (hx : ¬ EndsWithSuffix x) : y ≠ x := by
  obtain ⟨y', hy', hr⟩ := forall₂_getElem?_left h p b hb
  rw [hy] at hy'
  cases hy'
  intro e
  exact hx (e ▸ hr hend)

/-- An interior boundary edge does not survive the second loop: if `P = L0[k]` (not a
`Reformat`) outputs `x` and the later layer `C = L0[j]` (not a `Reformat`, with a
different flag) has `x` as its input number `p`, then after all iterations layer `j`
does not have `x` at that place. -/
theorem boundary_is_renamed (dev : DeviceType) (L0 : List LayerInfo)
    (M0 : List (String × Nat)) (stA : OptState)
    (hrelA : LayersRel (fun _ _ x b => ¬ EndsWithSuffix b → b = x) L0 stA.layers_orig)
    (hmapA : MapExtends M0 stA.resource_map)
    (hfresh : OutputsFresh L0) (hscale : InteriorScales L0 M0)
    (k j p : Nat) (P C Cf : LayerInfo) (x : String)
    (hP : L0[k]? = some P) (hC : L0[j]? = some C) (hkj : k < j)
    (hPt : P.type ≠ LayerType.LAYER_REFORMAT) (hCt : C.type ≠ LayerType.LAYER_REFORMAT)
    (hx : x ∈ P.outputs) (hq : C.param.quantized ≠ P.param.quantized)
    (hCf : (phaseB dev L0.length L0.length stA).layers_orig[j]? = some Cf) :
    Cf.inputs[p]? ≠ some x := by
  intro hfin
  have hjn : j < L0.length := (List.getElem?_eq_some_iff.1 hC).1
  have hxf : ¬ EndsWithSuffix x := hfresh P (mem_of_getElem?_some hP) x hx
  have hrelK := phaseB_origin dev L0.length L0 stA k hrelA
  obtain ⟨Cj, hCj, hsfC, hinC⟩ := layersRel_get hrelK hC
  obtain ⟨b, hb, -⟩ : ∃ b, Cj.inputs[p]? = some b ∧ True := by
    have hlen := hinC.length_eq
    have hp : p < Cf.inputs.length := (List.getElem?_eq_some_iff.1 hfin).1
    obtain ⟨d, hd⟩ : ∃ d, L0.length = k + d := ⟨L0.length - k, by omega⟩
    have hst := phaseB_stays dev L0.length stA k d
    rw [← hd] at hst
    obtain ⟨hsf', hin'⟩ := hst.2 j Cj Cf hCj hCf
    have hp' : p < Cj.inputs.length := by rw [hin'.length_eq]; exact hp
    exact ⟨_, List.getElem?_eq_getElem hp', trivial⟩
  by_cases hbe : EndsWithSuffix b
  · obtain ⟨d, hd⟩ : ∃ d, L0.length = k + d := ⟨L0.length - k, by omega⟩
    have hst := phaseB_stays dev L0.length stA k d
    rw [← hd] at hst
    exact forall₂_stays_ne (hst.2 j Cj Cf hCj hCf).2 hb hfin hbe hxf rfl
  · -- the reader still holds `x` before iteration `k`
    have hbx : b = x := by
      obtain ⟨x', hx', hr⟩ := forall₂_getElem?_right hinC p b hb
      have hCp : C.inputs[p]? = some x := by
        obtain ⟨d, hd⟩ : ∃ d, L0.length = 0 + d := ⟨L0.length, by omega⟩
        have horig := phaseB_origin dev L0.length L0 stA L0.length hrelA
        obtain ⟨hsf0, hin0⟩ := horig.2 j C Cf hC hCf
        obtain ⟨x0, hx0, hr0⟩ := forall₂_getElem?_right hin0 p x hfin
        rw [hx0, ← hr0 hxf]
      rw [hCp] at hx'
      cases hx'
      exact hr hbe
    subst hbx
    have hmapK : MapExtends M0 (phaseB dev L0.length k stA).resource_map :=
      mapExtends_trans hmapA (phaseB_mapExtends dev _ k stA)
    have hstep := stepB_boundary_cur dev L0.length L0 M0 (phaseB dev L0.length k stA) k j P Cj
      b (by exact_mod_cast hjn) hrelK hmapK hfresh hscale hP hkj hPt hx hCj
      (hsfC.1 ▸ hCt) (mem_of_getElem?_some hb) (by rw [hsfC.2.2.2.2]; exact hq)
    rw [← phaseB_succ] at hstep
    obtain ⟨Cj1, hCj1, -, hin1⟩ := layersRel_get hstep hCj
    obtain ⟨y1, hy1, hr1⟩ := forall₂_getElem?_left hin1 p b hb
    have hy1e := hr1 rfl rfl
    subst hy1e
    obtain ⟨d, hd⟩ : ∃ d, L0.length = k + 1 + d := ⟨L0.length - (k + 1), by omega⟩
    have hst := phaseB_stays dev L0.length stA (k + 1) d
    rw [← hd] at hst
    exact forall₂_stays_ne (hst.2 j Cj1 Cf hCj1 hCf).2 hy1 hfin (endsWithSuffix_append b) hxf rfl

/-- A declared graph input that a layer still reads after a successful first loop
is of the layer's representation or was read by layers of the layer's kind only. -/
theorem input_unrenamed (dev : DeviceType) (net : NetStructure) (st0 : OptState)
    (hst0 : st0.layers_orig = net.layers)
    (hA : (phaseA dev net.input_data_type_map net.layers.length net.inputs_shape_map st0).1
      = Status.TNN_OK)
    (j p : Nat) (C Ca : LayerInfo) (x : String)
    (hxk : x ∈ net.inputs_shape_map) (hxf : ¬ EndsWithSuffix x)
    (hC : net.layers[j]? = some C) (hxp : C.inputs[p]? = some x)
    (hCa : (phaseA dev net.input_data_type_map net.layers.length net.inputs_shape_map
      st0).2.layers_orig[j]? = some Ca)
    (hfin : Ca.inputs[p]? = some x) :
    (net.input_data_type_map x = DataType.DATA_TYPE_INT8 ↔ C.param.quantized = true) ∨
      ∀ l ∈ net.layers, x ∈ l.inputs → l.param.quantized = C.param.quantized := by
  obtain ⟨pre, post, hkeys, hpre⟩ := exists_first_occurrence hxk
  rw [hkeys] at hA hCa
  obtain ⟨hApre, happ⟩ := phaseA_append dev net.input_data_type_map net.layers.length
    (x :: post) pre st0 hA
  rw [happ] at hA hCa
  -- the state when `x` is examined
  have hR1 : LayersRel (fun _ _ x' b => x' = x → b = x) net.layers
      (phaseA dev net.input_data_type_map net.layers.length pre st0).2.layers_orig := by
    refine phaseA_layers dev _ _ (LayersRel (fun _ _ x' b => x' = x → b = x) net.layers) pre st0
      ?_ (hst0 ▸ layersRel_refl (fun _ _ _ h => h) _)
    intro L o q ho _ hL
    refine layersRel_step hL ?_
    intro j' a x' b _ _ _ hr _ hb hx'
    have := hr hx'
    subst hb
    subst this
    exact absurd ho hpre
  generalize (phaseA dev net.input_data_type_map net.layers.length pre st0).2 = st1 at hA hCa hR1
  obtain ⟨C1, hC1, hsf1, hin1⟩ := layersRel_get hR1 hC
  have hC1p : C1.inputs[p]? = some x := by
    obtain ⟨y, hy, hr⟩ := forall₂_getElem?_left hin1 p x hxp
    rw [hy, hr rfl]
  have hjn : j < net.layers.length := (List.getElem?_eq_some_iff.1 hC).1
  by_cases hmix : 0 < need_int8_input x st1.layers_orig ∧ 0 < need_fp32_input x st1.layers_orig
  · cases hins : insertForInput dev net.input_data_type_map net.layers.length x st1 with
    | none => rw [phaseA_cons_fail hmix hins] at hA; cases hA
    | some st2 =>
      rw [phaseA_cons_mixed hmix hins] at hA hCa
      obtain ⟨v, hv, hlay, -, -, -⟩ := insertForInput_spec hins
      by_cases hqv : C.param.quantized = v
      · left
        have hvs := virtualStatus_eq hv
        unfold virtualStatus at hvs
        rw [hqv, ← hvs]
        simp
      · exfalso
        have hC2 : st2.layers_orig[j]? = some (rewire x (x ++ REFORMAT_NAME_SUFFIX) v C1) := by
          rw [hlay, forRange_getElem?, hC1]
          simp only [Option.map_some', Nat.zero_add, Option.some.injEq]
          rw [if_pos ⟨by omega, by exact_mod_cast hjn⟩]
        have hC2p : (rewire x (x ++ REFORMAT_NAME_SUFFIX) v C1).inputs[p]? =
            some (x ++ REFORMAT_NAME_SUFFIX) := by
          show (C1.inputs.map _)[p]? = _
          rw [List.getElem?_map, hC1p]
          show some (if x = x ∧ C1.param.quantized ≠ v then _ else _) = _
          rw [if_pos ⟨rfl, by rw [hsf1.2.2.2.2]; exact hqv⟩]
        have hst := phaseA_stays dev net.input_data_type_map net.layers.length post st2
        exact forall₂_stays_ne (hst.2 j _ Ca hC2 hCa).2 hC2p hfin (endsWithSuffix_append x)
          hxf rfl
  · right
    intro l hl hxl
    by_contra hne
    apply hmix
    rw [mixed_iff]
    have hrl : ReadBy st1.layers_orig x l.param.quantized :=
      readBy_forward hR1 (fun _ _ b hb => hb rfl) ⟨l, hl, hxl, rfl⟩
    have hrc : ReadBy st1.layers_orig x C.param.quantized :=
      readBy_forward hR1 (fun _ _ b hb => hb rfl)
        ⟨C, mem_of_getElem?_some hC, mem_of_getElem?_some hxp, rfl⟩
    cases hlq : l.param.quantized <;> cases hcq : C.param.quantized <;>
      rw [hlq] at hrl hne <;> rw [hcq] at hrc hne
    · exact absurd rfl hne
    · exact ⟨hrc, hrl⟩
    · exact ⟨hrl, hrc⟩
    · exact absurd rfl hne

theorem mem_flattenBlocks {blocks : List (LayerInfo × List LayerInfo)} {l : LayerInfo} :
    l ∈ flattenBlocks blocks ↔ ∃ b ∈ blocks, l = b.1 ∨ l ∈ b.2 := by
  unfold flattenBlocks
  rw [List.mem_flatMap]
  constructor
  · rintro ⟨b, hb, hl⟩
    exact ⟨b, hb, List.mem_cons.1 hl⟩
  · rintro ⟨b, hb, hl⟩
    exact ⟨b, hb, List.mem_cons.2 hl⟩

theorem aliasFold_cons (q : Bool) (o : String) (rest : List String) (M : List (String × Nat)) :
    aliasFold q (o :: rest) M = aliasFold q rest (aliasFold q [o] M) := rfl

theorem fold_joint (Inv : List LayerInfo → List (String × Nat) → Prop) (q : Bool) (lo : Int)
    (count : Nat) :
    ∀ (outs : List String) (L : List LayerInfo) (M : List (String × Nat)),
      (∀ L M o, o ∈ outs → Inv L M →
        Inv (forRange (rewire o (o ++ REFORMAT_NAME_SUFFIX) q) lo count 0 L)
          (aliasFold q [o] M)) →
      Inv L M →
      Inv (outs.foldl (fun L o => forRange (rewire o (o ++ REFORMAT_NAME_SUFFIX) q) lo count 0 L)
        L) (aliasFold q outs M)
  | [], _, _, _, h => h
  | o :: rest, L, M, hstep, h => by
    rw [List.foldl_cons, aliasFold_cons]
    exact fold_joint Inv q lo count rest _ _
      (fun L M o' ho' => hstep L M o' (List.mem_cons_of_mem _ ho'))
      (hstep L M o (List.mem_cons_self _ _) h)

theorem stepB_joint (dev : DeviceType) (count : Nat)
    (Inv : List LayerInfo → List (String × Nat) → Prop) (k : Nat) (st : OptState)
    (hB : ∀ L M cur o, st.layers_orig[k]? = some cur → cur.type ≠ LayerType.LAYER_REFORMAT →
      o ∈ reformat_outs st.layers_orig k cur → Inv L M →
      Inv (forRange (rewire o (o ++ REFORMAT_NAME_SUFFIX) cur.param.quantized) ((k : Int) + 1)
        count 0 L) (aliasFold cur.param.quantized [o] M))
    (h : Inv st.layers_orig st.resource_map) :
    Inv (stepB dev count k st).layers_orig (stepB dev count k st).resource_map := by
  cases hcur : st.layers_orig[k]? with
  | none => rw [stepB_of_none hcur]; exact h
  | some cur =>
    rcases @stepB_spec dev count k st cur hcur with ⟨-, hstep⟩ | ⟨hty, n, -, -, hstep⟩
    · rw [hstep]; exact h
    · rw [hstep]
      exact fold_joint Inv cur.param.quantized _ count _ _ _
        (fun L M o ho => hB L M cur o hcur hty (List.mem_of_mem_take ho)) h

theorem phaseB_joint (dev : DeviceType) (count : Nat) (L0 : List LayerInfo)
    (hfresh : OutputsFresh L0) (Inv : List LayerInfo → List (String × Nat) → Prop)
    (st : OptState)
    (horig : LayersRel (fun _ _ x y => ¬ EndsWithSuffix y → y = x) L0 st.layers_orig)
    (h : Inv st.layers_orig st.resource_map) :
    ∀ (m : Nat),
      (∀ L M (k : Nat) P o, k < m → L0[k]? = some P → P.type ≠ LayerType.LAYER_REFORMAT →
        o ∈ P.outputs → LaterReader L0 k o (!P.param.quantized) → Inv L M →
        Inv (forRange (rewire o (o ++ REFORMAT_NAME_SUFFIX) P.param.quantized) ((k : Int) + 1)
          count 0 L) (aliasFold P.param.quantized [o] M)) →
      Inv (phaseB dev count m st).layers_orig (phaseB dev count m st).resource_map
  | 0, _ => h
  | m + 1, hB => by
    rw [phaseB_succ]
    have ih := phaseB_joint dev count L0 hfresh Inv st horig h m
      (fun L M k P o hk => hB L M k P o (Nat.lt_succ_of_lt hk))
    have horigm := phaseB_origin dev count L0 st m horig
    refine stepB_joint dev count Inv m _ ?_ ih
    intro L M cur o hcur hty ho hinv
    obtain ⟨P, hP, hsf⟩ := shape_get (layersRel_mono (fun _ _ _ _ _ => trivial) horigm) hcur
    rw [mem_reformat_outs_iff] at ho
    have hoP : o ∈ P.outputs := hsf.2.2.2.1 ▸ ho.1
    have hof : ¬ EndsWithSuffix o := hfresh P (mem_of_getElem?_some hP) o hoP
    have hlr : LaterReader L0 m o (!cur.param.quantized) :=
      laterReader_backward horigm (fun _ _ _ hr => (hr hof).symm) ho.2
    rw [hsf.2.2.2.2] at hlr ⊢
    exact hB L M m P o (Nat.lt_succ_self m) hP (hsf.1 ▸ hty) hoP hlr hinv

theorem phaseA_joint (dev : DeviceType) (tm : String → DataType) (count : Nat)
    (L0 : List LayerInfo) (Inv : List LayerInfo → List (String × Nat) → Prop) :
    ∀ (keys : List String) (st : OptState),
      (∀ K ∈ keys, ¬ EndsWithSuffix K) →
      (∀ L M K q, K ∈ keys → src_quantized_of (tm K) = some q → ReadByBoth L0 K → Inv L M →
        Inv (forRange (rewire K (K ++ REFORMAT_NAME_SUFFIX) q) 0 count 0 L)
          (aliasFold q [K] M)) →
      LayersRel (fun _ _ x y => ¬ EndsWithSuffix y → y = x) L0 st.layers_orig →
      Inv st.layers_orig st.resource_map →
      Inv (phaseA dev tm count keys st).2.layers_orig
        (phaseA dev tm count keys st).2.resource_map
  | [], _, _, _, _, h => h
  | K :: rest, st, hkf, hA, horig, h => by
    have hrec := fun st' => phaseA_joint dev tm count L0 Inv rest st'
      (fun K' hK' => hkf K' (List.mem_cons_of_mem _ hK'))
      (fun L M K' q hK' => hA L M K' q (List.mem_cons_of_mem _ hK'))
    by_cases hmix : 0 < need_int8_input K st.layers_orig ∧ 0 < need_fp32_input K st.layers_orig
    · cases hins : insertForInput dev tm count K st with
      | none => rw [phaseA_cons_fail hmix hins]; exact h
      | some st' =>
        rw [phaseA_cons_mixed hmix hins]
        obtain ⟨v, hv, hL, -, hM, -⟩ := insertForInput_spec hins
        have hKf : ¬ EndsWithSuffix K := hkf K (List.mem_cons_self _ _)
        have hboth : ReadByBoth L0 K := by
          have := (mixed_iff K st.layers_orig).1 hmix
          exact ⟨readBy_backward horig (fun _ _ _ hr => (hr hKf).symm) this.1,
            readBy_backward horig (fun _ _ _ hr => (hr hKf).symm) this.2⟩
        refine hrec st' ?_ ?_
        · rw [hL]; exact origin_step K v 0 count horig
        · rw [hL, hM]; exact hA _ _ K v (List.mem_cons_self _ _) hv hboth h
    · rw [phaseA_cons_unmixed hmix]
      exact hrec st horig h

theorem scaleInv_step (net : NetStructure) (M0 : List (String × Nat))
    (hsc : ∀ T, FloatBoundary net T → mapFind M0 (T ++ BLOB_SCALE_SUFFIX) ≠ none)
    (o : String) (q : Bool) (lo hi : Int) (hfb : q = false → FloatBoundary net o)
    (L : List LayerInfo) (M : List (String × Nat)) (h : ScaleInv net M0 L M) :
    ScaleInv net M0 (forRange (rewire o (o ++ REFORMAT_NAME_SUFFIX) q) lo hi 0 L)
      (aliasFold q [o] M) := by
  obtain ⟨hext, hV, hJ⟩ := h
  cases q with
  | true =>
    have hM : aliasFold true [o] M = M := by simp [aliasFold]
    rw [hM]
    refine ⟨hext, hV, layersRel_step hJ ?_⟩
    intro j a x b _ _ _ _ hq _
    exact Or.inr fun hqt => absurd hqt hq
  | false =>
    have hfo := hfb rfl
    obtain ⟨w, hw⟩ := Option.ne_none_iff_exists'.1 (hsc o hfo)
    have hMw : mapFind M (o ++ BLOB_SCALE_SUFFIX) = some w := hext _ _ hw
    have hM : aliasFold false [o] M =
        mapInsert M (o ++ REFORMAT_NAME_SUFFIX ++ BLOB_SCALE_SUFFIX) w := by
      simp [aliasFold, hMw]
    rw [hM]
    have hins := mapExtends_mapInsert M (o ++ REFORMAT_NAME_SUFFIX ++ BLOB_SCALE_SUFFIX) w
    refine ⟨mapExtends_trans hext hins, ?_, ?_⟩
    · intro key v h0 h1
      rw [mapFind_mapInsert] at h1
      cases hk : mapFind M key with
      | some v' =>
        rw [hk] at h1
        cases h1
        exact hV key v h0 hk
      | none =>
        rw [hk] at h1
        by_cases he : o ++ REFORMAT_NAME_SUFFIX ++ BLOB_SCALE_SUFFIX = key
        · simp only [he, if_true] at h1
          cases h1
          exact ⟨o, hfo, he.symm, hw⟩
        · simp [he] at h1
    · have hJ' : LayersRel (fun _ a x y => y = x ∨ (a.param.quantized = true →
          mapFind (mapInsert M (o ++ REFORMAT_NAME_SUFFIX ++ BLOB_SCALE_SUFFIX) w)
            (x ++ REFORMAT_NAME_SUFFIX ++ BLOB_SCALE_SUFFIX) ≠ none)) net.layers L := by
        refine layersRel_mono ?_ hJ
        rintro j a x b (hb | hb)
        · exact Or.inl hb
        · refine Or.inr fun hq => ?_
          obtain ⟨v, hv⟩ := Option.ne_none_iff_exists'.1 (hb hq)
          rw [hins _ _ hv]
          exact Option.some_ne_none v
      refine layersRel_step hJ' ?_
      rintro j a x b - - - (hb | hb) _ hbo
      · refine Or.inr fun _ => ?_
        rw [← hb, hbo, mapFind_mapInsert]
        cases mapFind M (o ++ REFORMAT_NAME_SUFFIX ++ BLOB_SCALE_SUFFIX) <;> simp
      · exact Or.inr hb

theorem src_quantized_of_false {t : DataType} (h : src_quantized_of t = some false) :
    t = DataType.DATA_TYPE_FLOAT := by
  unfold src_quantized_of at h
  by_cases h1 : t = DataType.DATA_TYPE_FLOAT
  · exact h1
  · rw [if_neg h1] at h
    by_cases h2 : t = DataType.DATA_TYPE_INT8
    · rw [if_pos h2] at h; cases h
    · rw [if_neg h2] at h; cases h

theorem floatBoundary_scale {net : NetStructure} {M0 : List (String × Nat)}
    (hscale : InteriorScales net.layers M0) (hinscale : InputScales net M0) (T : String)
    (h : FloatBoundary net T) : mapFind M0 (T ++ BLOB_SCALE_SUFFIX) ≠ none := by
  rcases h with ⟨k, hk, P, hP, hty, hq, hT, hlr⟩ | ⟨hK, hty, hboth⟩
  · have hPk : net.layers[k] = P := by
      have := List.getElem?_eq_getElem hk
      rw [Option.mem_def] at hP
      rw [hP] at this
      exact (Option.some.inj this).symm
    exact hscale k hk (hPk ▸ hty) (hPk ▸ hq) T (hPk ▸ hT) hlr
  · exact hinscale T hK hty hboth

theorem floatBoundary_not_fast {net : NetStructure} {T : String} (h : FloatBoundary net T) :
    1 < net.layers.length ∧ GetQuantizedInfoFromNetStructure net = true := by
  rcases h with ⟨k, hk, P, hP, hty, hq, hT, hlr⟩ | ⟨hK, hty, hboth⟩
  · rw [laterReader_iff] at hlr
    obtain ⟨j, c, hkj, hc, -, -, hcq⟩ := hlr
    have hj := (List.getElem?_eq_some_iff.1 hc).1
    refine ⟨by omega, ?_⟩
    unfold GetQuantizedInfoFromNetStructure
    exact List.any_eq_true.2 ⟨c, mem_of_getElem?_some hc, hcq⟩
  · exact readByBoth_length hboth

theorem scaleInv_final (dev : DeviceType) (net : NetStructure) (res : NetResource)
    (hscale : InteriorScales net.layers res.resource_map)
    (hinscale : InputScales net res.resource_map)
    (hinf : InputsFresh net) (hfresh : OutputsFresh net.layers) :
    ScaleInv net res.resource_map
        (phaseA dev net.input_data_type_map net.layers.length net.inputs_shape_map
          (OptState.init net res)).2.layers_orig
        (phaseA dev net.input_data_type_map net.layers.length net.inputs_shape_map
          (OptState.init net res)).2.resource_map ∧
      ScaleInv net res.resource_map
        (phaseB dev net.layers.length net.layers.length
          (phaseA dev net.input_data_type_map net.layers.length net.inputs_shape_map
            (OptState.init net res)).2).layers_orig
        (phaseB dev net.layers.length net.layers.length
          (phaseA dev net.input_data_type_map net.layers.length net.inputs_shape_map
            (OptState.init net res)).2).resource_map := by
  have hsc := floatBoundary_scale hscale hinscale
  have hinvA : ScaleInv net res.resource_map
      (phaseA dev net.input_data_type_map net.layers.length net.inputs_shape_map
        (OptState.init net res)).2.layers_orig
      (phaseA dev net.input_data_type_map net.layers.length net.inputs_shape_map
        (OptState.init net res)).2.resource_map := by
    refine phaseA_joint dev net.input_data_type_map net.layers.length net.layers
      (ScaleInv net res.resource_map) net.inputs_shape_map (OptState.init net res) hinf ?_
      (layersRel_refl (fun _ _ _ _ => rfl) _) ?_
    · intro L M K q hK hq hboth hinv
      refine scaleInv_step net res.resource_map hsc K q 0 _ ?_ L M hinv
      intro hqf
      rw [hqf] at hq
      exact Or.inr ⟨hK, src_quantized_of_false hq, hboth⟩
    · refine ⟨mapExtends_refl _, ?_, layersRel_refl (fun _ _ _ => Or.inl rfl) _⟩
      intro key v h0 h1
      have h1' : mapFind res.resource_map key = some v := h1
      rw [h0] at h1'
      cases h1'
  refine ⟨hinvA, ?_⟩
  have horigA := phaseA_origin dev net.input_data_type_map net.layers.length net.layers
    net.inputs_shape_map (OptState.init net res) (layersRel_refl (fun _ _ _ _ => rfl) _)
  refine phaseB_joint dev net.layers.length net.layers hfresh (ScaleInv net res.resource_map)
    _ horigA hinvA net.layers.length ?_
  intro L M k P o _ hP hty ho hlr hinv
  refine scaleInv_step net res.resource_map hsc o P.param.quantized _ _ ?_ L M hinv
  intro hqf
  rw [hqf] at hlr
  exact Or.inl ⟨k, (List.getElem?_eq_some_iff.1 hP).1, P, hP, hty, hqf, ho, hlr⟩

theorem alias_present (dev : DeviceType) (net : NetStructure) (res : NetResource)
    (h1 : 1 < net.layers.length) (h2 : GetQuantizedInfoFromNetStructure net = true)
    (hok : (Optimize dev (some net) res).1 = Status.TNN_OK)
    (hscale : InteriorScales net.layers res.resource_map)
    (hinscale : InputScales net res.resource_map)
    (hinf : InputsFresh net) (hfresh : OutputsFresh net.layers) (T : String)
    (hT : FloatBoundary net T) :
    mapFind (phaseB dev net.layers.length net.layers.length
      (phaseA dev net.input_data_type_map net.layers.length net.inputs_shape_map
        (OptState.init net res)).2).resource_map
      (T ++ REFORMAT_NAME_SUFFIX ++ BLOB_SCALE_SUFFIX) ≠ none := by
  obtain ⟨hinvA, hinvF⟩ := scaleInv_final dev net res hscale hinscale hinf hfresh
  have hAok := phaseA_ok_of_Optimize_ok h1 h2 hok
  have horigA := phaseA_origin dev net.input_data_type_map net.layers.length net.layers
    net.inputs_shape_map (OptState.init net res) (layersRel_refl (fun _ _ _ _ => rfl) _)
  rcases hT with ⟨k, hk, P, hP, hty, hq, hTo, hlr⟩ | ⟨hK, hty, hboth⟩
  · rw [laterReader_iff] at hlr
    obtain ⟨j, C, hkj, hC, hCty, hTC, hCq⟩ := hlr
    obtain ⟨p, hp, hpT⟩ := List.getElem_of_mem hTC
    have hCp : C.inputs[p]? = some T := hpT ▸ List.getElem?_eq_getElem hp
    obtain ⟨Cf, hCf, -, hin⟩ := layersRel_get hinvF.2.2 hC
    obtain ⟨y, hy, hr⟩ := forall₂_getElem?_left hin p T hCp
    rcases hr with hr | hr
    · exfalso
      rw [hr] at hy
      exact boundary_is_renamed dev net.layers res.resource_map _ horigA hinvA.1 hfresh
        hscale k j p P C Cf T hP hC hkj hty hCty hTo (by rw [hCq, hq]; decide) hCf hy
    · exact hr hCq
  · obtain ⟨C, hCm, hTC, hCq⟩ := hboth.1
    obtain ⟨j, hj, hjC⟩ := List.getElem_of_mem hCm
    have hC : net.layers[j]? = some C := hjC ▸ List.getElem?_eq_getElem hj
    obtain ⟨p, hp, hpT⟩ := List.getElem_of_mem hTC
    have hCp : C.inputs[p]? = some T := hpT ▸ List.getElem?_eq_getElem hp
    obtain ⟨Ca, hCa, -, hin⟩ := layersRel_get hinvA.2.2 hC
    obtain ⟨y, hy, hr⟩ := forall₂_getElem?_left hin p T hCp
    rcases hr with hr | hr
    · exfalso
      rw [hr] at hy
      rcases input_unrenamed dev net (OptState.init net res) rfl hAok j p C Ca T hK
        (hinf T hK) hC hCp hCa hy with h | h
      · rw [hty, hCq] at h
        exact absurd (h.2 rfl) (by decide)
      · obtain ⟨l, hl, hTl, hlq⟩ := hboth.2
        have := h l hl hTl
        rw [hlq, hCq] at this
        cases this
    · obtain ⟨v, hv⟩ := Option.ne_none_iff_exists'.1 (hr hCq)
      rw [phaseB_mapExtends dev net.layers.length net.layers.length _ _ _ hv]
      exact Option.some_ne_none v

theorem phaseA_no_mixed (dev : DeviceType) (tm : String → DataType) (count : Nat)
    (st : OptState) :
    ∀ (keys : List String), (∀ K ∈ keys, ¬ ReadByBoth st.layers_orig K) →
      phaseA dev tm count keys st = (Status.TNN_OK, st)
  | [], _ => rfl
  | K :: rest, h => by
    have hK : ¬ (0 < need_int8_input K st.layers_orig ∧ 0 < need_fp32_input K st.layers_orig) :=
      fun hm => h K (List.mem_cons_self _ _) ((mixed_iff K st.layers_orig).1 hm)
    rw [phaseA_cons_unmixed hK]
    exact phaseA_no_mixed dev tm count st rest fun K' hK' => h K' (List.mem_cons_of_mem _ hK')

theorem reformat_outs_eq_nil {L : List LayerInfo} {k : Nat} {cur : LayerInfo}
    (h : ∀ o ∈ cur.outputs, ¬ LaterReader L k o (!cur.param.quantized)) :
    reformat_outs L k cur = [] := by
  rw [List.eq_nil_iff_forall_not_mem]
  intro o ho
  rw [mem_reformat_outs_iff] at ho
  exact h o ho.1 ho.2

theorem phaseB_no_marks (dev : DeviceType) (count : Nat) (st : OptState)
    (h : NoMarkedOutput st.layers_orig) :
    ∀ (m : Nat), phaseB dev count m st =
      { st with layers_fused := st.layers_fused ++ st.layers_orig.take m }
  | 0 => by simp [phaseB]
  | m + 1 => by
    rw [phaseB_succ, phaseB_no_marks dev count st h m]
    cases hcur : st.layers_orig[m]? with
    | none =>
      rw [stepB_of_none (by exact hcur), List.take_succ, hcur]
      simp
    | some cur =>
      rcases @stepB_spec dev count m
        { st with layers_fused := st.layers_fused ++ st.layers_orig.take m } cur hcur with
        ⟨-, hstep⟩ | ⟨hty, n, hn, hle, -⟩
      · rw [hstep, List.take_succ, hcur]
        simp
      · exfalso
        have : reformat_outs st.layers_orig m cur = [] :=
          reformat_outs_eq_nil (h m cur hcur hty)
        simp only [] at hle
        rw [this] at hle
        simp at hle
        omega

theorem Optimize_of_no_boundary (dev : DeviceType) (net : NetStructure) (res : NetResource)
    (hmix : NoMixedInput net) (hmark : NoMarkedOutput net.layers) :
    Optimize dev (some net) res = (Status.TNN_OK, some net, res) := by
  by_cases hfast : net.layers.length ≤ 1 ∨ GetQuantizedInfoFromNetStructure net = false
  · exact Optimize_of_run_none ((run_eq_none_iff dev net res).2 hfast)
  · rw [not_or] at hfast
    have h1 : 1 < net.layers.length := by omega
    have h2 : GetQuantizedInfoFromNetStructure net = true := by simpa using hfast.2
    have hA : phaseA dev net.input_data_type_map net.layers.length net.inputs_shape_map
        (OptState.init net res) = (Status.TNN_OK, OptState.init net res) :=
      phaseA_no_mixed dev _ _ _ _ hmix
    have hrun := run_of_phaseA_ok dev res h1 h2 (by rw [hA])
    rw [hA] at hrun
    simp only [] at hrun
    rw [phaseB_no_marks dev _ _ hmark] at hrun
    rw [Optimize_of_run_ok hrun]
    simp [OptState.init]

theorem noMarked_of_noInterior {layers : List LayerInfo} (h : NoInteriorBoundary layers) :
    NoMarkedOutput layers := by
  intro k cur hcur _ o ho hlr
  rw [laterReader_iff] at hlr
  obtain ⟨j, c, hkj, hc, -, hoc, hq⟩ := hlr
  obtain ⟨hj, rfl⟩ := List.getElem?_eq_some_iff.1 hc
  obtain ⟨hk, rfl⟩ := List.getElem?_eq_some_iff.1 hcur
  have := h j hj k hkj o ho hoc
  rw [this] at hq
  cases hb : (layers[k]).param.quantized <;> simp [hb] at hq

theorem reformatFor_converts (dev : DeviceType) (name : String) (q : Bool)
    (outs : List String) (n : Nat) : ConvertsFrom dev q (reformatFor dev name q outs n) := by
  refine ⟨rfl, ?_⟩
  unfold reformatFor CreateReformat
  by_cases hd : dev = DeviceType.DEVICE_ARM
  · simp only [hd, if_true]
    refine ⟨_, rfl, rfl, rfl, ?_, fun _ => ⟨rfl, rfl⟩, fun h => absurd rfl h⟩
    cases q <;> simp
  · simp only [hd, if_false]
    refine ⟨_, rfl, rfl, rfl, ?_, fun h => False.elim h, fun _ => ⟨rfl, rfl⟩⟩
    cases q <;> simp

theorem src_quantized_of_cases {t : DataType} {v : Bool} (h : src_quantized_of t = some v) :
    (t = DataType.DATA_TYPE_INT8 ∧ v = true) ∨ (t = DataType.DATA_TYPE_FLOAT ∧ v = false) := by
  unfold src_quantized_of at h
  by_cases h1 : t = DataType.DATA_TYPE_FLOAT
  · rw [if_pos h1] at h
    exact Or.inr ⟨h1, (Option.some.inj h).symm⟩
  · rw [if_neg h1] at h
    by_cases h2 : t = DataType.DATA_TYPE_INT8
    · rw [if_pos h2] at h
      exact Or.inl ⟨h2, (Option.some.inj h).symm⟩
    · rw [if_neg h2] at h; cases h

theorem mem_setInsert (x a : String) (B : List String) :
    x ∈ setInsert a B ↔ x ∈ B ∨ x = a := by
  unfold setInsert
  by_cases h : a ∈ B
  · rw [if_pos h]
    exact ⟨Or.inl, fun h1 => h1.elim id fun h2 => h2 ▸ h⟩
  · rw [if_neg h]
    simp

theorem mem_foldl_setInsert (x : String) :
    ∀ (names : List String) (B : List String),
      x ∈ names.foldl (fun B o => setInsert (o ++ REFORMAT_NAME_SUFFIX) B) B ↔
        x ∈ B ∨ x ∈ names.map (· ++ REFORMAT_NAME_SUFFIX)
  | [], B => by simp
  | o :: rest, B => by
    rw [List.foldl_cons, mem_foldl_setInsert x rest, mem_setInsert]
    simp only [List.map_cons, List.mem_cons]
    exact or_assoc

/-- One iteration of the second loop, with the block it appends. -/
theorem stepB_record (dev : DeviceType) (count : Nat) {k : Nat} {st : OptState}
    {cur : LayerInfo} (hcur : st.layers_orig[k]? = some cur) :
    ∃ extra, StepRecord dev k st (cur, extra) ∧
      (stepB dev count k st).layers_fused = st.layers_fused ++ cur :: extra ∧
      ∀ x, x ∈ (stepB dev count k st).blobs ↔
        x ∈ st.blobs ∨ ∃ R ∈ extra, x ∈ R.outputs := by
  rcases @stepB_spec dev count k st cur hcur with ⟨hc, hstep⟩ | ⟨hty, n, hn0, hn, hstep⟩
  · refine ⟨[], ⟨hcur, Or.inl ⟨hc, rfl⟩⟩, by rw [hstep], fun x => ?_⟩
    rw [hstep]
    simp
  · have hne : reformat_outs st.layers_orig k cur ≠ [] := by
      intro h
      rw [h] at hn
      simp at hn
      omega
    refine ⟨[reformatFor dev (cur.name ++ REFORMAT_NAME_SUFFIX) cur.param.quantized
      (reformat_outs st.layers_orig k cur) n], ⟨hcur, Or.inr ⟨hty, hne, n, hn0, hn, rfl, ?_⟩⟩,
      by rw [hstep], fun x => ?_⟩
    · intro hnoret
      show n = (reformat_outs st.layers_orig k cur).length
      have hbranch : ¬ (cur.type = LayerType.LAYER_REFORMAT ∨
          reformat_outs st.layers_orig k cur = []) := fun h => h.elim hty hne
      obtain ⟨hnl, -⟩ := AdjustLayer_no_return st.layers_orig st.blobs st.resource_map cur
        (CreateReformat dev (cur.name ++ REFORMAT_NAME_SUFFIX) cur.param.quantized)
        (reformat_outs st.layers_orig k cur) k count hnoret
      have h1 := @stepB_of_some dev count k st cur hcur
      rw [if_neg hbranch, hstep] at h1
      have h2 := congrArg (fun s => s.layers_fused) h1
      simp only [hnl] at h2
      have h3 := congrArg (fun l => l.map fun r => r.outputs.length) h2
      simp [reformatFor, CreateReformat] at h3
      omega
    · rw [hstep]
      simp only [mem_foldl_setInsert, List.mem_singleton, exists_eq_left, reformatFor]

/-- The trace of the second loop: the blocks appended by its first `m` iterations. -/
theorem phaseB_trace (dev : DeviceType) (count : Nat) (st : OptState) :
    ∀ m, m ≤ st.layers_orig.length →
      ∃ blocks : List (LayerInfo × List LayerInfo),
        blocks.length = m ∧
        (phaseB dev count m st).layers_fused = st.layers_fused ++ flattenBlocks blocks ∧
        (∀ k b, blocks[k]? = some b → StepRecord dev k (phaseB dev count k st) b) ∧
        ∀ x, x ∈ (phaseB dev count m st).blobs ↔
          x ∈ st.blobs ∨ ∃ R ∈ blocks.flatMap Prod.snd, x ∈ R.outputs
  | 0, _ => ⟨[], rfl, by simp [phaseB, flattenBlocks], (fun k b h => by simp at h),
      fun x => by simp [phaseB]⟩
  | m + 1, hm => by
    obtain ⟨blocks, hlen, hfused, hrec, hblobs⟩ := phaseB_trace dev count st m (by omega)
    have hmlt : m < (phaseB dev count m st).layers_orig.length := by
      rw [phaseB_length]; omega
    obtain ⟨cur, hcur⟩ : ∃ cur, (phaseB dev count m st).layers_orig[m]? = some cur :=
      ⟨_, List.getElem?_eq_getElem hmlt⟩
    obtain ⟨extra, hsr, hf, hb⟩ := stepB_record dev count hcur
    refine ⟨blocks ++ [(cur, extra)], by simp [hlen], ?_, ?_, fun x => ?_⟩
    · rw [phaseB_succ, hf, hfused]
      simp [flattenBlocks, List.flatMap_append]
    · intro k b hk
      by_cases hkm : k < m
      · rw [List.getElem?_append_left (by omega)] at hk
        exact hrec k b hk
      · have hkm' : k = m := by
          have := (List.getElem?_eq_some_iff.1 hk).1
          simp at this
          omega
        subst hkm'
        rw [List.getElem?_append_right (by omega)] at hk
        simp [hlen] at hk
        subst hk
        exact hsr
    · rw [phaseB_succ, hb, hblobs]
      simp only [List.flatMap_append, List.mem_append, List.flatMap_cons, List.flatMap_nil,
        List.append_nil]
      constructor
      · rintro ((h | ⟨R, hR, hx⟩) | ⟨R, hR, hx⟩)
        · exact Or.inl h
        · exact Or.inr ⟨R, Or.inl hR, hx⟩
        · exact Or.inr ⟨R, Or.inr hR, hx⟩
      · rintro (h | ⟨R, hR | hR, hx⟩)
        · exact Or.inl (Or.inl h)
        · exact Or.inl (Or.inr ⟨R, hR, hx⟩)
        · exact Or.inr ⟨R, hR, hx⟩

/-- The trace of the first loop: the `Reformat` layers it appends and the blobs it
inserts. -/
theorem phaseA_trace (dev : DeviceType) (net : NetStructure) (count : Nat) :
    ∀ (keys : List String) (st : OptState), (∀ K ∈ keys, K ∈ net.inputs_shape_map) →
      ∃ A, (phaseA dev net.input_data_type_map count keys st).2.layers_fused =
          st.layers_fused ++ A ∧ (∀ R ∈ A, CreatedForInput dev net R) ∧
        ∀ x, x ∈ (phaseA dev net.input_data_type_map count keys st).2.blobs ↔
          x ∈ st.blobs ∨ ∃ R ∈ A, x ∈ R.outputs
  | [], st, _ => ⟨[], by simp [phaseA], (fun _ h => by cases h), fun x => by simp [phaseA]⟩
  | K :: rest, st, hsub => by
    have hrest : ∀ K' ∈ rest, K' ∈ net.inputs_shape_map :=
      fun K' h => hsub K' (List.mem_cons_of_mem _ h)
    by_cases hmix : 0 < need_int8_input K st.layers_orig ∧ 0 < need_fp32_input K st.layers_orig
    · cases hins : insertForInput dev net.input_data_type_map count K st with
      | none =>
        rw [phaseA_cons_fail hmix hins]
        exact ⟨[], by simp, (fun _ h => by cases h), fun x => by simp⟩
      | some st' =>
        rw [phaseA_cons_mixed hmix hins]
        obtain ⟨v, hv, -, hbl, -, hf⟩ := insertForInput_spec hins
        obtain ⟨A, hA, hAll, hblobs⟩ := phaseA_trace dev net count rest st' hrest
        refine ⟨reformatFor dev (K ++ REFORMAT_NAME_SUFFIX ++ "__from_model_input__") v [K] 1
          :: A, ?_, ?_, fun x => ?_⟩
        · rw [hA, hf, List.append_assoc, List.singleton_append]
        · intro R hR
          rcases List.mem_cons.1 hR with rfl | hR
          · exact ⟨K, hsub K (List.mem_cons_self _ _), v, hv, rfl⟩
          · exact hAll R hR
        · rw [hblobs, hbl, mem_setInsert]
          simp only [List.mem_cons, exists_eq_or_imp, reformatFor, List.take_succ_cons,
            List.take_zero, List.map_cons, List.map_nil, List.mem_singleton,
            List.not_mem_nil, or_false]
          exact or_assoc
    · rw [phaseA_cons_unmixed hmix]
      exact phaseA_trace dev net count rest st hrest

theorem stepRecord_inserted {dev : DeviceType} {k : Nat} {st : OptState}
    {b : LayerInfo × List LayerInfo} (h : StepRecord dev k st b) :
    InsertedAfter dev b.1 b.2 := by
  rcases h.2 with ⟨-, he⟩ | ⟨hty, -, n, hn0, hn, he, -⟩
  · exact Or.inl he
  · exact Or.inr ⟨hty, _, n, List.filter_sublist _, hn0, hn, he⟩

/-- The trace of a successful call: the `Reformat` layers `A` made for graph inputs,
the blocks of the second loop, the blobs, and (when no fast exit is taken) the record
of every iteration of the second loop. -/
theorem result_trace (dev : DeviceType) (net : NetStructure) (res : NetResource)
    (hok : (Optimize dev (some net) res).1 = Status.TNN_OK) :
    ∃ (A : List LayerInfo) (blocks : List (LayerInfo × List LayerInfo)),
      resultLayers (Optimize dev (some net) res) = A ++ flattenBlocks blocks ∧
      blocks.map Prod.fst = layersAfter dev net res ∧
      (∀ R ∈ A, CreatedForInput dev net R) ∧
      (∀ b ∈ blocks, InsertedAfter dev b.1 b.2) ∧
      (∀ x, x ∈ resultBlobs (Optimize dev (some net) res) ↔
        x ∈ net.blobs ∨ ∃ R ∈ A ++ blocks.flatMap Prod.snd, x ∈ R.outputs) ∧
      ((net.layers.length ≤ 1 ∨ GetQuantizedInfoFromNetStructure net = false) →
        A = [] ∧ blocks = net.layers.map fun l => (l, [])) ∧
      (1 < net.layers.length → GetQuantizedInfoFromNetStructure net = true →
        A = (phaseA dev net.input_data_type_map net.layers.length net.inputs_shape_map
          (OptState.init net res)).2.layers_fused ∧
        ∀ k b, blocks[k]? = some b → StepRecord dev k
          (phaseB dev net.layers.length k
            (phaseA dev net.input_data_type_map net.layers.length net.inputs_shape_map
              (OptState.init net res)).2) b) := by
  by_cases hfast : net.layers.length ≤ 1 ∨ GetQuantizedInfoFromNetStructure net = false
  · have hnone := (run_eq_none_iff dev net res).2 hfast
    refine ⟨[], net.layers.map fun l => (l, []), ?_, ?_, ?_, fun b hb => ?_, fun x => ?_,
      fun _ => ⟨rfl, rfl⟩, fun h1 h2 => ?_⟩
    · rw [Optimize_of_run_none hnone, flattenBlocks_nil_extras]; rfl
    · unfold layersAfter
      rw [hnone, List.map_map]
      exact List.map_id _
    · intro R hR; cases hR
    · obtain ⟨l, -, rfl⟩ := List.mem_map.1 hb
      exact Or.inl rfl
    · rw [Optimize_of_run_none hnone]
      simp [resultBlobs, List.flatMap_map]
    · rcases hfast with h | h
      · omega
      · rw [h2] at h; cases h
  · have hfast' := hfast
    rw [not_or] at hfast
    have h1 : 1 < net.layers.length := by omega
    have h2 : GetQuantizedInfoFromNetStructure net = true := by simpa using hfast.2
    have hA := phaseA_ok_of_Optimize_ok h1 h2 hok
    have hrun := run_of_phaseA_ok dev res h1 h2 hA
    obtain ⟨A, hAf, hAll, hAblobs⟩ := phaseA_trace dev net net.layers.length
      net.inputs_shape_map (OptState.init net res) (fun _ h => h)
    have hlenA := phaseA_length dev net.input_data_type_map net.layers.length
      net.inputs_shape_map (OptState.init net res)
    obtain ⟨blocks, hlen, hfused, hrec, hblobs⟩ := phaseB_trace dev net.layers.length
      (phaseA dev net.input_data_type_map net.layers.length net.inputs_shape_map
        (OptState.init net res)).2 net.layers.length (by rw [hlenA]; exact Nat.le_refl _)
    have hlenB := phaseB_length dev net.layers.length
      (phaseA dev net.input_data_type_map net.layers.length net.inputs_shape_map
        (OptState.init net res)).2 net.layers.length
    refine ⟨A, blocks, ?_, ?_, hAll, fun b hb => ?_, fun x => ?_, fun h => absurd h hfast',
      fun _ _ => ⟨?_, hrec⟩⟩
    · rw [Optimize_of_run_ok hrun]
      show (phaseB _ _ _ _).layers_fused = _
      rw [hfused, hAf]
      rfl
    · unfold layersAfter
      rw [hrun]
      simp only []
      refine List.ext_getElem? fun k => ?_
      rw [List.getElem?_map]
      by_cases hk : k < net.layers.length
      · have hkb : k < blocks.length := by omega
        have hb := hrec k blocks[k] (List.getElem?_eq_getElem hkb)
        rw [List.getElem?_eq_getElem hkb, Option.map_some']
        obtain ⟨d, hd⟩ : ∃ d, net.layers.length = k + d := ⟨net.layers.length - k, by omega⟩
        have hst := phaseB_layers_stable dev net.layers.length
          (phaseA dev net.input_data_type_map net.layers.length net.inputs_shape_map
            (OptState.init net res)).2 k d (Nat.le_refl k)
        rw [← hd] at hst
        rw [hst, hb.1]
      · have hL : (phaseB dev net.layers.length net.layers.length
            (phaseA dev net.input_data_type_map net.layers.length net.inputs_shape_map
              (OptState.init net res)).2).layers_orig.length = net.layers.length := by
          rw [hlenB, hlenA]; rfl
        rw [List.getElem?_eq_none (by omega), List.getElem?_eq_none (by omega)]
        rfl
    · obtain ⟨k, hk, rfl⟩ := List.getElem_of_mem hb
      exact stepRecord_inserted (hrec k _ (List.getElem?_eq_getElem hk))
    · rw [Optimize_of_run_ok hrun]
      show x ∈ (phaseB _ _ _ _).blobs ↔ _
      rw [hblobs, hAblobs]
      simp only [List.mem_append]
      constructor
      · rintro ((h | ⟨R, hR, hx⟩) | ⟨R, hR, hx⟩)
        · exact Or.inl h
        · exact Or.inr ⟨R, Or.inl hR, hx⟩
        · exact Or.inr ⟨R, Or.inr hR, hx⟩
      · rintro (h | ⟨R, hR | hR, hx⟩)
        · exact Or.inl (Or.inl h)
        · exact Or.inl (Or.inr ⟨R, hR, hx⟩)
        · exact Or.inr ⟨R, hR, hx⟩
    · rw [hAf]; rfl

theorem addSuffix_rel (dev : DeviceType) (net : NetStructure) (res : NetResource) :
    LayersRel (fun _ _ x y => ∃ n, y = addSuffix n x) net.layers (layersAfter dev net res) :=
  layersAfter_rel dev net res _ (fun _ _ _ => ⟨0, rfl⟩)
    (fun _ _ _ _ _ _ _ _ _ ⟨n, hn⟩ => ⟨n + 1, by rw [hn]; rfl⟩)
    (fun _ _ _ _ _ _ _ _ _ _ _ _ ⟨n, hn⟩ => ⟨n + 1, by rw [hn]; rfl⟩)

theorem oneSuffix_rel (dev : DeviceType) (net : NetStructure) (res : NetResource)
    (hinf : InputsFresh net) (hfresh : OutputsFresh net.layers) :
    LayersRel (fun _ _ x y => y = x ∨ y = x ++ REFORMAT_NAME_SUFFIX) net.layers
      (layersAfter dev net res) := by
  refine layersAfter_rel dev net res _ (fun _ _ _ => Or.inl rfl) ?_ ?_
  · intro j a x o q ho _ _ _ hr
    rcases hr with hr | hr
    · exact Or.inr (by rw [hr])
    · exact absurd (hr ▸ endsWithSuffix_append x) (hinf o ho)
  · intro j k a P x o hP _ ho _ _ _ hr
    rcases hr with hr | hr
    · exact Or.inr (by rw [hr])
    · exact absurd (hr ▸ endsWithSuffix_append x) (hfresh P (mem_of_getElem?_some hP) o ho)

theorem phaseA_first_unsupported (dev : DeviceType) (tm : String → DataType) (count : Nat)
    (st : OptState) (K : String) (post : List String)
    (hK : ReadByBoth st.layers_orig K) (hty : src_quantized_of (tm K) = none) :
    ∀ (pre : List String), (∀ K' ∈ pre, ¬ ReadByBoth st.layers_orig K') →
      phaseA dev tm count (pre ++ K :: post) st = (Status.TNNERR_UNSUPPORT_NET, st)
  | [], _ => by
    rw [List.nil_append]
    exact phaseA_cons_fail ((mixed_iff K st.layers_orig).2 hK)
      ((insertForInput_isSome dev tm count K st).2 hty)
  | K' :: rest, h => by
    rw [List.cons_append, phaseA_cons_unmixed
      (fun hm => h K' (List.mem_cons_self _ _) ((mixed_iff K' st.layers_orig).1 hm))]
    exact phaseA_first_unsupported dev tm count st K post hK hty rest
      fun K'' hK'' => h K'' (List.mem_cons_of_mem _ hK'')

theorem topological_iff (net : NetStructure) :
    Topological net ↔ TopoList net.inputs_shape_map net.layers := Iff.rfl

theorem topoList_snoc {keys : List String} {F : List LayerInfo} {l : LayerInfo}
    (h : TopoList keys F) (hl : ∀ x ∈ l.inputs, x ∈ keys ∨ ∃ l' ∈ F, x ∈ l'.outputs) :
    TopoList keys (F ++ [l]) := by
  intro j hj x hx
  by_cases hjF : j < F.length
  · rw [List.getElem_append_left hjF] at hx
    rw [List.take_append_of_le_length (Nat.le_of_lt hjF)]
    exact h j hjF x hx
  · have hjeq : j = F.length := by
      simp at hj
      omega
    subst hjeq
    rw [List.getElem_append_right (Nat.le_refl _)] at hx
    simp only [Nat.sub_self, List.getElem_cons_zero] at hx
    rw [List.take_append_of_le_length (Nat.le_refl _), List.take_length]
    exact hl x hx

theorem topoList_of_keys {keys : List String} :
    ∀ (F : List LayerInfo), (∀ l ∈ F.reverse, ∀ x ∈ l.inputs, x ∈ keys) →
      TopoList keys F.reverse
  | [], _ => fun j hj => by simp at hj
  | l :: rest, h => by
    rw [List.reverse_cons]
    refine topoList_snoc (topoList_of_keys rest fun l' hl' => h l' ?_)
      (fun x hx => Or.inl (h l (by simp) x hx))
    rw [List.reverse_cons]
    exact List.mem_append_left _ hl'

/-- The state of the second loop before iteration `m`: the sequence built so far is
in topological order and holds the outputs of the first `m` original layers. -/
theorem phaseB_topo (dev : DeviceType) (count : Nat) (net : NetStructure) (st : OptState)
    (htopo : Topological net)
    (hdel : LayersRel (fun _ a x y => y = x ∨ ∃ R ∈ st.layers_fused,
      Delivers R a.param.quantized y) net.layers st.layers_orig)
    (hst : TopoList net.inputs_shape_map st.layers_fused) :
    ∀ (m : Nat),
      TopoList net.inputs_shape_map (phaseB dev count m st).layers_fused ∧
        ∀ (i : Nat) (a : LayerInfo), i < m → net.layers[i]? = some a → ∀ o ∈ a.outputs,
          ∃ l ∈ (phaseB dev count m st).layers_fused, o ∈ l.outputs
  | 0 => ⟨hst, fun _ _ h => absurd h (Nat.not_lt_zero _)⟩
  | m + 1 => by
    obtain ⟨ih1, ih2⟩ := phaseB_topo dev count net st htopo hdel hst m
    have hdelm := phaseB_delivers dev count net.layers st m hdel
    rw [phaseB_succ]
    cases hcur : (phaseB dev count m st).layers_orig[m]? with
    | none =>
      rw [stepB_of_none hcur]
      refine ⟨ih1, fun i a hi ha o ho => ?_⟩
      by_cases him : i < m
      · exact ih2 i a him ha o ho
      · have : i = m := by omega
        subst this
        have h1 := (List.getElem?_eq_some_iff.1 ha).1
        rw [← hdelm.1] at h1
        rw [List.getElem?_eq_getElem h1] at hcur
        cases hcur
    | some cur =>
      obtain ⟨extra, hrec, hf, -⟩ := stepB_record dev count hcur
      obtain ⟨a, ha, hsf⟩ := shape_get (layersRel_mono (fun _ _ _ _ _ => trivial) hdelm) hcur
      have hin := (hdelm.2 m a cur ha hcur).2
      have hcurin : ∀ x ∈ cur.inputs, x ∈ net.inputs_shape_map ∨
          ∃ l' ∈ (phaseB dev count m st).layers_fused, x ∈ l'.outputs := by
        intro y hy
        obtain ⟨x, hx, hr⟩ := forall₂_mem_right hin hy
        rcases hr with rfl | ⟨R, hR, hd⟩
        · obtain ⟨hm, rfl⟩ := List.getElem?_eq_some_iff.1 ha
          rcases htopo m hm y hx with h | ⟨l, hl, hyl⟩
          · exact Or.inl h
          · obtain ⟨i, hi, rfl⟩ := List.getElem_of_mem hl
            rw [List.length_take] at hi
            rw [List.getElem_take] at hyl
            exact Or.inr (ih2 i _ (by omega) (List.getElem?_eq_getElem (by omega)) y hyl)
        · exact Or.inr ⟨R, hR, hd.2.1⟩
      have h1 := topoList_snoc ih1 hcurin
      have hcons : (phaseB dev count m st).layers_fused ++ cur :: extra =
          ((phaseB dev count m st).layers_fused ++ [cur]) ++ extra := by simp
      have hall : TopoList net.inputs_shape_map
          ((phaseB dev count m st).layers_fused ++ cur :: extra) := by
        rw [hcons]
        rcases hrec.2 with ⟨-, he⟩ | ⟨-, -, n, -, -, he, -⟩
        · have he' : extra = [] := he
          rw [he', List.append_nil]
          exact h1
        · have he' : extra = [reformatFor dev (cur.name ++ REFORMAT_NAME_SUFFIX)
              cur.param.quantized (reformat_outs (phaseB dev count m st).layers_orig m cur)
              n] := he
          rw [he']
          refine topoList_snoc h1 fun x hx => Or.inr ⟨cur, by simp, ?_⟩
          exact mem_reformat_outs hx
      refine ⟨hf ▸ hall, fun i b hi hb o ho => ?_⟩
      rw [hf]
      by_cases him : i < m
      · obtain ⟨l, hl, hol⟩ := ih2 i b him hb o ho
        exact ⟨l, List.mem_append_left _ hl, hol⟩
      · have : i = m := by omega
        subst this
        rw [ha] at hb
        cases hb
        exact ⟨cur, by simp, hsf.2.2.2.1 ▸ ho⟩

theorem laterReader_forward {R : Nat → LayerInfo → String → String → Prop}
    {L L' : List LayerInfo} (h : LayersRel R L L') {o : String}
    (ho : ∀ j a b, R j a o b → b = o) {k : Nat} {q : Bool}
    (hr : LaterReader L k o q) : LaterReader L' k o q := by
  rw [laterReader_iff] at hr ⊢
  obtain ⟨j, c, hkj, hc, hty, hoc, hq⟩ := hr
  obtain ⟨c', hc', hsf, hin⟩ := layersRel_get h hc
  obtain ⟨y, hy, hxy⟩ := forall₂_mem_left hin hoc
  refine ⟨j, c', hkj, hc', by rw [hsf.1]; exact hty, ?_, by rw [hsf.2.2.2.2]; exact hq⟩
  rw [← ho _ _ _ hxy]; exact hy

theorem laterReader_not_fast {net : NetStructure} {k : Nat} {P : LayerInfo} {o : String}
    (hP : net.layers[k]? = some P)
    (h : LaterReader net.layers k o (!P.param.quantized)) :
    1 < net.layers.length ∧ GetQuantizedInfoFromNetStructure net = true := by
  rw [laterReader_iff] at h
  obtain ⟨j, c, hkj, hc, -, -, hcq⟩ := h
  have hj := (List.getElem?_eq_some_iff.1 hc).1
  refine ⟨by omega, quantized_net_of_flags_differ hP hc ?_⟩
  rw [hcq]
  cases P.param.quantized <;> simp

/-- Before iteration `k` of the second loop, no reader of an output `o` of the
original layer at `k` has been renamed, and every current name that does not end in
the suffix is the original one. -/
theorem unrenamed_before (dev : DeviceType) (net : NetStructure) (res : NetResource)
    (hsp : SingleProducer net.layers) (hno : OutputsNotInputs net)
    {k : Nat} {P : LayerInfo} {o : String} (hP : net.layers[k]? = some P)
    (ho : o ∈ P.outputs) :
    LayersRel (fun _ _ x b => (x = o → b = o) ∧ (¬ EndsWithSuffix b → b = x)) net.layers
      (phaseB dev net.layers.length k
        (phaseA dev net.input_data_type_map net.layers.length net.inputs_shape_map
          (OptState.init net res)).2).layers_orig := by
  have hrelA : Shape net.layers
      (phaseA dev net.input_data_type_map net.layers.length net.inputs_shape_map
        (OptState.init net res)).2.layers_orig ∧
      LayersRel (fun _ _ x b => (x = o → b = o) ∧ (¬ EndsWithSuffix b → b = x)) net.layers
        (phaseA dev net.input_data_type_map net.layers.length net.inputs_shape_map
          (OptState.init net res)).2.layers_orig := by
    refine phaseA_layers dev _ _ (fun L => Shape net.layers L ∧
      LayersRel (fun _ _ x b => (x = o → b = o) ∧ (¬ EndsWithSuffix b → b = x)) net.layers L)
      _ _ ?_ ⟨shape_refl _, layersRel_refl (fun _ _ _ => ⟨fun h => h, fun _ => rfl⟩) _⟩
    intro L o' q ho' _ hL
    refine ⟨shape_step _ _ _ _ _ hL.1, layersRel_step hL.2 ?_⟩
    intro j' a x b _ _ _ hr _ hb
    subst hb
    refine ⟨fun hx => ?_, fun hne => absurd (endsWithSuffix_append b) hne⟩
    have := hr.1 hx
    subst this
    exact absurd ho' (hno P (mem_of_getElem?_some hP) _ ho)
  refine (phaseB_layers dev net.layers.length net.layers
    (LayersRel (fun _ _ x b => (x = o → b = o) ∧ (¬ EndsWithSuffix b → b = x)) net.layers)
    k _ ?_ hrelA.1 hrelA.2).2
  intro L k' a o' hk ha _ ho' _ hL
  refine layersRel_step hL ?_
  intro j' a' x b _ _ _ hr _ hb
  subst hb
  refine ⟨fun hx => ?_, fun hne => absurd (endsWithSuffix_append b) hne⟩
  have := hr.1 hx
  subst this
  have := singleProducer_unique hsp ha hP ho' ho
  omega

/-- The outputs marked in iteration `k` of the second loop are the outputs marked in
the original graph. -/
theorem reformat_outs_eq_marked (dev : DeviceType) (net : NetStructure) (res : NetResource)
    (hsp : SingleProducer net.layers) (hno : OutputsNotInputs net)
    (hfresh : OutputsFresh net.layers)
    {k : Nat} {P cur : LayerInfo} (hP : net.layers[k]? = some P) (hsf : SameFields P cur) :
    reformat_outs (phaseB dev net.layers.length k
        (phaseA dev net.input_data_type_map net.layers.length net.inputs_shape_map
          (OptState.init net res)).2).layers_orig k cur = markedOutputs net.layers k P := by
  unfold reformat_outs markedOutputs
  rw [hsf.2.2.2.1, hsf.2.2.2.2]
  refine List.filter_congr fun o ho => ?_
  have hrel := unrenamed_before dev net res hsp hno hP ho
  have hof : ¬ EndsWithSuffix o := hfresh P (mem_of_getElem?_some hP) o ho
  rw [Bool.eq_iff_iff, need_reformat_iff, decide_eq_true_iff]
  exact ⟨laterReader_backward hrel (fun _ _ _ hr => (hr.2 hof).symm),
    laterReader_forward hrel (fun _ _ _ hr => hr.1 rfl)⟩

theorem mem_markedOutputs {L : List LayerInfo} {k : Nat} {P : LayerInfo} {o : String} :
    o ∈ markedOutputs L k P ↔ o ∈ P.outputs ∧ LaterReader L k o (!P.param.quantized) := by
  unfold markedOutputs
  rw [List.mem_filter, decide_eq_true_iff]

/-- In a sequence of blocks whose inserted layers are all `Reformat` layers, two
layers that are not `Reformat` layers and stand one after the other are the first
components of two blocks in the same order. -/
theorem later_in_blocks :
    ∀ (blocks : List (LayerInfo × List LayerInfo)),
      (∀ b ∈ blocks, ∀ l ∈ b.2, l.type = LayerType.LAYER_REFORMAT) →
      ∀ (k : Nat) (cur c : LayerInfo), (flattenBlocks blocks)[k]? = some cur →
        cur.type ≠ LayerType.LAYER_REFORMAT → c ∈ (flattenBlocks blocks).drop (k + 1) →
        c.type ≠ LayerType.LAYER_REFORMAT →
        ∃ (i j : Nat), i < j ∧ (blocks.map Prod.fst)[i]? = some cur ∧
          (blocks.map Prod.fst)[j]? = some c
  | [], _, k, cur, c, hk, _, _, _ => by simp [flattenBlocks] at hk
  | b :: rest, hex, k, cur, c, hk, hcur, hc, hct => by
    have hflat : flattenBlocks (b :: rest) = b.1 :: (b.2 ++ flattenBlocks rest) := by
      simp [flattenBlocks]
    have hexr : ∀ b' ∈ rest, ∀ l ∈ b'.2, l.type = LayerType.LAYER_REFORMAT :=
      fun b' hb' => hex b' (List.mem_cons_of_mem _ hb')
    rw [hflat] at hk hc
    cases k with
    | zero =>
      simp only [List.getElem?_cons_zero, Option.some.injEq] at hk
      simp only [Nat.zero_add, List.drop_succ_cons, List.drop_zero] at hc
      rcases List.mem_append.1 hc with h | h
      · exact absurd (hex b (List.mem_cons_self _ _) c h) hct
      · obtain ⟨b', hb', hl⟩ := mem_flattenBlocks.1 h
        rcases hl with rfl | hl
        · obtain ⟨j, hj, rfl⟩ := List.getElem_of_mem hb'
          refine ⟨0, j + 1, Nat.succ_pos _, by simp [hk], ?_⟩
          simp [List.getElem?_eq_getElem hj]
        · exact absurd (hexr b' hb' c hl) hct
    | succ k' =>
      simp only [List.getElem?_cons_succ] at hk
      simp only [List.drop_succ_cons] at hc
      by_cases hlt : k' < b.2.length
      · rw [List.getElem?_append_left hlt] at hk
        exact absurd (hex b (List.mem_cons_self _ _) cur (mem_of_getElem?_some hk)) hcur
      · rw [List.getElem?_append_right (by omega)] at hk
        have hdrop : List.drop (k' + 1) (b.2 ++ flattenBlocks rest) =
            List.drop (k' - b.2.length + 1) (flattenBlocks rest) := by
          rw [List.drop_append_eq_append_drop, List.drop_eq_nil_of_le (by omega),
            List.nil_append]
          congr 1
          omega
        rw [hdrop] at hc
        obtain ⟨i, j, hij, hi, hj⟩ := later_in_blocks rest hexr _ cur c hk hcur hc hct
        exact ⟨i + 1, j + 1, by omega, by simpa using hi, by simpa using hj⟩

theorem insertedAfter_reformat {dev : DeviceType} {P : LayerInfo} {extra : List LayerInfo}
    (h : InsertedAfter dev P extra) :
    ∀ l ∈ extra, l.type = LayerType.LAYER_REFORMAT ∧ ∀ x ∈ l.inputs, x ∈ P.outputs := by
  intro l hl
  rcases h with he | ⟨-, outs, n, hsub, -, -, he⟩
  · rw [he] at hl; cases hl
  · rw [he, List.mem_singleton] at hl
    subst hl
    exact ⟨rfl, fun x hx => hsub.subset hx⟩

/-- The first loop fails when some key still to come is read by both kinds of layers
and has an unsupported type. -/
theorem phaseA_fails_of_mixed (dev : DeviceType) (tm : String → DataType) (count : Nat) :
    ∀ (ks : List String) (st : OptState),
      (∃ I ∈ ks, ReadByBoth st.layers_orig I ∧ src_quantized_of (tm I) = none) →
      (phaseA dev tm count ks st).1 ≠ Status.TNN_OK
  | [], _, h => by
    obtain ⟨I, hI, -⟩ := h
    cases hI
  | K :: rest, st, h => by
    obtain ⟨I, hI, hboth, hsrc⟩ := h
    by_cases hmix : 0 < need_int8_input K st.layers_orig ∧ 0 < need_fp32_input K st.layers_orig
    · cases hins : insertForInput dev tm count K st with
      | none =>
        rw [phaseA_cons_fail hmix hins]
        simp
      | some st' =>
        rw [phaseA_cons_mixed hmix hins]
        have hsup : src_quantized_of (tm K) ≠ none := fun h => by
          rw [(insertForInput_isSome dev tm count K st).2 h] at hins; cases hins
        have hIK : I ≠ K := fun e => hsup (e ▸ hsrc)
        have hIrest : I ∈ rest := by
          rcases List.mem_cons.1 hI with h | h
          · exact absurd h hIK
          · exact h
        obtain ⟨v, -, hL, -⟩ := insertForInput_spec hins
        have hrel : LayersRel (fun _ _ x b => x = I → b = I) st.layers_orig st'.layers_orig := by
          rw [hL]
          refine layersRel_step (layersRel_refl (fun _ _ _ h => h) _) ?_
          intro j a x b _ _ _ hr _ hb hx
          exact absurd ((hr hx).symm.trans hb) hIK
        exact phaseA_fails_of_mixed dev tm count rest st' ⟨I, hIrest,
          ⟨readBy_forward hrel (fun _ _ _ hr => hr rfl) hboth.1,
            readBy_forward hrel (fun _ _ _ hr => hr rfl) hboth.2⟩, hsrc⟩
    · rw [phaseA_cons_unmixed hmix]
      have hIrest : I ∈ rest := by
        rcases List.mem_cons.1 hI with h | h
        · exact absurd ((mixed_iff K st.layers_orig).2 (h ▸ hboth)) hmix
        · exact h
      exact phaseA_fails_of_mixed dev tm count rest st ⟨I, hIrest, hboth, hsrc⟩

/-- A declared graph input that is read by both kinds of layers and has an
unsupported type makes `Optimize` fail, whatever the names are. -/
theorem Optimize_fails_of_mixed (dev : DeviceType) (net : NetStructure) (res : NetResource)
    (h : ∃ I ∈ net.inputs_shape_map, ReadByBoth net.layers I ∧
      net.input_data_type_map I ≠ DataType.DATA_TYPE_FLOAT ∧
      net.input_data_type_map I ≠ DataType.DATA_TYPE_INT8) :
    (Optimize dev (some net) res).1 ≠ Status.TNN_OK := by
  obtain ⟨I, hI, hboth, hty⟩ := h
  obtain ⟨h1, h2⟩ := readByBoth_length hboth
  have hA := phaseA_fails_of_mixed dev net.input_data_type_map net.layers.length
    net.inputs_shape_map (OptState.init net res)
    ⟨I, hI, hboth, (src_quantized_of_eq_none_iff _).2 hty⟩
  rw [Optimize_status, run_of_phaseA_err h1 h2 hA]
  exact hA

/-- No entry of the scale store is changed or removed by a call, whatever its
outcome. -/
theorem Optimize_mapExtends (dev : DeviceType) (net : NetStructure) (res : NetResource) :
    MapExtends res.resource_map (scalesAfter (Optimize dev (some net) res)) := by
  by_cases hfast : net.layers.length ≤ 1 ∨ GetQuantizedInfoFromNetStructure net = false
  · rw [Optimize_of_run_none ((run_eq_none_iff dev net res).2 hfast)]
    exact mapExtends_refl _
  · rw [not_or] at hfast
    have h1 : 1 < net.layers.length := by omega
    have h2 : GetQuantizedInfoFromNetStructure net = true := by simpa using hfast.2
    have hmA := phaseA_mapExtends dev net.input_data_type_map net.layers.length
      net.inputs_shape_map (OptState.init net res)
    by_cases hok : (phaseA dev net.input_data_type_map net.layers.length net.inputs_shape_map
      (OptState.init net res)).1 = Status.TNN_OK
    · rw [Optimize_of_run_ok (run_of_phaseA_ok dev res h1 h2 hok)]
      exact mapExtends_trans hmA (phaseB_mapExtends dev _ _ _)
    · have hrun := @run_of_phaseA_err dev net res h1 h2 hok
      rw [@Optimize_of_run_err dev net res _ _ hrun hok]
      exact hmA


theorem newKeys_step (net : NetStructure) (M0 : List (String × Nat)) (o : String) (q : Bool)
    (hfb : q = false → FloatBoundary net o) (M : List (String × Nat))
    (h : NewKeysAliased net M0 M) : NewKeysAliased net M0 (aliasFold q [o] M) := by
  cases q with
  | true =>
    have hM : aliasFold true [o] M = M := by simp [aliasFold]
    rw [hM]; exact h
  | false =>
    cases hf : mapFind M (o ++ BLOB_SCALE_SUFFIX) with
    | none =>
      have hM : aliasFold false [o] M = M := by simp [aliasFold, hf]
      rw [hM]; exact h
    | some w =>
      have hM : aliasFold false [o] M =
          mapInsert M (o ++ REFORMAT_NAME_SUFFIX ++ BLOB_SCALE_SUFFIX) w := by
        simp [aliasFold, hf]
      rw [hM]
      intro key h0 h1
      rw [mapFind_mapInsert] at h1
      cases hk : mapFind M key with
      | some v' => exact h key h0 (by rw [hk]; exact Option.some_ne_none v')
      | none =>
        rw [hk] at h1
        by_cases he : o ++ REFORMAT_NAME_SUFFIX ++ BLOB_SCALE_SUFFIX = key
        · exact ⟨o, hfb rfl, he.symm⟩
        · simp [he] at h1

/-- The keys a call adds to the scale store, whatever its outcome, when no declared
input and no layer output ends in the reformat suffix. -/
theorem Optimize_newKeys (dev : DeviceType) (net : NetStructure) (res : NetResource)
    (hinf : InputsFresh net) (hfresh : OutputsFresh net.layers) :
    NewKeysAliased net res.resource_map (scalesAfter (Optimize dev (some net) res)) := by
  by_cases hfast : net.layers.length ≤ 1 ∨ GetQuantizedInfoFromNetStructure net = false
  · rw [Optimize_of_run_none ((run_eq_none_iff dev net res).2 hfast)]
    exact fun key h0 h1 => absurd h0 h1
  · rw [not_or] at hfast
    have h1 : 1 < net.layers.length := by omega
    have h2 : GetQuantizedInfoFromNetStructure net = true := by simpa using hfast.2
    have hinvA : NewKeysAliased net res.resource_map
        (phaseA dev net.input_data_type_map net.layers.length net.inputs_shape_map
          (OptState.init net res)).2.resource_map := by
      refine phaseA_joint dev net.input_data_type_map net.layers.length net.layers
        (fun _ M => NewKeysAliased net res.resource_map M) net.inputs_shape_map
        (OptState.init net res) hinf ?_ (layersRel_refl (fun _ _ _ _ => rfl) _)
        (fun key h0 h1 => absurd h0 h1)
      intro L M K q hK hq hboth hinv
      refine newKeys_step net res.resource_map K q ?_ M hinv
      intro hqf
      rw [hqf] at hq
      exact Or.inr ⟨hK, src_quantized_of_false hq, hboth⟩
    by_cases hok : (phaseA dev net.input_data_type_map net.layers.length net.inputs_shape_map
      (OptState.init net res)).1 = Status.TNN_OK
    · rw [Optimize_of_run_ok (run_of_phaseA_ok dev res h1 h2 hok)]
      have horigA := phaseA_origin dev net.input_data_type_map net.layers.length net.layers
        net.inputs_shape_map (OptState.init net res) (layersRel_refl (fun _ _ _ _ => rfl) _)
      refine phaseB_joint dev net.layers.length net.layers hfresh
        (fun _ M => NewKeysAliased net res.resource_map M) _ horigA hinvA net.layers.length ?_
      intro L M k P o _ hP hty ho hlr hinv
      refine newKeys_step net res.resource_map o P.param.quantized ?_ M hinv
      intro hqf
      rw [hqf] at hlr
      exact Or.inl ⟨k, (List.getElem?_eq_some_iff.1 hP).1, P, hP, hty, hqf, ho, hlr⟩
    · have hrun := @run_of_phaseA_err dev net res h1 h2 hok
      rw [@Optimize_of_run_err dev net res _ _ hrun hok]
      exact hinvA

/-- The scale store after a successful call on a graph with fresh names and the
required scale entries: it extends the store from before, holds for every float
boundary tensor without a prior alias the scale object of the tensor under the alias
key, and every new key is such an alias key. -/
theorem scale_propagation_spec (dev : DeviceType) (net : NetStructure) (res : NetResource)
    (hok : (Optimize dev (some net) res).1 = Status.TNN_OK)
    (hscale : InteriorScales net.layers res.resource_map)
    (hinscale : InputScales net res.resource_map)
    (hinf : InputsFresh net) (hfresh : OutputsFresh net.layers) :
    (∀ key v, mapFind res.resource_map key = some v →
        mapFind (scalesAfter (Optimize dev (some net) res)) key = some v) ∧
      (∀ T, FloatBoundary net T →
        mapFind res.resource_map (T ++ REFORMAT_NAME_SUFFIX ++ BLOB_SCALE_SUFFIX) = none →
        mapFind (scalesAfter (Optimize dev (some net) res))
            (T ++ REFORMAT_NAME_SUFFIX ++ BLOB_SCALE_SUFFIX) =
          mapFind res.resource_map (T ++ BLOB_SCALE_SUFFIX)) ∧
      (∀ key, mapFind res.resource_map key = none →
        mapFind (scalesAfter (Optimize dev (some net) res)) key ≠ none →
        ∃ T, FloatBoundary net T ∧
          key = T ++ REFORMAT_NAME_SUFFIX ++ BLOB_SCALE_SUFFIX) := by
  by_cases hfast : net.layers.length ≤ 1 ∨ GetQuantizedInfoFromNetStructure net = false
  · have hnone := (run_eq_none_iff dev net res).2 hfast
    rw [Optimize_of_run_none hnone]
    refine ⟨fun _ _ h => h, ?_, fun key h0 h1 => absurd h0 h1⟩
    intro T hT
    have := floatBoundary_not_fast hT
    rcases hfast with h | h
    · omega
    · rw [this.2] at h; cases h
  · rw [not_or] at hfast
    have h1 : 1 < net.layers.length := by omega
    have h2 : GetQuantizedInfoFromNetStructure net = true := by simpa using hfast.2
    have hAok := phaseA_ok_of_Optimize_ok h1 h2 hok
    have hpres := alias_present dev net res h1 h2 hok hscale hinscale hinf hfresh
    obtain ⟨-, hext, hV, -⟩ := scaleInv_final dev net res hscale hinscale hinf hfresh
    rw [Optimize_of_run_ok (run_of_phaseA_ok dev res h1 h2 hAok)]
    refine ⟨hext, ?_, ?_⟩
    · intro T hT h0
      obtain ⟨v, hv⟩ := Option.ne_none_iff_exists'.1 (hpres T hT)
      obtain ⟨T', -, hkey, hval⟩ := hV _ v h0 hv
      have hTT : T = T' := str_append_right_cancel (str_append_right_cancel hkey)
      show mapFind _ _ = _
      rw [hTT, hval, ← hTT]
      exact hv
    · intro key h0 hne
      obtain ⟨v, hv⟩ := Option.ne_none_iff_exists'.1 hne
      obtain ⟨T, hT, hkey, -⟩ := hV key v h0 hv
      exact ⟨T, hT, hkey⟩

/-- Every tensor read by a layer of the result that is not a `Reformat` has a
producer of the kind of that layer, or is a declared graph input of matching type or
one that only layers of that kind read. -/
theorem produced_in_kind (dev : DeviceType) (net : NetStructure) (res : NetResource)
    (hok : (Optimize dev (some net) res).1 = Status.TNN_OK)
    (hnoref : NoReformat net.layers) (htopo : Topological net)
    (hscale : InteriorScales net.layers res.resource_map)
    (hinf : InputsFresh net) (hfresh : OutputsFresh net.layers) :
    ∀ C ∈ resultLayers (Optimize dev (some net) res), C.type ≠ LayerType.LAYER_REFORMAT →
      ∀ X ∈ C.inputs,
        ProducedInKind (resultLayers (Optimize dev (some net) res)) C X ∨
          (X ∈ net.inputs_shape_map ∧
            ((net.input_data_type_map X = DataType.DATA_TYPE_INT8 ↔ C.param.quantized = true) ∨
              ∀ l ∈ net.layers, X ∈ l.inputs → l.param.quantized = C.param.quantized)) := by
  intro C' hC' hC't X hX
  unfold ProducedInKind
  obtain ⟨A, blocks, hres, hfst, hA, hins, -⟩ := result_blocks dev net res hok
  have hshape : Shape net.layers (layersAfter dev net res) :=
    (layersAfter_induct dev net res (fun _ => True) trivial (fun _ _ _ _ _ _ _ => trivial)
      (fun _ _ _ _ _ _ _ _ _ => trivial)).1
  have hafter_mem : ∀ l ∈ layersAfter dev net res,
      l ∈ resultLayers (Optimize dev (some net) res) := by
    intro l hl
    rw [hres]
    refine List.mem_append_right _ (mem_flattenBlocks.2 ?_)
    rw [← hfst] at hl
    obtain ⟨b, hb, rfl⟩ := List.mem_map.1 hl
    exact ⟨b, hb, Or.inl rfl⟩
  -- `C'` is an original layer
  have hC'after : C' ∈ layersAfter dev net res := by
    rw [hres] at hC'
    rcases List.mem_append.1 hC' with h | h
    · obtain ⟨K, -, v, -, rfl⟩ := hA C' h
      exact absurd rfl hC't
    · obtain ⟨b, hb, hl⟩ := mem_flattenBlocks.1 h
      rcases hl with rfl | hl
      · rw [← hfst]; exact List.mem_map_of_mem _ hb
      · rcases hins b hb with he | ⟨-, outs, n, -, -, -, he⟩
        · rw [he] at hl; cases hl
        · rw [he, List.mem_singleton] at hl
          subst hl
          exact absurd rfl hC't
  obtain ⟨j, hj, hjC⟩ := List.getElem_of_mem hC'after
  have hC'j : (layersAfter dev net res)[j]? = some C' := hjC ▸ List.getElem?_eq_getElem hj
  obtain ⟨C, hC, hsf⟩ := shape_get hshape hC'j
  have hjn : j < net.layers.length := (List.getElem?_eq_some_iff.1 hC).1
  obtain ⟨p, hp, hpX⟩ := List.getElem_of_mem hX
  have hXp : C'.inputs[p]? = some X := hpX ▸ List.getElem?_eq_getElem hp
  have hCt : C.type ≠ LayerType.LAYER_REFORMAT := hnoref C (mem_of_getElem?_some hC)
  -- the producer of an unchanged name, by topological order
  have hprod : ∀ x, C.inputs[p]? = some x →
      x ∈ net.inputs_shape_map ∨ ∃ (k : Nat) (P : LayerInfo), k < j ∧ net.layers[k]? = some P ∧
        x ∈ P.outputs := by
    intro x hx
    have hxin : x ∈ net.layers[j].inputs := by
      rw [(List.getElem?_eq_some_iff.1 hC).2]
      exact mem_of_getElem?_some hx
    rcases htopo j hjn x hxin with h | ⟨l, hl, hxl⟩
    · exact Or.inl h
    · right
      obtain ⟨k, hk, hkl⟩ := List.getElem_of_mem hl
      rw [List.length_take] at hk
      refine ⟨k, l, by omega, ?_, hxl⟩
      rw [← hkl, List.getElem_take]
      exact List.getElem?_eq_getElem _
  by_cases hfast : net.layers.length ≤ 1 ∨ GetQuantizedInfoFromNetStructure net = false
  · have hnone := (run_eq_none_iff dev net res).2 hfast
    have hafter : layersAfter dev net res = net.layers := by unfold layersAfter; rw [hnone]
    rw [hafter, hC] at hC'j
    cases hC'j
    rcases hprod X hXp with hkey | ⟨k, P, hkj, hP, hxP⟩
    · refine Or.inr ⟨hkey, Or.inr ?_⟩
      intro l hl _
      rcases hfast with h | h
      · obtain ⟨i, hi, rfl⟩ := List.getElem_of_mem hl
        have hi0 : i = 0 := by omega
        have hj0 : j = 0 := by omega
        subst hi0; subst hj0
        rw [(List.getElem?_eq_some_iff.1 hC).2]
      · unfold GetQuantizedInfoFromNetStructure at h
        rw [List.any_eq_false] at h
        have h1 := h l hl
        have h2 := h C' (mem_of_getElem?_some hC)
        simp only [Bool.not_eq_true] at h1 h2
        rw [h1, h2]
    · refine Or.inl (Or.inl ⟨P, ?_, hnoref P (mem_of_getElem?_some hP), hxP, ?_⟩)
      · rw [Optimize_of_run_none hnone]; exact mem_of_getElem?_some hP
      · rcases hfast with h | h
        · omega
        · unfold GetQuantizedInfoFromNetStructure at h
          rw [List.any_eq_false] at h
          have h1 := h P (mem_of_getElem?_some hP)
          have h2 := h C' (mem_of_getElem?_some hC)
          simp only [Bool.not_eq_true] at h1 h2
          rw [h1, h2]
  · rw [not_or] at hfast
    have h1 : 1 < net.layers.length := by omega
    have h2 : GetQuantizedInfoFromNetStructure net = true := by simpa using hfast.2
    have hAok := phaseA_ok_of_Optimize_ok h1 h2 hok
    have hrun := run_of_phaseA_ok dev res h1 h2 hAok
    have hafter : layersAfter dev net res = (phaseB dev net.layers.length net.layers.length
        (phaseA dev net.input_data_type_map net.layers.length net.inputs_shape_map
          (OptState.init net res)).2).layers_orig := by
      unfold layersAfter; rw [hrun]
    have hresult : resultLayers (Optimize dev (some net) res) =
        (phaseB dev net.layers.length net.layers.length
          (phaseA dev net.input_data_type_map net.layers.length net.inputs_shape_map
            (OptState.init net res)).2).layers_fused := by
      rw [Optimize_of_run_ok hrun]; rfl
    have hdel := phaseB_delivers dev net.layers.length net.layers _ net.layers.length
      (phaseA_delivers dev net.input_data_type_map net.layers.length net.layers
        net.inputs_shape_map (OptState.init net res)
        (layersRel_refl (fun _ _ _ => Or.inl rfl) _))
    have horigA := phaseA_origin dev net.input_data_type_map net.layers.length net.layers
      net.inputs_shape_map (OptState.init net res) (layersRel_refl (fun _ _ _ _ => rfl) _)
    have hmapA : MapExtends res.resource_map
        (phaseA dev net.input_data_type_map net.layers.length net.inputs_shape_map
          (OptState.init net res)).2.resource_map :=
      phaseA_mapExtends dev _ _ _ (OptState.init net res)
    rw [hafter] at hC'j
    obtain ⟨hsfd, hind⟩ := hdel.2 j C C' hC hC'j
    obtain ⟨x, hx, hxX⟩ := forall₂_getElem?_right hind p X hXp
    rcases hxX with hXx | ⟨R, hR, hRd⟩
    · subst hXx
      rcases hprod X hx with hkey | ⟨k, P, hkj, hP, hxP⟩
      · -- a graph input that was never renamed
        have hXf : ¬ EndsWithSuffix X := hinf X hkey
        obtain ⟨Ca, hCa, -, hinA⟩ := layersRel_get horigA hC
        have hst := phaseB_stays dev net.layers.length
          (phaseA dev net.input_data_type_map net.layers.length net.inputs_shape_map
            (OptState.init net res)).2 0 net.layers.length
        rw [Nat.zero_add] at hst
        obtain ⟨-, hinS⟩ := hst.2 j Ca C' hCa hC'j
        obtain ⟨b, hb, hbX⟩ := forall₂_getElem?_right hinS p X hXp
        have hbe : ¬ EndsWithSuffix b := fun h => hXf (hbX h)
        obtain ⟨x', hx', hr'⟩ := forall₂_getElem?_right hinA p b hb
        rw [hx] at hx'
        cases hx'
        have hbX' : b = X := hr' hbe
        subst hbX'
        have := input_unrenamed dev net (OptState.init net res) rfl hAok j p C Ca b hkey hXf hC
          hx hCa hb
        rw [hsf.2.2.2.2]
        exact Or.inr ⟨hkey, this⟩
      · by_cases hq : C.param.quantized = P.param.quantized
        · obtain ⟨P', hP', hsfP⟩ := layersRel_get hshape hP
          refine Or.inl (Or.inl ⟨P', hafter_mem P' (mem_of_getElem?_some hP'), ?_, ?_, ?_⟩)
          · rw [hsfP.1.1]; exact hnoref P (mem_of_getElem?_some hP)
          · rw [hsfP.1.2.2.2.1]; exact hxP
          · rw [hsfP.1.2.2.2.2, hsf.2.2.2.2, hq]
        · exfalso
          exact boundary_is_renamed dev net.layers res.resource_map _ horigA hmapA hfresh
            hscale k j p P C C' X hP hC hkj (hnoref P (mem_of_getElem?_some hP)) hCt hxP hq
            hC'j hXp
    · rw [← hresult] at hR
      rw [← hsf.2.2.2.2] at hRd
      exact Or.inl (Or.inr ⟨R, hR, hRd⟩)

/-- Why an input was renamed: when no declared input and no layer output ends in the
suffix, an input of the layer at `j` after the call is the original name `x`, or it is
`x` + suffix and `x` is a declared graph input whose virtual status differs from the
flag of the layer, or an output of an earlier layer that is not a `Reformat` and has a
different flag. -/
theorem renamed_why (dev : DeviceType) (net : NetStructure) (res : NetResource)
    (hinf : InputsFresh net) (hfresh : OutputsFresh net.layers) :
    LayersRel (fun j a x y => y = x ∨ (y = x ++ REFORMAT_NAME_SUFFIX ∧
      ((x ∈ net.inputs_shape_map ∧ ∃ v, src_quantized_of (net.input_data_type_map x) = some v ∧
          a.param.quantized ≠ v) ∨
        ∃ (k : Nat) (P : LayerInfo), net.layers[k]? = some P ∧
          P.type ≠ LayerType.LAYER_REFORMAT ∧ x ∈ P.outputs ∧ k < j ∧
          a.param.quantized ≠ P.param.quantized))) net.layers (layersAfter dev net res) := by
  refine layersAfter_rel dev net res _ (fun _ _ _ => Or.inl rfl) ?_ ?_
  · intro j a x o q ho hq _ hne hr
    rcases hr with hr | ⟨hr, -⟩
    · subst hr
      exact Or.inr ⟨rfl, Or.inl ⟨ho, q, hq, hne⟩⟩
    · exact absurd (hr ▸ endsWithSuffix_append x) (hinf o ho)
  · intro j k a P x o hP hPt ho hkj _ hne hr
    rcases hr with hr | ⟨hr, -⟩
    · subst hr
      exact Or.inr ⟨rfl, Or.inr ⟨k, P, hP, hPt, ho, hkj, hne⟩⟩
    · exact absurd (hr ▸ endsWithSuffix_append x) (hfresh P (mem_of_getElem?_some hP) o ho)

/-- Every layer of the result that outputs a tensor read by a layer `C` (not a
`Reformat`) is of the kind of `C`. -/
theorem producers_in_kind (dev : DeviceType) (net : NetStructure) (res : NetResource)
    (hok : (Optimize dev (some net) res).1 = Status.TNN_OK)
    (hnoref : NoReformat net.layers) (htopo : Topological net)
    (hsingle : SingleProducer net.layers) (hno : OutputsNotInputs net)
    (hscale : InteriorScales net.layers res.resource_map)
    (hinf : InputsFresh net) (hfresh : OutputsFresh net.layers) :
    ∀ C ∈ resultLayers (Optimize dev (some net) res), C.type ≠ LayerType.LAYER_REFORMAT →
      ∀ X ∈ C.inputs, ∀ l ∈ resultLayers (Optimize dev (some net) res), X ∈ l.outputs →
        (l.type ≠ LayerType.LAYER_REFORMAT ∧ l.param.quantized = C.param.quantized) ∨
          Delivers l C.param.quantized X := by
  intro C' hC' hC't X hX l hl hXl
  obtain ⟨A, blocks, hres, hfst, hA, hins, -⟩ := result_blocks dev net res hok
  have hwhy := renamed_why dev net res hinf hfresh
  have hshape : Shape net.layers (layersAfter dev net res) :=
    layersRel_mono (fun _ _ _ _ _ => trivial) hwhy
  -- `C'` is an original layer
  have hC'after : C' ∈ layersAfter dev net res := by
    rw [hres] at hC'
    rcases List.mem_append.1 hC' with h | h
    · obtain ⟨K, -, v, -, rfl⟩ := hA C' h
      exact absurd rfl hC't
    · obtain ⟨b, hb, hlb⟩ := mem_flattenBlocks.1 h
      rcases hlb with rfl | hlb
      · rw [← hfst]; exact List.mem_map_of_mem _ hb
      · rcases hins b hb with he | ⟨-, outs, n, -, -, -, he⟩
        · rw [he] at hlb; cases hlb
        · rw [he, List.mem_singleton] at hlb
          subst hlb
          exact absurd rfl hC't
  obtain ⟨j, hj, hjC⟩ := List.getElem_of_mem hC'after
  have hC'j : (layersAfter dev net res)[j]? = some C' := hjC ▸ List.getElem?_eq_getElem hj
  obtain ⟨C, hC, hsf⟩ := shape_get hshape hC'j
  have hjn : j < net.layers.length := (List.getElem?_eq_some_iff.1 hC).1
  obtain ⟨p, hp, hpX⟩ := List.getElem_of_mem hX
  have hXp : C'.inputs[p]? = some X := hpX ▸ List.getElem?_eq_getElem hp
  obtain ⟨x, hx, hr⟩ := forall₂_getElem?_right (hwhy.2 j C C' hC hC'j).2 p X hXp
  -- the producer of the original name
  have hprod : x ∈ net.inputs_shape_map ∨ ∃ (k : Nat) (P : LayerInfo), k < j ∧
      net.layers[k]? = some P ∧ x ∈ P.outputs := by
    have hxin : x ∈ net.layers[j].inputs := by
      rw [(List.getElem?_eq_some_iff.1 hC).2]
      exact mem_of_getElem?_some hx
    rcases htopo j hjn x hxin with h | ⟨l', hl', hxl⟩
    · exact Or.inl h
    · right
      obtain ⟨k, hk, hkl⟩ := List.getElem_of_mem hl'
      rw [List.length_take] at hk
      refine ⟨k, l', by omega, ?_, hxl⟩
      rw [← hkl, List.getElem_take]
      exact List.getElem?_eq_getElem _
  have hxf : ¬ EndsWithSuffix x := by
    rcases hprod with h | ⟨k, P, -, hP, hxP⟩
    · exact hinf x h
    · exact hfresh P (mem_of_getElem?_some hP) x hxP
  -- a name with the suffix is the renamed `x`, with its reason
  have hsuffixed : ∀ o, X = o ++ REFORMAT_NAME_SUFFIX → o = x ∧
      ((x ∈ net.inputs_shape_map ∧ ∃ v, src_quantized_of (net.input_data_type_map x) = some v ∧
          C.param.quantized ≠ v) ∨
        ∃ (k : Nat) (P : LayerInfo), net.layers[k]? = some P ∧
          P.type ≠ LayerType.LAYER_REFORMAT ∧ x ∈ P.outputs ∧ k < j ∧
          C.param.quantized ≠ P.param.quantized) := by
    intro o ho
    rcases hr with hr | ⟨hr, hwhy'⟩
    · exact absurd (hr ▸ ho ▸ endsWithSuffix_append o) hxf
    · exact ⟨str_append_right_cancel (ho ▸ hr), hwhy'⟩
  rw [hres] at hl
  rcases List.mem_append.1 hl with hlA | hlB
  · -- a layer made for a graph input
    obtain ⟨K, hK, v, hv, rfl⟩ := hA l hlA
    have hXK : X = K ++ REFORMAT_NAME_SUFFIX := by
      have : X ∈ [K ++ REFORMAT_NAME_SUFFIX] := hXl
      simpa using this
    obtain ⟨hKx, hcase⟩ := hsuffixed K hXK
    subst hKx
    right
    rw [hXK]
    rcases hcase with ⟨-, v', hv', hne⟩ | ⟨k, P, hP, -, hxP, -, -⟩
    · rw [hv] at hv'
      cases hv'
      exact reformatFor_delivers dev _ v [K] 1 (by rw [hsf.2.2.2.2]; exact hne) (by simp)
    · exact absurd hK (hno P (mem_of_getElem?_some hP) K hxP)
  · obtain ⟨b, hb, hlb⟩ := mem_flattenBlocks.1 hlB
    have hb1 : b.1 ∈ layersAfter dev net res := by
      rw [← hfst]; exact List.mem_map_of_mem _ hb
    obtain ⟨i, hi, hib⟩ := List.getElem_of_mem hb1
    have hib' : (layersAfter dev net res)[i]? = some b.1 := hib ▸ List.getElem?_eq_getElem hi
    obtain ⟨Pi, hPi, hsfP⟩ := shape_get hshape hib'
    rcases hlb with rfl | hlb
    · -- an original layer
      have hXPi : X ∈ Pi.outputs := hsfP.2.2.2.1 ▸ hXl
      have hXf : ¬ EndsWithSuffix X := hfresh Pi (mem_of_getElem?_some hPi) X hXPi
      have hXx : X = x := by
        rcases hr with hr | ⟨hr, -⟩
        · exact hr
        · exact absurd (hr ▸ endsWithSuffix_append x) hXf
      subst hXx
      have hij : i < j := by
        rcases hprod with h | ⟨k, P, hkj, hP, hxP⟩
        · exact absurd h (hno Pi (mem_of_getElem?_some hPi) X hXPi)
        · have := singleProducer_unique hsingle hP hPi hxP hXPi
          omega
      left
      refine ⟨by rw [hsfP.1]; exact hnoref Pi (mem_of_getElem?_some hPi), ?_⟩
      rw [hsfP.2.2.2.2, hsf.2.2.2.2]
      by_contra hq
      by_cases hfast : net.layers.length ≤ 1 ∨ GetQuantizedInfoFromNetStructure net = false
      · rcases hfast with h | h
        · omega
        · rw [quantized_net_of_flags_differ hPi hC (fun e => hq e.symm)] at h
          cases h
      · rw [not_or] at hfast
        have h1 : 1 < net.layers.length := by omega
        have h2 : GetQuantizedInfoFromNetStructure net = true := by simpa using hfast.2
        have hAok := phaseA_ok_of_Optimize_ok h1 h2 hok
        have hrun := run_of_phaseA_ok dev res h1 h2 hAok
        have hafter : layersAfter dev net res =
            (phaseB dev net.layers.length net.layers.length
              (phaseA dev net.input_data_type_map net.layers.length net.inputs_shape_map
                (OptState.init net res)).2).layers_orig := by
          unfold layersAfter; rw [hrun]
        have horigA := phaseA_origin dev net.input_data_type_map net.layers.length net.layers
          net.inputs_shape_map (OptState.init net res) (layersRel_refl (fun _ _ _ _ => rfl) _)
        have hmapA := phaseA_mapExtends dev net.input_data_type_map net.layers.length
          net.inputs_shape_map (OptState.init net res)
        rw [hafter] at hC'j
        exact boundary_is_renamed dev net.layers res.resource_map _ horigA hmapA hfresh
          hscale i j p Pi C C' X hPi hC hij (hnoref Pi (mem_of_getElem?_some hPi))
          (hnoref C (mem_of_getElem?_some hC)) hXPi (fun e => hq e.symm) hC'j hXp
    · -- the layer inserted after an original layer
      rcases hins b hb with he | ⟨-, outs, n, hsub, -, -, he⟩
      · rw [he] at hlb; cases hlb
      · rw [he, List.mem_singleton] at hlb
        subst hlb
        obtain ⟨o, ho, hoX⟩ := List.mem_map.1 hXl
        obtain ⟨hox, hcase⟩ := hsuffixed o hoX.symm
        subst hox
        have hoPi : o ∈ Pi.outputs :=
          hsfP.2.2.2.1 ▸ hsub.subset (List.mem_of_mem_take ho)
        right
        rw [← hoX]
        rcases hcase with ⟨hK, -⟩ | ⟨k, P, hP, -, hxP, -, hne⟩
        · exact absurd hK (hno Pi (mem_of_getElem?_some hPi) o hoPi)
        · have hki := singleProducer_unique hsingle hP hPi hxP hoPi
          subst hki
          rw [hPi] at hP
          cases hP
          exact reformatFor_delivers dev _ _ outs n
            (by rw [hsf.2.2.2.2, hsfP.2.2.2.2]; exact hne) ho
/-! ## C1: interior boundaries -/

/-- C1 (as amended): when `Optimize` succeeds on a graph in which each tensor has a
single producer, no layer output shares its name with a graph input or ends in the
reformat suffix, and every float tensor at an interior float-to-int8 boundary has its
scale entry, then for every non-`Reformat` layer `P` at index `i`, every output `T`
of `P` and every later non-`Reformat` layer `C` at index `j` that reads `T` with a
different quantized flag: (a) after the call `C` reads `T` + suffix at every position
where it read `T`, and (b) the resulting sequence holds `P` at some position `pos`,
directly followed by a new `Reformat` layer `R` (made by `CreateReformat` for `P`)
that has `T` among its inputs and one output, input + suffix, per input; `C` stands
after `R`. -/
theorem C1_interior_boundary_repaired (dev : DeviceType) (net : NetStructure)
    (res : NetResource) (i j : Nat) (P C : LayerInfo) (T : String)
    (hok : (Optimize dev (some net) res).1 = Status.TNN_OK)
    (hsp : SingleProducer net.layers) (hno : OutputsNotInputs net)
    (hfresh : OutputsFresh net.layers) (hscale : InteriorScales net.layers res.resource_map)
    (hP : net.layers[i]? = some P) (hC : net.layers[j]? = some C) (hij : i < j)
    (hPt : P.type ≠ LayerType.LAYER_REFORMAT) (hCt : C.type ≠ LayerType.LAYER_REFORMAT)
    (hT : T ∈ P.outputs) (hTC : T ∈ C.inputs)
    (hq : C.param.quantized ≠ P.param.quantized) :
    ∃ (pos pos' : Nat) (P' C' R : LayerInfo) (ins : List String),
      (layersAfter dev net res)[i]? = some P' ∧ SameFields P P' ∧
      (layersAfter dev net res)[j]? = some C' ∧ SameFields C C' ∧
      C'.inputs.length = C.inputs.length ∧
      (∀ p : Nat, C.inputs[p]? = some T → C'.inputs[p]? = some (T ++ REFORMAT_NAME_SUFFIX)) ∧
      R = { CreateReformat dev (P.name ++ REFORMAT_NAME_SUFFIX) P.param.quantized with
            inputs := ins, outputs := ins.map (· ++ REFORMAT_NAME_SUFFIX) } ∧
      T ∈ ins ∧
      (resultLayers (Optimize dev (some net) res))[pos]? = some P' ∧
      (resultLayers (Optimize dev (some net) res))[pos + 1]? = some R ∧
      (resultLayers (Optimize dev (some net) res))[pos']? = some C' ∧ pos + 1 < pos' := by
  have hjn : j < net.layers.length := (List.getElem?_eq_some_iff.1 hC).1
  have h1 : 1 < net.layers.length := by omega
  have h2 := quantized_net_of_flags_differ hP hC hq
  have hA := phaseA_ok_of_Optimize_ok h1 h2 hok
  have hrun := run_of_phaseA_ok dev res h1 h2 hA
  -- the state after the first loop
  generalize hstA : (phaseA dev net.input_data_type_map net.layers.length
    net.inputs_shape_map (OptState.init net res)).2 = stA at hrun
  have hrelA : Shape net.layers stA.layers_orig ∧
      LayersRel (fun _ _ x b => (x = T → b = T) ∧ (¬ EndsWithSuffix b → b = x)) net.layers
        stA.layers_orig := by
    rw [← hstA]
    refine phaseA_layers dev _ _ (fun L => Shape net.layers L ∧
      LayersRel (fun _ _ x b => (x = T → b = T) ∧ (¬ EndsWithSuffix b → b = x)) net.layers L)
      _ _ ?_ ⟨shape_refl _, layersRel_refl (fun _ _ _ => ⟨fun h => h, fun _ => rfl⟩) _⟩
    intro L o q ho _ hL
    refine ⟨shape_step _ _ _ _ _ hL.1, layersRel_step hL.2 ?_⟩
    intro j' a x b _ _ _ hr _ hb
    subst hb
    refine ⟨fun hx => ?_, fun hne => absurd (endsWithSuffix_append b) hne⟩
    have := hr.1 hx
    subst this
    exact absurd ho (hno P (mem_of_getElem?_some hP) _ hT)
  have hmapA : MapExtends res.resource_map stA.resource_map := by
    rw [← hstA]
    exact phaseA_mapExtends dev _ _ _ (OptState.init net res)
  -- the state before iteration `i`
  have hrelI := (phaseB_layers dev net.layers.length net.layers
    (LayersRel (fun _ _ x b => (x = T → b = T) ∧ (¬ EndsWithSuffix b → b = x)) net.layers)
    i stA (by
      intro L k a o hk ha _ ho _ hL
      refine layersRel_step hL ?_
      intro j' a' x b _ _ _ hr _ hb
      subst hb
      refine ⟨fun hx => ?_, fun hne => absurd (endsWithSuffix_append b) hne⟩
      have := hr.1 hx
      subst this
      have := singleProducer_unique hsp ha hP ho hT
      omega) hrelA.1 hrelA.2)
  have hmapI : MapExtends res.resource_map
      (phaseB dev net.layers.length i stA).resource_map :=
    mapExtends_trans hmapA (phaseB_mapExtends dev _ i stA)
  obtain ⟨cur, ins, hcur, hsfP, hTins, hfused, hrelI1⟩ :=
    stepB_boundary dev net.layers.length net.layers res.resource_map
      (phaseB dev net.layers.length i stA) i j P C T (by exact_mod_cast hjn) hrelI.2 hmapI
      hfresh hscale hP hC hij hPt hCt hT hTC hq
  rw [← phaseB_succ] at hfused hrelI1
  have hshapeI1 : Shape net.layers (phaseB dev net.layers.length (i + 1) stA).layers_orig :=
    (phaseB_layers dev net.layers.length net.layers (fun _ => True) (i + 1) stA
      (fun _ _ _ _ _ _ _ _ _ _ => trivial) hrelA.1 trivial).1
  -- the remaining iterations
  obtain ⟨d1, hd1⟩ : ∃ d, net.layers.length = i + 1 + d :=
    ⟨net.layers.length - (i + 1), by omega⟩
  obtain ⟨d2, hd2⟩ : ∃ d, j = i + 1 + d := ⟨j - (i + 1), by omega⟩
  obtain ⟨d3, hd3⟩ : ∃ d, net.layers.length = j + 1 + d :=
    ⟨net.layers.length - (j + 1), by omega⟩
  obtain ⟨d4, hd4⟩ : ∃ d, net.layers.length = i + d :=
    ⟨net.layers.length - i, by omega⟩
  obtain ⟨d5, hd5⟩ : ∃ d, net.layers.length = j + d :=
    ⟨net.layers.length - j, by omega⟩
  have hfin1 : ∀ m, net.layers.length = m → phaseB dev net.layers.length net.layers.length stA
      = phaseB dev net.layers.length m stA := fun m hm => by rw [← hm]
  have hrelN := (phaseB_layers_from dev net.layers.length net.layers
    (LayersRel (fun j' _ x b => j' = j → x = T → b = T ++ REFORMAT_NAME_SUFFIX) net.layers)
    (i + 1) stA d1 (by
      intro L k a o _ _ ha _ ho _ hL
      refine layersRel_step hL ?_
      intro j' a' x b _ _ _ hr _ hb hj hx
      have hb' := hr hj hx
      subst hb
      exact absurd (hb' ▸ endsWithSuffix_append T)
        (hfresh a (mem_of_getElem?_some ha) _ ho)) hshapeI1 hrelI1).2
  rw [← hfin1 _ hd1] at hrelN
  have hafter : layersAfter dev net res =
      (phaseB dev net.layers.length net.layers.length stA).layers_orig := by
    unfold layersAfter; rw [hrun]
  have hresult : resultLayers (Optimize dev (some net) res) =
      (phaseB dev net.layers.length net.layers.length stA).layers_fused := by
    rw [Optimize_of_run_ok hrun]; rfl
  obtain ⟨C', hC', hsfC, hinC⟩ := layersRel_get hrelN hC
  have hP' : (phaseB dev net.layers.length net.layers.length stA).layers_orig[i]? = some cur := by
    rw [hfin1 _ hd4, phaseB_layers_stable dev _ stA i d4 (Nat.le_refl i)]
    exact hcur
  have hCj : (phaseB dev net.layers.length j stA).layers_orig[j]? = some C' := by
    rw [← phaseB_layers_stable dev _ stA j d5 (Nat.le_refl j), ← hfin1 _ hd5]
    exact hC'
  have hposP := phaseB_fused_at dev net.layers.length stA hcur d1
  have hposC := phaseB_fused_at dev net.layers.length stA hCj d3
  rw [← hfin1 _ hd1] at hposP
  rw [← hfin1 _ hd3] at hposC
  have hposR : (phaseB dev net.layers.length net.layers.length stA).layers_fused[
      (phaseB dev net.layers.length i stA).layers_fused.length + 1]? =
      some { CreateReformat dev (P.name ++ REFORMAT_NAME_SUFFIX) P.param.quantized with
             inputs := ins, outputs := ins.map (· ++ REFORMAT_NAME_SUFFIX) } := by
    rw [hfin1 _ hd1]
    refine prefix_getElem? (phaseB_fused_grows dev _ stA (i + 1) d1) ?_
    rw [hfused, show ∀ (l : List LayerInfo) (a b : LayerInfo), l ++ [a, b] = (l ++ [a]) ++ b :: []
      from fun l a b => by simp]
    have := getElem?_append_length ((phaseB dev net.layers.length i stA).layers_fused ++ [cur])
      { CreateReformat dev (P.name ++ REFORMAT_NAME_SUFFIX) P.param.quantized with
        inputs := ins, outputs := ins.map (· ++ REFORMAT_NAME_SUFFIX) } []
    simpa using this
  have hlen : (phaseB dev net.layers.length i stA).layers_fused.length + 2 ≤
      (phaseB dev net.layers.length j stA).layers_fused.length := by
    have := (phaseB_fused_grows dev net.layers.length stA (i + 1) d2).length_le
    rw [← hd2, hfused] at this
    simpa using this
  refine ⟨(phaseB dev net.layers.length i stA).layers_fused.length,
    (phaseB dev net.layers.length j stA).layers_fused.length, cur, C', _, ins,
    by rw [hafter]; exact hP', hsfP, by rw [hafter]; exact hC', hsfC,
    hinC.length_eq.symm, ?_, rfl, hTins, by rw [hresult]; exact hposP,
    by rw [hresult]; exact hposR, by rw [hresult]; exact hposC, by omega⟩
  intro p hp
  obtain ⟨y, hy, hr⟩ := forall₂_getElem?_left hinC p T hp
  rw [hy, hr rfl rfl]

theorem C1_interior_boundary_repaired_witness :
    (Optimize DeviceType.DEVICE_ARM (some netScenario2) { resource_map := [("x.scale", 7)] }).1
        = Status.TNN_OK ∧
      SingleProducer netScenario2.layers ∧ OutputsNotInputs netScenario2 ∧
      OutputsFresh netScenario2.layers ∧
      InteriorScales netScenario2.layers [("x.scale", 7)] ∧
      ∃ (pos pos' : Nat) (P' C' R : LayerInfo) (ins : List String),
        (layersAfter DeviceType.DEVICE_ARM netScenario2 { resource_map := [("x.scale", 7)] })[0]?
          = some P' ∧ SameFields (plainLayer "P" false ["in"] ["x"]) P' ∧
        (layersAfter DeviceType.DEVICE_ARM netScenario2 { resource_map := [("x.scale", 7)] })[1]?
          = some C' ∧ SameFields (plainLayer "Q" true ["x"] ["q"]) C' ∧
        C'.inputs.length = (plainLayer "Q" true ["x"] ["q"]).inputs.length ∧
        (∀ p : Nat, (plainLayer "Q" true ["x"] ["q"]).inputs[p]? = some "x" →
          C'.inputs[p]? = some ("x" ++ REFORMAT_NAME_SUFFIX)) ∧
        R = { CreateReformat DeviceType.DEVICE_ARM
                ((plainLayer "P" false ["in"] ["x"]).name ++ REFORMAT_NAME_SUFFIX)
                (plainLayer "P" false ["in"] ["x"]).param.quantized with
              inputs := ins, outputs := ins.map (· ++ REFORMAT_NAME_SUFFIX) } ∧
        "x" ∈ ins ∧
        (resultLayers (Optimize DeviceType.DEVICE_ARM (some netScenario2)
          { resource_map := [("x.scale", 7)] }))[pos]? = some P' ∧
        (resultLayers (Optimize DeviceType.DEVICE_ARM (some netScenario2)
          { resource_map := [("x.scale", 7)] }))[pos + 1]? = some R ∧
        (resultLayers (Optimize DeviceType.DEVICE_ARM (some netScenario2)
          { resource_map := [("x.scale", 7)] }))[pos']? = some C' ∧ pos + 1 < pos' :=
  ⟨by decide, by decide, by decide, by decide, by decide,
    C1_interior_boundary_repaired DeviceType.DEVICE_ARM netScenario2
      { resource_map := [("x.scale", 7)] } 0 1 (plainLayer "P" false ["in"] ["x"])
      (plainLayer "Q" true ["x"] ["q"]) "x" (by decide) (by decide) (by decide) (by decide)
      (by decide) (by decide) (by decide) (by decide) (by decide) (by decide) (by decide)
      (by decide) (by decide)⟩

/-- C1 as stated fails in three ways.  (1) Suffix collision: in `netCollideChain`,
with the scale of `x` present, the int8 layer `C` read `x`, an output of the float
layer `P1`; after the successful call it reads `x_int8_reformat_int8_reformat`, not
`x_int8_reformat`.  (2) A layer output that is also a graph input: in
`netOutputIsInput` the boundary between `P` and `C` is repaired by the `Reformat`
layer of the graph input, which stands first, and `P` is directly followed by `C`.
(3) Failure: in `netBoundaryAndHalfInput` the call returns `TNNERR_UNSUPPORT_NET`
and the boundary between `P` and `Q` is left as it was. -/
theorem C1_counterexample :
    (Topological netCollideChain ∧ SingleProducer netCollideChain.layers ∧
      InteriorScales netCollideChain.layers [("x.scale", 3)] ∧
      (Optimize DeviceType.DEVICE_ARM (some netCollideChain)
        { resource_map := [("x.scale", 3)] }).1 = Status.TNN_OK ∧
      wiring netCollideChain.layers =
        [("P1", ["in"], ["x"]), ("P2", ["in"], ["x_int8_reformat"]), ("C", ["x"], ["y"])] ∧
      wiring (resultLayers (Optimize DeviceType.DEVICE_ARM (some netCollideChain)
        { resource_map := [("x.scale", 3)] })) =
        [("P1", ["in"], ["x"]), ("P1_int8_reformat", ["x"], ["x_int8_reformat"]),
         ("P2", ["in"], ["x_int8_reformat"]),
         ("P2_int8_reformat", ["x_int8_reformat"], ["x_int8_reformat_int8_reformat"]),
         ("C", ["x_int8_reformat_int8_reformat"], ["y"])]) ∧
    (Topological netOutputIsInput ∧ SingleProducer netOutputIsInput.layers ∧
      InteriorScales netOutputIsInput.layers [("x.scale", 3)] ∧
      (Optimize DeviceType.DEVICE_ARM (some netOutputIsInput)
        { resource_map := [("x.scale", 3)] }).1 = Status.TNN_OK ∧
      wiring (resultLayers (Optimize DeviceType.DEVICE_ARM (some netOutputIsInput)
        { resource_map := [("x.scale", 3)] })) =
        [("x_int8_reformat__from_model_input__", ["x"], ["x_int8_reformat"]),
         ("P", [], ["x"]), ("C", ["x_int8_reformat"], ["c"]), ("D", ["x"], ["d"])]) ∧
    (Topological netBoundaryAndHalfInput ∧ SingleProducer netBoundaryAndHalfInput.layers ∧
      InteriorScales netBoundaryAndHalfInput.layers [("x.scale", 3)] ∧
      (Optimize DeviceType.DEVICE_ARM (some netBoundaryAndHalfInput)
        { resource_map := [("x.scale", 3)] }).1 = Status.TNNERR_UNSUPPORT_NET ∧
      wiring (resultLayers (Optimize DeviceType.DEVICE_ARM (some netBoundaryAndHalfInput)
        { resource_map := [("x.scale", 3)] })) =
        [("P", ["data"], ["x"]), ("Q", ["x", "data"], ["q"])]) := by
  decide

/-! ## C2: graph-input boundaries -/

/-- C2 (as amended): let `Optimize` succeed on a graph whose declared inputs are
distinct, in which no declared input and no layer output ends in the reformat suffix
and no layer output shares its name with a declared input.  For every declared input
`I` the resulting sequence is the list `inputReformats` followed by a part `B` in
which only original layers read `I`; exactly one layer of `inputReformats` reads `I`
when `I` is read by both kinds of layers (its type is then float or int8, and the
layer is `inputReformat`, with the only input `I` and the only output `I` + suffix),
and none otherwise; and after the call every layer reads `renameInput` of `I` where
it read `I`: `I` + suffix when `I` is read by both kinds and the flag of the layer
differs from the virtual status of `I`, and `I` itself in every other case. -/
theorem C2_graph_input_boundary_repaired (dev : DeviceType) (net : NetStructure)
    (res : NetResource) (I : String)
    (hok : (Optimize dev (some net) res).1 = Status.TNN_OK)
    (hnodup : net.inputs_shape_map.Nodup) (hinf : InputsFresh net)
    (hno : OutputsNotInputs net) (hfresh : OutputsFresh net.layers)
    (hI : I ∈ net.inputs_shape_map) :
    ∃ B, resultLayers (Optimize dev (some net) res) = inputReformats dev net ++ B ∧
      (∀ l ∈ B, I ∈ l.inputs → l ∈ layersAfter dev net res) ∧
      (inputReformats dev net).filter (fun l => decide (I ∈ l.inputs)) =
        (if ReadByBoth net.layers I then [inputReformat dev net I] else []) ∧
      (ReadByBoth net.layers I → net.input_data_type_map I = DataType.DATA_TYPE_FLOAT ∨
        net.input_data_type_map I = DataType.DATA_TYPE_INT8) ∧
      LayersRel (fun _ a x b => x = I → b = renameInput net a I) net.layers
        (layersAfter dev net res) := by
  obtain ⟨A, blocks, hres, hfst, -, hins, hAeq⟩ := result_blocks dev net res hok
  have hfilter : (inputReformats dev net).filter (fun l => decide (I ∈ l.inputs)) =
      (if ReadByBoth net.layers I then [inputReformat dev net I] else []) := by
    have := filter_inputReformats dev net I net.inputs_shape_map hnodup
    by_cases hm : ReadByBoth net.layers I
    · rw [if_pos hm]; rw [if_pos ⟨hI, hm⟩] at this; exact this
    · rw [if_neg hm]; rw [if_neg (fun h => hm h.2)] at this; exact this
  have hsupp : ReadByBoth net.layers I →
      net.input_data_type_map I = DataType.DATA_TYPE_FLOAT ∨
        net.input_data_type_map I = DataType.DATA_TYPE_INT8 := by
    intro hm
    by_contra hne
    rw [not_or] at hne
    exact ((Optimize_fails_iff dev net res hinf).2 ⟨I, hI, hm, hne⟩) hok
  -- the layers after the call
  have hrelFinal : Shape net.layers (layersAfter dev net res) ∧
      LayersRel (fun _ a x b => x = I → b = renameInput net a I) net.layers
        (layersAfter dev net res) ∧
      (1 < net.layers.length → GetQuantizedInfoFromNetStructure net = true →
        (phaseA dev net.input_data_type_map net.layers.length net.inputs_shape_map
          (OptState.init net res)).2.layers_fused = inputReformats dev net) := by
    by_cases hfast : net.layers.length ≤ 1 ∨ GetQuantizedInfoFromNetStructure net = false
    · have hnone := (run_eq_none_iff dev net res).2 hfast
      have hnm : ¬ ReadByBoth net.layers I := by
        intro hm
        obtain ⟨h1, h2⟩ := readByBoth_length hm
        rcases hfast with h | h
        · omega
        · unfold GetQuantizedInfoFromNetStructure at h
          rw [h2] at h; cases h
      unfold layersAfter
      rw [hnone]
      refine ⟨shape_refl _, layersRel_refl (R := fun _ a x b => x = I → b = renameInput net a I)
        ?_ _, fun h1 h2 => ?_⟩
      · intro j a x hx
        subst hx
        unfold renameInput
        rw [if_neg (fun h => hnm h.1)]
      · rcases hfast with h | h
        · omega
        · rw [h2] at h; cases h
    · rw [not_or] at hfast
      have h1 : 1 < net.layers.length := by omega
      have h2 : GetQuantizedInfoFromNetStructure net = true := by simpa using hfast.2
      have hA := phaseA_ok_of_Optimize_ok h1 h2 hok
      have hrun := run_of_phaseA_ok dev res h1 h2 hA
      obtain ⟨hrelA, hfusedA⟩ := phaseA_exact dev net net.inputs_shape_map [] (OptState.init net res)
        (by simpa using hnodup) (by simpa using hinf)
        (layersRel_refl (fun _ _ _ => ⟨fun h => absurd h (List.not_mem_nil _), fun _ => rfl⟩)
          _) hA
      have hshapeA : Shape net.layers
          (phaseA dev net.input_data_type_map net.layers.length net.inputs_shape_map
            (OptState.init net res)).2.layers_orig :=
        layersRel_mono (fun _ _ _ _ _ => trivial) hrelA
      have hB := phaseB_layers dev net.layers.length net.layers
        (LayersRel (fun _ a x b => x = I → b = renameInput net a I) net.layers)
        net.layers.length _ (by
          intro L k a o _ ha _ ho _ hL
          refine layersRel_step hL ?_
          intro j' a' x b _ _ _ hr _ hb hx
          have hbv := hr hx
          subst hb
          exfalso
          rcases renameInput_cases net a' I with h | h
          · rw [h] at hbv
            exact hno a (mem_of_getElem?_some ha) b ho (hbv ▸ hI)
          · rw [h] at hbv
            exact hfresh a (mem_of_getElem?_some ha) b ho (hbv ▸ endsWithSuffix_append I))
        hshapeA (layersRel_mono (fun _ _ x b hr hx => by
          subst hx
          exact hr.1 (by simpa using hI)) hrelA)
      unfold layersAfter
      rw [hrun]
      refine ⟨hB.1, hB.2, fun _ _ => ?_⟩
      rw [hfusedA]
      rfl
  refine ⟨flattenBlocks blocks, ?_, ?_, hfilter, hsupp, hrelFinal.2.1⟩
  · by_cases hfast : net.layers.length ≤ 1 ∨ GetQuantizedInfoFromNetStructure net = false
    · have hnone := (run_eq_none_iff dev net res).2 hfast
      have hempty : inputReformats dev net = [] := by
        unfold inputReformats
        rw [List.map_eq_nil_iff, List.filter_eq_nil_iff]
        intro K _ hK
        obtain ⟨h1, h2⟩ := readByBoth_length (of_decide_eq_true hK)
        rcases hfast with h | h
        · omega
        · unfold GetQuantizedInfoFromNetStructure at h
          rw [h2] at h; cases h
      have hAnil : A = [] := by
        have : (resultLayers (Optimize dev (some net) res)).length = net.layers.length := by
          rw [Optimize_of_run_none hnone]; rfl
        have hl : (flattenBlocks blocks).length ≥ blocks.length := by
          unfold flattenBlocks
          clear hres hfst hins
          induction blocks with
          | nil => simp
          | cons b bs ih => simp only [List.flatMap_cons, List.length_append,
              List.length_cons]; omega
        have hbl : blocks.length = net.layers.length := by
          have := congrArg List.length hfst
          unfold layersAfter at this
          rw [hnone] at this
          simpa using this
        rw [hres, List.length_append] at this
        exact List.eq_nil_of_length_eq_zero (by omega)
      rw [hres, hAnil, hempty]
    · rw [not_or] at hfast
      rw [hres, hAeq (by omega) (by simpa using hfast.2),
        hrelFinal.2.2 (by omega) (by simpa using hfast.2)]
  · intro l hl hIl
    unfold flattenBlocks at hl
    obtain ⟨b, hb, hlb⟩ := List.mem_flatMap.1 hl
    have hb1 : b.1 ∈ layersAfter dev net res := by
      rw [← hfst]; exact List.mem_map_of_mem _ hb
    rcases List.mem_cons.1 hlb with rfl | hl2
    · exact hb1
    · exfalso
      rcases hins b hb with he | ⟨-, outs, n, hsub, -, -, he⟩
      · rw [he] at hl2; cases hl2
      · rw [he, List.mem_singleton] at hl2
        subst hl2
        have hIo : I ∈ b.1.outputs := hsub.subset hIl
        obtain ⟨k, hk, hbk⟩ := List.getElem_of_mem hb1
        obtain ⟨a, ha, hsf⟩ := shape_get hrelFinal.1 (hbk ▸ List.getElem?_eq_getElem hk)
        exact hno a (mem_of_getElem?_some ha) I (hsf.2.2.2.1 ▸ hIo) hI

theorem C2_graph_input_boundary_repaired_witness :
    (Optimize DeviceType.DEVICE_ARM (some netScenario1) { resource_map := [("data.scale", 7)] }).1
        = Status.TNN_OK ∧
      netScenario1.inputs_shape_map.Nodup ∧ InputsFresh netScenario1 ∧
      OutputsNotInputs netScenario1 ∧ OutputsFresh netScenario1.layers ∧
      "data" ∈ netScenario1.inputs_shape_map ∧
      ∃ B, resultLayers (Optimize DeviceType.DEVICE_ARM (some netScenario1)
            { resource_map := [("data.scale", 7)] }) =
          inputReformats DeviceType.DEVICE_ARM netScenario1 ++ B ∧
        (∀ l ∈ B, "data" ∈ l.inputs →
          l ∈ layersAfter DeviceType.DEVICE_ARM netScenario1
            { resource_map := [("data.scale", 7)] }) ∧
        (inputReformats DeviceType.DEVICE_ARM netScenario1).filter
            (fun l => decide ("data" ∈ l.inputs)) =
          (if ReadByBoth netScenario1.layers "data" then
            [inputReformat DeviceType.DEVICE_ARM netScenario1 "data"] else []) ∧
        (ReadByBoth netScenario1.layers "data" →
          netScenario1.input_data_type_map "data" = DataType.DATA_TYPE_FLOAT ∨
          netScenario1.input_data_type_map "data" = DataType.DATA_TYPE_INT8) ∧
        LayersRel (fun _ a x b => x = "data" → b = renameInput netScenario1 a "data")
          netScenario1.layers
          (layersAfter DeviceType.DEVICE_ARM netScenario1
            { resource_map := [("data.scale", 7)] }) :=
  ⟨by decide, by decide, by decide, by decide, by decide, by decide,
    C2_graph_input_boundary_repaired DeviceType.DEVICE_ARM netScenario1
      { resource_map := [("data.scale", 7)] } "data" (by decide) (by decide) (by decide)
      (by decide) (by decide) (by decide)⟩

/-- C2 as stated fails in four ways.  (1) `netTwoInputsOneHalf`: the call fails on the
input `other` after `data` has been handled, so the resulting sequence holds no
`Reformat` layer for `data` (and `B` reads a tensor nobody outputs).  (2)
`netInputSuffix`: the input `a_int8_reformat`, read by float layers only, gets a
`Reformat` layer, and `Q` ends up reading `a_int8_reformat_int8_reformat`.  (3)
`netInputIsOutput`: the float layer `D`, whose flag equals the virtual status of `x`,
no longer reads `x`, and two `Reformat` layers read `x`.  (4) `netOutputSuffix`: `B1`
does not read `d_int8_reformat`, the output made for `d`. -/
theorem C2_counterexample :
    (ReadByBoth netTwoInputsOneHalf.layers "data" ∧
      netTwoInputsOneHalf.input_data_type_map "data" = DataType.DATA_TYPE_FLOAT ∧
      (Optimize DeviceType.DEVICE_ARM (some netTwoInputsOneHalf)
        { resource_map := [("data.scale", 1)] }).1 = Status.TNNERR_UNSUPPORT_NET ∧
      wiring (resultLayers (Optimize DeviceType.DEVICE_ARM (some netTwoInputsOneHalf)
        { resource_map := [("data.scale", 1)] })) =
        [("A", ["data", "other"], ["a"]), ("B", ["data_int8_reformat", "other"], ["b"])]) ∧
    (¬ ReadByBoth netInputSuffix.layers "a_int8_reformat" ∧
      (Optimize DeviceType.DEVICE_ARM (some netInputSuffix)
        { resource_map := [("a.scale", 1)] }).1 = Status.TNN_OK ∧
      wiring (resultLayers (Optimize DeviceType.DEVICE_ARM (some netInputSuffix)
        { resource_map := [("a.scale", 1)] })) =
        [("a_int8_reformat__from_model_input__", ["a"], ["a_int8_reformat"]),
         ("a_int8_reformat_int8_reformat__from_model_input__", ["a_int8_reformat"],
           ["a_int8_reformat_int8_reformat"]),
         ("Q", ["a_int8_reformat_int8_reformat"], ["q"]), ("F", ["a"], ["f"]),
         ("F1", ["a_int8_reformat"], ["g"])]) ∧
    (ReadByBoth netInputIsOutput.layers "x" ∧
      (Optimize DeviceType.DEVICE_ARM (some netInputIsOutput)
        { resource_map := [("x.scale", 1)] }).1 = Status.TNN_OK ∧
      wiring (resultLayers (Optimize DeviceType.DEVICE_ARM (some netInputIsOutput)
        { resource_map := [("x.scale", 1)] })) =
        [("x_int8_reformat__from_model_input__", ["x"], ["x_int8_reformat"]),
         ("P", [], ["x"]), ("P_int8_reformat", ["x"], ["x_int8_reformat"]),
         ("C", ["x_int8_reformat"], ["c"]), ("D", ["x_int8_reformat"], ["d"])]) ∧
    (ReadByBoth netOutputSuffix.layers "d" ∧
      (Optimize DeviceType.DEVICE_ARM (some netOutputSuffix)
        { resource_map := [("d.scale", 1)] }).1 = Status.TNN_OK ∧
      wiring (resultLayers (Optimize DeviceType.DEVICE_ARM (some netOutputSuffix)
        { resource_map := [("d.scale", 1)] })) =
        [("d_int8_reformat__from_model_input__", ["d"], ["d_int8_reformat"]),
         ("P0", ["d"], ["d_int8_reformat"]),
         ("P0_int8_reformat", ["d_int8_reformat"], ["d_int8_reformat_int8_reformat"]),
         ("B1", ["d_int8_reformat_int8_reformat"], ["b"])]) := by
  decide

/-! ## C3: missing scale entries -/

/-- C3 (code at the failing input): `P` is float with marked outputs `a` and `b`, the
store holds the scale of `b` but not of `a`.  `Optimize` succeeds, but the `return`
taken for `a` leaves `b` unprocessed: `Q` still reads `b`, the `Reformat` layer has
two inputs and one output, and `b` gets no alias although its scale entry exists.
With the entry of `a` present both edges are rewired and both aliases added. -/
theorem C3_missing_scale_stops_later_outputs :
    (Optimize DeviceType.DEVICE_ARM (some netTwoOutputs) { resource_map := [("b.scale", 3)] }).1
        = Status.TNN_OK ∧
      wiring (resultLayers (Optimize DeviceType.DEVICE_ARM (some netTwoOutputs)
          { resource_map := [("b.scale", 3)] })) =
        [("P", ["in"], ["a", "b"]),
         ("P_int8_reformat", ["a", "b"], ["a_int8_reformat"]),
         ("Q", ["a_int8_reformat", "b"], ["q"])] ∧
      (Optimize DeviceType.DEVICE_ARM (some netTwoOutputs)
          { resource_map := [("b.scale", 3)] }).2.2.resource_map = [("b.scale", 3)] ∧
      wiring (resultLayers (Optimize DeviceType.DEVICE_ARM (some netTwoOutputs)
          { resource_map := [("a.scale", 1), ("b.scale", 3)] })) =
        [("P", ["in"], ["a", "b"]),
         ("P_int8_reformat", ["a", "b"], ["a_int8_reformat", "b_int8_reformat"]),
         ("Q", ["a_int8_reformat", "b_int8_reformat"], ["q"])] ∧
      (Optimize DeviceType.DEVICE_ARM (some netTwoOutputs)
          { resource_map := [("a.scale", 1), ("b.scale", 3)] }).2.2.resource_map =
        [("a.scale", 1), ("b.scale", 3), ("a_int8_reformat.scale", 1),
         ("b_int8_reformat.scale", 3)] := by
  decide

/-! ## C4: no silent boundary -/

/-- C4 (as amended): let `Optimize` succeed on a graph without `Reformat` layers, in
topological order, with a single producer per tensor (no two layers output the same
name and no layer outputs a declared graph input), with all required scale entries,
and in which no declared input name and no layer output name ends in the reformat
suffix.  Then every layer `C` of the result that is not a `Reformat` receives each
tensor `X` it reads in its own representation.  First, `X` is output by a layer that
is not a `Reformat` and has the flag of `C`, or by a `Reformat` layer whose `dst_type`
is int8 exactly when `C` is quantized, or `X` is a declared graph input whose type is
int8 exactly when `C` is quantized or which, before the call, was read only by layers
with the flag of `C`.  Second, no layer of another kind outputs `X`: every layer of
the result that outputs `X` is not a `Reformat` and has the flag of `C`, or is a
`Reformat` layer whose `dst_type` is int8 exactly when `C` is quantized. -/
theorem C4_no_silent_boundary (dev : DeviceType) (net : NetStructure) (res : NetResource)
    (hok : (Optimize dev (some net) res).1 = Status.TNN_OK)
    (hnoref : NoReformat net.layers) (htopo : Topological net)
    (hsingle : SingleProducer net.layers) (hno : OutputsNotInputs net)
    (hscale : InteriorScales net.layers res.resource_map)
    (_hinscale : InputScales net res.resource_map)
    (hinf : InputsFresh net) (hfresh : OutputsFresh net.layers) :
    ∀ C ∈ resultLayers (Optimize dev (some net) res), C.type ≠ LayerType.LAYER_REFORMAT →
      ∀ X ∈ C.inputs,
        (ProducedInKind (resultLayers (Optimize dev (some net) res)) C X ∨
          (X ∈ net.inputs_shape_map ∧
            ((net.input_data_type_map X = DataType.DATA_TYPE_INT8 ↔ C.param.quantized = true) ∨
              ∀ l ∈ net.layers, X ∈ l.inputs → l.param.quantized = C.param.quantized))) ∧
        ∀ l ∈ resultLayers (Optimize dev (some net) res), X ∈ l.outputs → OfKind l C X :=
  fun C hC hCt X hX =>
    ⟨produced_in_kind dev net res hok hnoref htopo hscale hinf hfresh C hC hCt X hX,
      producers_in_kind dev net res hok hnoref htopo hsingle hno hscale hinf hfresh C hC hCt
        X hX⟩

theorem C4_no_silent_boundary_witness :
    (Optimize DeviceType.DEVICE_ARM (some netScenario2) { resource_map := [("x.scale", 7)] }).1
        = Status.TNN_OK ∧
      NoReformat netScenario2.layers ∧ Topological netScenario2 ∧
      SingleProducer netScenario2.layers ∧ OutputsNotInputs netScenario2 ∧
      InteriorScales netScenario2.layers [("x.scale", 7)] ∧
      InputScales netScenario2 [("x.scale", 7)] ∧ InputsFresh netScenario2 ∧
      OutputsFresh netScenario2.layers ∧
      plainLayer "Q" true ["x_int8_reformat"] ["q"] ∈
        resultLayers (Optimize DeviceType.DEVICE_ARM (some netScenario2)
          { resource_map := [("x.scale", 7)] }) ∧
      (ProducedInKind
          (resultLayers (Optimize DeviceType.DEVICE_ARM (some netScenario2)
            { resource_map := [("x.scale", 7)] }))
          (plainLayer "Q" true ["x_int8_reformat"] ["q"]) "x_int8_reformat" ∨
        ("x_int8_reformat" ∈ netScenario2.inputs_shape_map ∧
          ((netScenario2.input_data_type_map "x_int8_reformat" = DataType.DATA_TYPE_INT8 ↔
              (plainLayer "Q" true ["x_int8_reformat"] ["q"]).param.quantized = true) ∨
            ∀ l ∈ netScenario2.layers, "x_int8_reformat" ∈ l.inputs →
              l.param.quantized =
                (plainLayer "Q" true ["x_int8_reformat"] ["q"]).param.quantized))) ∧
      ∀ l ∈ resultLayers (Optimize DeviceType.DEVICE_ARM (some netScenario2)
          { resource_map := [("x.scale", 7)] }), "x_int8_reformat" ∈ l.outputs →
        OfKind l (plainLayer "Q" true ["x_int8_reformat"] ["q"]) "x_int8_reformat" :=
  ⟨by decide, by decide, by decide, by decide, by decide, by decide, by decide, by decide,
    by decide, by decide,
    C4_no_silent_boundary DeviceType.DEVICE_ARM netScenario2
      { resource_map := [("x.scale", 7)] } (by decide) (by decide) (by decide) (by decide)
      (by decide) (by decide) (by decide) (by decide) (by decide)
      (plainLayer "Q" true ["x_int8_reformat"] ["q"]) (by decide)
      (by decide) "x_int8_reformat" (by decide)⟩

/-- C4 as stated fails in four ways; in each graph the call succeeds, no scale entry
is missing and every inserted `Reformat` layer has as many outputs as inputs (no
iteration returned early).  The first graph meets every hypothesis of the amended
claim; the second lacks only fresh output names, the third only fresh input names,
the fourth only that no layer outputs a declared graph input.  (1) In `netFloatInputToInt8` the float graph input `data` is read by the
int8 layer `Q` only, so no `Reformat` is made for it and `Q` still reads the float
input.  (2) In `netCollideReader` the float layer `D` reads `x_int8_reformat`, which
after the call is also the output of the `Reformat` layer made for `P1`, whose
`dst_type` is int8.  (3) In `netInputSuffixInt8` the int8 layer `G` reads the graph
input `a_int8_reformat`, which after the call is also the output of the `Reformat`
layer made for the input `a`, whose `dst_type` is float.  (4) In `netInputIsOutput`
the output `x` of `P` is also a graph input: the float layer `D` and the int8 layer
`C` both read `x_int8_reformat`, output by two `Reformat` layers of opposite
`dst_type`. -/
theorem C4_counterexample :
    ((Optimize DeviceType.DEVICE_ARM (some netFloatInputToInt8) { resource_map := [] }).1
        = Status.TNN_OK ∧
      NoReformat netFloatInputToInt8.layers ∧ Topological netFloatInputToInt8 ∧
      SingleProducer netFloatInputToInt8.layers ∧ OutputsNotInputs netFloatInputToInt8 ∧
      InteriorScales netFloatInputToInt8.layers [] ∧ InputScales netFloatInputToInt8 [] ∧
      InputsFresh netFloatInputToInt8 ∧ OutputsFresh netFloatInputToInt8.layers ∧
      plainLayer "Q" true ["data"] ["q"] ∈
        resultLayers (Optimize DeviceType.DEVICE_ARM (some netFloatInputToInt8)
          { resource_map := [] }) ∧
      ¬ (ProducedInKind
          (resultLayers (Optimize DeviceType.DEVICE_ARM (some netFloatInputToInt8)
            { resource_map := [] }))
          (plainLayer "Q" true ["data"] ["q"]) "data" ∨
        ("data" ∈ netFloatInputToInt8.inputs_shape_map ∧
          (netFloatInputToInt8.input_data_type_map "data" = DataType.DATA_TYPE_INT8 ↔
            (plainLayer "Q" true ["data"] ["q"]).param.quantized = true)))) ∧
    ((Optimize DeviceType.DEVICE_ARM (some netCollideReader)
          { resource_map := [("x.scale", 7)] }).1 = Status.TNN_OK ∧
      NoReformat netCollideReader.layers ∧ Topological netCollideReader ∧
      SingleProducer netCollideReader.layers ∧ OutputsNotInputs netCollideReader ∧
      InteriorScales netCollideReader.layers [("x.scale", 7)] ∧
      InputScales netCollideReader [("x.scale", 7)] ∧ InputsFresh netCollideReader ∧
      (∀ l ∈ resultLayers (Optimize DeviceType.DEVICE_ARM (some netCollideReader)
          { resource_map := [("x.scale", 7)] }),
        l.type = LayerType.LAYER_REFORMAT → l.outputs.length = l.inputs.length) ∧
      plainLayer "D" false ["x_int8_reformat"] ["d"] ∈
        resultLayers (Optimize DeviceType.DEVICE_ARM (some netCollideReader)
          { resource_map := [("x.scale", 7)] }) ∧
      ∃ l ∈ resultLayers (Optimize DeviceType.DEVICE_ARM (some netCollideReader)
          { resource_map := [("x.scale", 7)] }),
        "x_int8_reformat" ∈ l.outputs ∧
          ¬ OfKind l (plainLayer "D" false ["x_int8_reformat"] ["d"]) "x_int8_reformat") ∧
    ((Optimize DeviceType.DEVICE_ARM (some netInputSuffixInt8) { resource_map := [] }).1
        = Status.TNN_OK ∧
      NoReformat netInputSuffixInt8.layers ∧ Topological netInputSuffixInt8 ∧
      SingleProducer netInputSuffixInt8.layers ∧ OutputsNotInputs netInputSuffixInt8 ∧
      InteriorScales netInputSuffixInt8.layers [] ∧ InputScales netInputSuffixInt8 [] ∧
      OutputsFresh netInputSuffixInt8.layers ∧
      (∀ l ∈ resultLayers (Optimize DeviceType.DEVICE_ARM (some netInputSuffixInt8)
          { resource_map := [] }),
        l.type = LayerType.LAYER_REFORMAT → l.outputs.length = l.inputs.length) ∧
      plainLayer "G" true ["a_int8_reformat"] ["g"] ∈
        resultLayers (Optimize DeviceType.DEVICE_ARM (some netInputSuffixInt8)
          { resource_map := [] }) ∧
      ∃ l ∈ resultLayers (Optimize DeviceType.DEVICE_ARM (some netInputSuffixInt8)
          { resource_map := [] }),
        "a_int8_reformat" ∈ l.outputs ∧
          ¬ OfKind l (plainLayer "G" true ["a_int8_reformat"] ["g"]) "a_int8_reformat") ∧
    ((Optimize DeviceType.DEVICE_ARM (some netInputIsOutput)
          { resource_map := [("x.scale", 7)] }).1 = Status.TNN_OK ∧
      NoReformat netInputIsOutput.layers ∧ Topological netInputIsOutput ∧
      SingleProducer netInputIsOutput.layers ∧
      InteriorScales netInputIsOutput.layers [("x.scale", 7)] ∧
      InputScales netInputIsOutput [("x.scale", 7)] ∧ InputsFresh netInputIsOutput ∧
      OutputsFresh netInputIsOutput.layers ∧
      (∀ l ∈ resultLayers (Optimize DeviceType.DEVICE_ARM (some netInputIsOutput)
          { resource_map := [("x.scale", 7)] }),
        l.type = LayerType.LAYER_REFORMAT → l.outputs.length = l.inputs.length) ∧
      plainLayer "D" false ["x_int8_reformat"] ["d"] ∈
        resultLayers (Optimize DeviceType.DEVICE_ARM (some netInputIsOutput)
          { resource_map := [("x.scale", 7)] }) ∧
      ∃ l ∈ resultLayers (Optimize DeviceType.DEVICE_ARM (some netInputIsOutput)
          { resource_map := [("x.scale", 7)] }),
        "x_int8_reformat" ∈ l.outputs ∧
          ¬ OfKind l (plainLayer "D" false ["x_int8_reformat"] ["d"]) "x_int8_reformat") :=
  ⟨by decide, by decide, by decide, by decide⟩

/-! ## C5: edges whose ends agree -/

/-- C5 (as amended): in a graph where each tensor has a single producer and no
layer output shares its name with a graph input, let `T` be an output of layer `P`
and `C` a later layer with the same quantized flag as `P`.  After `Optimize`, `C` is
unchanged up to its inputs and its inputs contain `T` at every position where they
contained `T` before; when `T` does not end in the reformat suffix, they contain `T`
at no other position. -/
theorem C5_same_flag_edges_kept (dev : DeviceType) (net : NetStructure) (res : NetResource)
    (i j : Nat) (P C : LayerInfo) (T : String)
    (hsp : SingleProducer net.layers) (hno : OutputsNotInputs net)
    (hP : net.layers[i]? = some P) (hC : net.layers[j]? = some C) (hij : i < j)
    (hT : T ∈ P.outputs) (hq : C.param.quantized = P.param.quantized) :
    ∃ C', (layersAfter dev net res)[j]? = some C' ∧ SameFields C C' ∧
      C'.inputs.length = C.inputs.length ∧
      (∀ p : Nat, C.inputs[p]? = some T → C'.inputs[p]? = some T) ∧
      (¬ EndsWithSuffix T → ∀ p : Nat, C'.inputs[p]? = some T → C.inputs[p]? = some T) := by
  have hrel := layersAfter_rel dev net res
    (fun j' a x b => ((j' = j → x = T → b = T) ∧ (¬ EndsWithSuffix b → b = x)))
    (fun _ _ _ => ⟨fun _ h => h, fun _ => rfl⟩)
    (by
      intro j' a x o q ho _ _ _ hr
      refine ⟨fun hj hx => ?_, fun hne => absurd (endsWithSuffix_append o) hne⟩
      have : o = T := hr.1 hj hx
      subst this
      exact absurd ho (hno P (mem_of_getElem?_some hP) _ hT))
    (by
      intro j' k a P' x o hP' _ ho _ ha hne hr
      refine ⟨fun hj hx => ?_, fun hne => absurd (endsWithSuffix_append o) hne⟩
      have : o = T := hr.1 hj hx
      subst this
      subst hj
      have hki : k = i := singleProducer_unique hsp hP' hP ho hT
      subst hki
      rw [hP] at hP'
      rw [hC] at ha
      cases hP'; cases ha
      exact absurd hq hne)
  obtain ⟨C', hC', hsf, hin⟩ := layersRel_get hrel hC
  refine ⟨C', hC', hsf, hin.length_eq.symm, fun p h => ?_, fun hsuf p h => ?_⟩
  · obtain ⟨y, hy, hr⟩ := forall₂_getElem?_left hin p T h
    rw [hy, hr.1 rfl rfl]
  · obtain ⟨x, hx, hr⟩ := forall₂_getElem?_right hin p T h
    rw [hx, hr.2 hsuf]

theorem C5_same_flag_edges_kept_witness :
    SingleProducer netScenario2.layers ∧ OutputsNotInputs netScenario2 ∧
      netScenario2.layers[0]? = some (plainLayer "P" false ["in"] ["x"]) ∧
      netScenario2.layers[2]? = some (plainLayer "R" false ["x"] ["r"]) ∧
      ¬ EndsWithSuffix "x" ∧
      ∃ C', (layersAfter DeviceType.DEVICE_ARM netScenario2 { resource_map := [("x.scale", 7)] })[2]?
          = some C' ∧ SameFields (plainLayer "R" false ["x"] ["r"]) C' ∧
        C'.inputs.length = (plainLayer "R" false ["x"] ["r"]).inputs.length ∧
        (∀ p : Nat, (plainLayer "R" false ["x"] ["r"]).inputs[p]? = some "x" →
          C'.inputs[p]? = some "x") ∧
        ∀ p : Nat, C'.inputs[p]? = some "x" →
          (plainLayer "R" false ["x"] ["r"]).inputs[p]? = some "x" :=
  ⟨by decide, by decide, by decide, by decide, by decide,
    (C5_same_flag_edges_kept DeviceType.DEVICE_ARM netScenario2
      { resource_map := [("x.scale", 7)] } 0 2 (plainLayer "P" false ["in"] ["x"])
      (plainLayer "R" false ["x"] ["r"]) "x" (by decide) (by decide) (by decide)
      (by decide) (by decide) (by decide) (by decide)).elim fun C' h =>
        ⟨C', h.1, h.2.1, h.2.2.1, h.2.2.2.1, h.2.2.2.2 (by decide)⟩⟩

/-- C5 as stated fails: in `netCollideSame` the float layer `C` reads `x`, an output of the
int8 layer `P0`; the float layer `P` outputs `T = x_int8_reformat`.  After the call `C`
holds `T` at position 0, where it did not hold `T` before. -/
theorem C5_counterexample :
    SingleProducer netCollideSame.layers ∧ OutputsNotInputs netCollideSame ∧
      netCollideSame.layers[1]? = some (plainLayer "P" false ["in"] ["x_int8_reformat"]) ∧
      netCollideSame.layers[2]? = some (plainLayer "C" false ["x"] ["y"]) ∧
      "x_int8_reformat" ∈ (plainLayer "P" false ["in"] ["x_int8_reformat"]).outputs ∧
      (plainLayer "C" false ["x"] ["y"]).param.quantized =
        (plainLayer "P" false ["in"] ["x_int8_reformat"]).param.quantized ∧
      (plainLayer "C" false ["x"] ["y"]).inputs[0]? ≠ some "x_int8_reformat" ∧
      ((layersAfter DeviceType.DEVICE_ARM netCollideSame { resource_map := [] })[2]?).map
        (fun l => l.inputs[0]?) = some (some "x_int8_reformat") := by
  decide

/-! ## C6: failure status -/

/-- C6 (as amended): `Optimize` fails on a null graph, and it fails on every graph
in which some declared graph input is read by both a quantized and a non-quantized
layer and has a declared element type that is neither float nor int8.  On a graph
none of whose declared input names ends in the reformat suffix it fails only in
that case.  The scale store plays no part. -/
theorem C6_failure_iff (dev : DeviceType) (net : NetStructure) (res : NetResource) :
    (Optimize dev none res).1 ≠ Status.TNN_OK ∧
      ((∃ I ∈ net.inputs_shape_map, ReadByBoth net.layers I ∧
          net.input_data_type_map I ≠ DataType.DATA_TYPE_FLOAT ∧
          net.input_data_type_map I ≠ DataType.DATA_TYPE_INT8) →
        (Optimize dev (some net) res).1 ≠ Status.TNN_OK) ∧
      ((∀ I ∈ net.inputs_shape_map, ¬ EndsWithSuffix I) →
        (Optimize dev (some net) res).1 ≠ Status.TNN_OK →
        ∃ I ∈ net.inputs_shape_map, ReadByBoth net.layers I ∧
          net.input_data_type_map I ≠ DataType.DATA_TYPE_FLOAT ∧
          net.input_data_type_map I ≠ DataType.DATA_TYPE_INT8) :=
  ⟨by simp [Optimize], Optimize_fails_of_mixed dev net res,
    fun hfresh => (Optimize_fails_iff dev net res hfresh).1⟩

theorem C6_failure_iff_witness :
    (∀ I ∈ netHalfInput.inputs_shape_map, ¬ EndsWithSuffix I) ∧
      (Optimize DeviceType.DEVICE_ARM none { resource_map := [] }).1 ≠ Status.TNN_OK ∧
      (Optimize DeviceType.DEVICE_ARM (some netHalfInput) { resource_map := [] }).1 ≠
        Status.TNN_OK ∧
      ∃ I ∈ netHalfInput.inputs_shape_map, ReadByBoth netHalfInput.layers I ∧
        netHalfInput.input_data_type_map I ≠ DataType.DATA_TYPE_FLOAT ∧
        netHalfInput.input_data_type_map I ≠ DataType.DATA_TYPE_INT8 :=
  ⟨by decide,
    (C6_failure_iff DeviceType.DEVICE_ARM netHalfInput { resource_map := [] }).1,
    (C6_failure_iff DeviceType.DEVICE_ARM netHalfInput { resource_map := [] }).2.1 (by decide),
    (C6_failure_iff DeviceType.DEVICE_ARM netHalfInput { resource_map := [] }).2.2 (by decide)
      (by decide)⟩

/-- C6 as stated fails: in `netInputCollide` no declared graph input is both read by
the two kinds of layers and of an unsupported type, yet `Optimize` returns
`TNNERR_UNSUPPORT_NET`: rewiring `a` makes the int8 layer read `a_int8_reformat`,
the name of a declared input of type half. -/
theorem C6_counterexample :
    (¬ ∃ I ∈ netInputCollide.inputs_shape_map, ReadByBoth netInputCollide.layers I ∧
        netInputCollide.input_data_type_map I ≠ DataType.DATA_TYPE_FLOAT ∧
        netInputCollide.input_data_type_map I ≠ DataType.DATA_TYPE_INT8) ∧
      (Optimize DeviceType.DEVICE_ARM (some netInputCollide)
        { resource_map := [("a.scale", 1)] }).1 = Status.TNNERR_UNSUPPORT_NET := by
  decide

/-! ## C7: scale propagation -/

/-- C7 (as amended): on every call no entry present before the run is changed or
removed.  On a graph in which no declared input name and no layer output name ends
in the reformat suffix, every key added by the run is the alias key
`T + suffix + ".scale"` of a float tensor `T` at a float-to-int8 boundary (so none is
added for an int8-to-float boundary); and when moreover `Optimize` succeeds and every
such tensor has its scale entry, then for every such tensor `T` whose alias key was
absent before the run the store after the run holds under that key the scale object
of the entry of `T`. -/
theorem C7_scale_propagation (dev : DeviceType) (net : NetStructure) (res : NetResource) :
    (∀ key v, mapFind res.resource_map key = some v →
        mapFind (scalesAfter (Optimize dev (some net) res)) key = some v) ∧
      (InputsFresh net → OutputsFresh net.layers →
        (∀ key, mapFind res.resource_map key = none →
          mapFind (scalesAfter (Optimize dev (some net) res)) key ≠ none →
          ∃ T, FloatBoundary net T ∧
            key = T ++ REFORMAT_NAME_SUFFIX ++ BLOB_SCALE_SUFFIX) ∧
        ((Optimize dev (some net) res).1 = Status.TNN_OK →
          InteriorScales net.layers res.resource_map → InputScales net res.resource_map →
          ∀ T, FloatBoundary net T →
            mapFind res.resource_map (T ++ REFORMAT_NAME_SUFFIX ++ BLOB_SCALE_SUFFIX) = none →
            mapFind (scalesAfter (Optimize dev (some net) res))
                (T ++ REFORMAT_NAME_SUFFIX ++ BLOB_SCALE_SUFFIX) =
              mapFind res.resource_map (T ++ BLOB_SCALE_SUFFIX))) :=
  ⟨Optimize_mapExtends dev net res, fun hinf hfresh =>
    ⟨Optimize_newKeys dev net res hinf hfresh, fun hok hscale hinscale =>
      (scale_propagation_spec dev net res hok hscale hinscale hinf hfresh).2.1⟩⟩

theorem C7_scale_propagation_witness :
    (Optimize DeviceType.DEVICE_ARM (some netTwoBoundaries)
        { resource_map := [("data.scale", 3), ("a.scale", 7)] }).1 = Status.TNN_OK ∧
      InteriorScales netTwoBoundaries.layers [("data.scale", 3), ("a.scale", 7)] ∧
      InputScales netTwoBoundaries [("data.scale", 3), ("a.scale", 7)] ∧
      InputsFresh netTwoBoundaries ∧ OutputsFresh netTwoBoundaries.layers ∧
      FloatBoundary netTwoBoundaries "data" ∧ FloatBoundary netTwoBoundaries "a" ∧
      scalesAfter (Optimize DeviceType.DEVICE_ARM (some netTwoBoundaries)
          { resource_map := [("data.scale", 3), ("a.scale", 7)] }) =
        [("data.scale", 3), ("a.scale", 7), ("data_int8_reformat.scale", 3),
          ("a_int8_reformat.scale", 7)] ∧
      (∀ key v, mapFind [("data.scale", 3), ("a.scale", 7)] key = some v →
        mapFind (scalesAfter (Optimize DeviceType.DEVICE_ARM (some netTwoBoundaries)
          { resource_map := [("data.scale", 3), ("a.scale", 7)] })) key = some v) ∧
      (∀ key, mapFind [("data.scale", 3), ("a.scale", 7)] key = none →
        mapFind (scalesAfter (Optimize DeviceType.DEVICE_ARM (some netTwoBoundaries)
          { resource_map := [("data.scale", 3), ("a.scale", 7)] })) key ≠ none →
        ∃ T, FloatBoundary netTwoBoundaries T ∧
          key = T ++ REFORMAT_NAME_SUFFIX ++ BLOB_SCALE_SUFFIX) ∧
      (∀ T, FloatBoundary netTwoBoundaries T →
        mapFind [("data.scale", 3), ("a.scale", 7)]
          (T ++ REFORMAT_NAME_SUFFIX ++ BLOB_SCALE_SUFFIX) = none →
        mapFind (scalesAfter (Optimize DeviceType.DEVICE_ARM (some netTwoBoundaries)
            { resource_map := [("data.scale", 3), ("a.scale", 7)] }))
            (T ++ REFORMAT_NAME_SUFFIX ++ BLOB_SCALE_SUFFIX) =
          mapFind [("data.scale", 3), ("a.scale", 7)] (T ++ BLOB_SCALE_SUFFIX)) :=
  ⟨by decide, by decide, by decide, by decide, by decide, by decide, by decide, by decide,
    (C7_scale_propagation DeviceType.DEVICE_ARM netTwoBoundaries
      { resource_map := [("data.scale", 3), ("a.scale", 7)] }).1,
    ((C7_scale_propagation DeviceType.DEVICE_ARM netTwoBoundaries
      { resource_map := [("data.scale", 3), ("a.scale", 7)] }).2 (by decide) (by decide)).1,
    ((C7_scale_propagation DeviceType.DEVICE_ARM netTwoBoundaries
      { resource_map := [("data.scale", 3), ("a.scale", 7)] }).2 (by decide) (by decide)).2
      (by decide) (by decide) (by decide)⟩

/-- C7 as stated fails.  (1) In `netScenario2` with an entry already stored under the
alias key, `insert` keeps that entry: the alias of the boundary tensor `x` holds 9,
not the scale 7 of `x`.  (2) In `netBoundaryAndHalfInput` the call fails in its first
loop and the boundary tensor `x` gets no alias entry.  (3) In `netCollideChain`,
whose names collide with the reformat suffix, the run adds an entry under the alias
key of `x_int8_reformat`, which is not at a float-to-int8 boundary of the graph. -/
theorem C7_counterexample :
    (InteriorScales netScenario2.layers [("x.scale", 7), ("x_int8_reformat.scale", 9)] ∧
      InputScales netScenario2 [("x.scale", 7), ("x_int8_reformat.scale", 9)] ∧
      FloatBoundary netScenario2 "x" ∧
      mapFind (scalesAfter (Optimize DeviceType.DEVICE_ARM (some netScenario2)
          { resource_map := [("x.scale", 7), ("x_int8_reformat.scale", 9)] }))
        ("x" ++ REFORMAT_NAME_SUFFIX ++ BLOB_SCALE_SUFFIX) = some 9 ∧
      mapFind (scalesAfter (Optimize DeviceType.DEVICE_ARM (some netScenario2)
          { resource_map := [("x.scale", 7), ("x_int8_reformat.scale", 9)] }))
        ("x" ++ BLOB_SCALE_SUFFIX) = some 7) ∧
    (InteriorScales netBoundaryAndHalfInput.layers [("x.scale", 7)] ∧
      InputScales netBoundaryAndHalfInput [("x.scale", 7)] ∧
      FloatBoundary netBoundaryAndHalfInput "x" ∧
      (Optimize DeviceType.DEVICE_ARM (some netBoundaryAndHalfInput)
        { resource_map := [("x.scale", 7)] }).1 = Status.TNNERR_UNSUPPORT_NET ∧
      mapFind (scalesAfter (Optimize DeviceType.DEVICE_ARM (some netBoundaryAndHalfInput)
          { resource_map := [("x.scale", 7)] }))
        ("x" ++ REFORMAT_NAME_SUFFIX ++ BLOB_SCALE_SUFFIX) = none) ∧
    (InteriorScales netCollideChain.layers [("x.scale", 7)] ∧
      InputScales netCollideChain [("x.scale", 7)] ∧
      (Optimize DeviceType.DEVICE_ARM (some netCollideChain)
        { resource_map := [("x.scale", 7)] }).1 = Status.TNN_OK ∧
      ¬ FloatBoundary netCollideChain "x_int8_reformat" ∧
      mapFind [("x.scale", 7)]
        ("x_int8_reformat" ++ REFORMAT_NAME_SUFFIX ++ BLOB_SCALE_SUFFIX) = none ∧
      mapFind (scalesAfter (Optimize DeviceType.DEVICE_ARM (some netCollideChain)
          { resource_map := [("x.scale", 7)] }))
        ("x_int8_reformat" ++ REFORMAT_NAME_SUFFIX ++ BLOB_SCALE_SUFFIX) = some 7) := by
  decide
/-! ## C8: no chained reformatting -/

/-- C8 (code at the failing input): no `Reformat` layer of `netReformatConsumer`
reads the output of a `Reformat` layer.  `Optimize` succeeds and rewires the
`Reformat` layer `R0` together with `F`, so that afterwards `R0` reads
`x_int8_reformat`, the output of the inserted `Reformat` layer. -/
theorem C8_existing_reformat_rewired :
    ¬ ChainedReformat netReformatConsumer.layers ∧
      (Optimize DeviceType.DEVICE_ARM (some netReformatConsumer) { resource_map := [] }).1
        = Status.TNN_OK ∧
      wiring (resultLayers (Optimize DeviceType.DEVICE_ARM (some netReformatConsumer)
          { resource_map := [] })) =
        [("P", ["in"], ["x"]),
         ("P_int8_reformat", ["x"], ["x_int8_reformat"]),
         ("R0", ["x_int8_reformat"], ["xf"]),
         ("F", ["x_int8_reformat"], ["y"])] ∧
      ChainedReformat (resultLayers (Optimize DeviceType.DEVICE_ARM (some netReformatConsumer)
          { resource_map := [] })) := by
  decide

/-! ## C9: created names -/

/-- C10 (fast exit): on a non-null graph with at most one layer, or without any
quantized layer, `Optimize` returns success and leaves the structure (layer
sequence, inputs and outputs of every layer, blobs) and the scale store as they
were. -/
theorem C10_fast_exit (dev : DeviceType) (net : NetStructure) (res : NetResource)
    (h : net.layers.length ≤ 1 ∨ ∀ l ∈ net.layers, l.param.quantized = false) :
    Optimize dev (some net) res = (Status.TNN_OK, some net, res) := by
  have hnone : Optimize.run dev net res = none := by
    rw [run_eq_none_iff]
    rcases h with h | h
    · exact Or.inl h
    · right
      unfold GetQuantizedInfoFromNetStructure
      rw [List.any_eq_false]
      intro l hl
      simp [h l hl]
  unfold Optimize
  simp only [hnone]

theorem C10_fast_exit_witness :
    (netOneLayer.layers.length ≤ 1 ∨ ∀ l ∈ netOneLayer.layers, l.param.quantized = false) ∧
      Optimize DeviceType.DEVICE_ARM (some netOneLayer) { resource_map := [] } =
        (Status.TNN_OK, some netOneLayer, { resource_map := [] }) :=
  ⟨Or.inl (by decide), C10_fast_exit _ _ _ (Or.inl (by decide))⟩


/-! ## C11: no boundary, no change -/

/-- C11: on a graph with two or more layers in which no later layer reads an output
of an earlier layer with a different quantized flag and no declared graph input is
read by both kinds of layers, `Optimize` returns success and leaves the structure
(layer sequence, inputs of every layer, blobs: no `Reformat` layer is added) and
the scale store as they were. -/
theorem C11_no_boundary_unchanged (dev : DeviceType) (net : NetStructure) (res : NetResource)
    (_h2 : 2 ≤ net.layers.length) (hint : NoInteriorBoundary net.layers)
    (hmix : NoMixedInput net) :
    Optimize dev (some net) res = (Status.TNN_OK, some net, res) :=
  Optimize_of_no_boundary dev net res hmix (noMarked_of_noInterior hint)

theorem C11_no_boundary_unchanged_witness :
    2 ≤ netScenario4.layers.length ∧ NoInteriorBoundary netScenario4.layers ∧
      NoMixedInput netScenario4 ∧
      GetQuantizedInfoFromNetStructure netScenario4 = true ∧
      Optimize DeviceType.DEVICE_ARM (some netScenario4) { resource_map := [] } =
        (Status.TNN_OK, some netScenario4, { resource_map := [] }) :=
  ⟨by decide, by decide, by decide, by decide,
    C11_no_boundary_unchanged _ _ _ (by decide) (by decide) (by decide)⟩

/-! ## C12: the pass only adds layers -/

/-- C12 (as amended): after a successful `Optimize` the resulting sequence consists
of the `Reformat` layers `A` made for graph inputs, followed by the original layers
in their order, each directly followed by the `Reformat` layer made for it, if any;
each original layer keeps its type, name, outputs and parameters (its quantized flag
among them), and each of its inputs is the name it was before, followed by zero or
more copies of the reformat suffix; when no declared input name and no layer output
name ends in the suffix, it is followed by at most one copy. -/
theorem C12_only_adds_layers (dev : DeviceType) (net : NetStructure) (res : NetResource)
    (hok : (Optimize dev (some net) res).1 = Status.TNN_OK) :
    ∃ (A : List LayerInfo) (blocks : List (LayerInfo × List LayerInfo)),
      resultLayers (Optimize dev (some net) res) = A ++ flattenBlocks blocks ∧
      blocks.map Prod.fst = layersAfter dev net res ∧
      (∀ R ∈ A, CreatedForInput dev net R) ∧
      (∀ b ∈ blocks, InsertedAfter dev b.1 b.2) ∧
      LayersRel (fun _ _ x y => ∃ n, y = addSuffix n x) net.layers (layersAfter dev net res) ∧
      (InputsFresh net → OutputsFresh net.layers →
        LayersRel (fun _ _ x y => y = x ∨ y = x ++ REFORMAT_NAME_SUFFIX) net.layers
          (layersAfter dev net res)) := by
  obtain ⟨A, blocks, h1, h2, h3, h4, -⟩ := result_blocks dev net res hok
  exact ⟨A, blocks, h1, h2, h3, h4, addSuffix_rel dev net res, oneSuffix_rel dev net res⟩

theorem C12_only_adds_layers_witness :
    (Optimize DeviceType.DEVICE_ARM (some netScenario2) { resource_map := [("x.scale", 7)] }).1
        = Status.TNN_OK ∧
      wiring (resultLayers (Optimize DeviceType.DEVICE_ARM (some netScenario2)
        { resource_map := [("x.scale", 7)] })) =
        [("P", ["in"], ["x"]), ("P_int8_reformat", ["x"], ["x_int8_reformat"]),
         ("Q", ["x_int8_reformat"], ["q"]), ("R", ["x"], ["r"])] ∧
      ∃ (A : List LayerInfo) (blocks : List (LayerInfo × List LayerInfo)),
        resultLayers (Optimize DeviceType.DEVICE_ARM (some netScenario2)
          { resource_map := [("x.scale", 7)] }) = A ++ flattenBlocks blocks ∧
        blocks.map Prod.fst = layersAfter DeviceType.DEVICE_ARM netScenario2
          { resource_map := [("x.scale", 7)] } ∧
        (∀ R ∈ A, CreatedForInput DeviceType.DEVICE_ARM netScenario2 R) ∧
        (∀ b ∈ blocks, InsertedAfter DeviceType.DEVICE_ARM b.1 b.2) ∧
        LayersRel (fun _ _ x y => ∃ n, y = addSuffix n x) netScenario2.layers
          (layersAfter DeviceType.DEVICE_ARM netScenario2 { resource_map := [("x.scale", 7)] }) ∧
        (InputsFresh netScenario2 → OutputsFresh netScenario2.layers →
          LayersRel (fun _ _ x y => y = x ∨ y = x ++ REFORMAT_NAME_SUFFIX) netScenario2.layers
            (layersAfter DeviceType.DEVICE_ARM netScenario2
              { resource_map := [("x.scale", 7)] })) :=
  ⟨by decide, by decide, C12_only_adds_layers DeviceType.DEVICE_ARM netScenario2
    { resource_map := [("x.scale", 7)] } (by decide)⟩

/-- C12 as stated fails: in `netCollideChain` the call succeeds and the input `x` of
the layer `C` is replaced by `x_int8_reformat_int8_reformat`, which is not the
reformatted name `x_int8_reformat` of `x`. -/
theorem C12_counterexample :
    (Optimize DeviceType.DEVICE_ARM (some netCollideChain) { resource_map := [("x.scale", 7)] }).1
        = Status.TNN_OK ∧
      (netCollideChain.layers[2]?).map (·.inputs) = some ["x"] ∧
      ((layersAfter DeviceType.DEVICE_ARM netCollideChain
        { resource_map := [("x.scale", 7)] })[2]?).map (·.inputs) =
        some ["x_int8_reformat_int8_reformat"] ∧
      "x_int8_reformat_int8_reformat" ≠ "x" ∧
      "x_int8_reformat_int8_reformat" ≠ "x" ++ REFORMAT_NAME_SUFFIX := by
  decide

/-! ## C13: not idempotent -/

/-- C13: `Optimize` is not idempotent.  On `netInt8Mixed` a first run succeeds and
inserts one `Reformat` layer for the graph input `data`; a second run on the
resulting graph and store succeeds and inserts a further `Reformat` layer with the
same name, input and output for `data`, so the result of running twice differs from
the result of running once. -/
theorem C13_not_idempotent :
    ∃ (net : NetStructure) (res : NetResource),
      reformatCount net.layers = 0 ∧
      (Optimize DeviceType.DEVICE_ARM (some net) res).1 = Status.TNN_OK ∧
      wiring (resultLayers (Optimize DeviceType.DEVICE_ARM (some net) res)) =
        [("data_int8_reformat__from_model_input__", ["data"], ["data_int8_reformat"]),
         ("A", ["data_int8_reformat"], ["a"]), ("B", ["data"], ["b"])] ∧
      reformatCount (resultLayers (Optimize DeviceType.DEVICE_ARM (some net) res)) = 1 ∧
      (Optimize DeviceType.DEVICE_ARM (Optimize DeviceType.DEVICE_ARM (some net) res).2.1
        (Optimize DeviceType.DEVICE_ARM (some net) res).2.2).1 = Status.TNN_OK ∧
      wiring (resultLayers (Optimize DeviceType.DEVICE_ARM
        (Optimize DeviceType.DEVICE_ARM (some net) res).2.1
        (Optimize DeviceType.DEVICE_ARM (some net) res).2.2)) =
        [("data_int8_reformat__from_model_input__", ["data"], ["data_int8_reformat"]),
         ("data_int8_reformat__from_model_input__", ["data_int8_reformat"],
           ["data_int8_reformat"]),
         ("A", ["data_int8_reformat"], ["a"]), ("B", ["data"], ["b"])] ∧
      reformatCount (resultLayers (Optimize DeviceType.DEVICE_ARM
        (Optimize DeviceType.DEVICE_ARM (some net) res).2.1
        (Optimize DeviceType.DEVICE_ARM (some net) res).2.2)) = 2 ∧
      Optimize DeviceType.DEVICE_ARM (Optimize DeviceType.DEVICE_ARM (some net) res).2.1
          (Optimize DeviceType.DEVICE_ARM (some net) res).2.2 ≠
        Optimize DeviceType.DEVICE_ARM (some net) res :=
  ⟨netInt8Mixed, { resource_map := [] }, by decide, by decide, by decide, by decide,
    by decide, by decide, by decide, fun h => by
      have := congrArg (fun r => reformatCount (resultLayers r)) h
      revert this
      decide⟩

/-! ## C14: one Reformat layer per producer -/

/-- C14 (as amended): let `Optimize` succeed on a graph in which each tensor has a
single producer, no layer output shares its name with a declared graph input and no
layer output name ends in the reformat suffix.  The resulting sequence consists of
the `Reformat` layers made for graph inputs followed by the original layers in their
order, each followed by its block of inserted layers: the block of a layer `P` is
empty when `P` is a `Reformat` or has no marked output, and otherwise it is one
`Reformat` layer, named `P` + suffix, whose inputs are the marked outputs of `P` in
output order and whose outputs are the names of its first `n ≥ 1` inputs with the
suffix appended; when every float tensor at an interior float-to-int8 boundary has
its scale entry, its outputs are the names of all its inputs with the suffix
appended, position by position. -/
theorem C14_one_reformat_per_producer (dev : DeviceType) (net : NetStructure)
    (res : NetResource)
    (hok : (Optimize dev (some net) res).1 = Status.TNN_OK)
    (hsp : SingleProducer net.layers) (hno : OutputsNotInputs net)
    (hfresh : OutputsFresh net.layers) :
    ∃ (A : List LayerInfo) (blocks : List (LayerInfo × List LayerInfo)),
      resultLayers (Optimize dev (some net) res) = A ++ flattenBlocks blocks ∧
      blocks.map Prod.fst = layersAfter dev net res ∧
      (∀ R ∈ A, CreatedForInput dev net R) ∧
      ∀ (k : Nat) (P : LayerInfo), net.layers[k]? = some P →
        ∃ b, blocks[k]? = some b ∧ SameFields P b.1 ∧
          ((P.type = LayerType.LAYER_REFORMAT ∨ markedOutputs net.layers k P = []) →
            b.2 = []) ∧
          (P.type ≠ LayerType.LAYER_REFORMAT → markedOutputs net.layers k P ≠ [] →
            ∃ R, b.2 = [R] ∧ R.type = LayerType.LAYER_REFORMAT ∧
              R.name = P.name ++ REFORMAT_NAME_SUFFIX ∧
              R.inputs = markedOutputs net.layers k P ∧
              (∃ n, 0 < n ∧ R.outputs = (R.inputs.take n).map (· ++ REFORMAT_NAME_SUFFIX)) ∧
              (InteriorScales net.layers res.resource_map →
                R.outputs = R.inputs.map (· ++ REFORMAT_NAME_SUFFIX))) := by
  obtain ⟨A, blocks, hres, hfst, hA, -, -, hfastB, hrec⟩ := result_trace dev net res hok
  have hshape : Shape net.layers (layersAfter dev net res) :=
    (layersAfter_induct dev net res (fun _ => True) trivial (fun _ _ _ _ _ _ _ => trivial)
      (fun _ _ _ _ _ _ _ _ _ => trivial)).1
  refine ⟨A, blocks, hres, hfst, hA, fun k P hP => ?_⟩
  obtain ⟨cur, hcur, hsf, -⟩ := layersRel_get hshape hP
  have hbk : ∃ b, blocks[k]? = some b ∧ b.1 = cur := by
    rw [← hfst, List.getElem?_map] at hcur
    cases hb : blocks[k]? with
    | none => rw [hb] at hcur; cases hcur
    | some b =>
      rw [hb] at hcur
      exact ⟨b, rfl, Option.some.inj hcur⟩
  obtain ⟨b, hb, hb1⟩ := hbk
  refine ⟨b, hb, hb1 ▸ hsf, ?_⟩
  by_cases hfast : net.layers.length ≤ 1 ∨ GetQuantizedInfoFromNetStructure net = false
  · have hblocks := (hfastB hfast).2
    have hb2 : b.2 = [] := by
      have hmem := mem_of_getElem?_some hb
      rw [hblocks] at hmem
      obtain ⟨l, -, rfl⟩ := List.mem_map.1 hmem
      rfl
    refine ⟨fun _ => hb2, fun _ hne => ?_⟩
    exfalso
    obtain ⟨o, ho⟩ := List.exists_mem_of_ne_nil _ hne
    have hnf := laterReader_not_fast hP (mem_markedOutputs.1 ho).2
    rcases hfast with h | h
    · omega
    · rw [hnf.2] at h; cases h
  · rw [not_or] at hfast
    have h1 : 1 < net.layers.length := by omega
    have h2 : GetQuantizedInfoFromNetStructure net = true := by simpa using hfast.2
    have hsr := (hrec h1 h2).2 k b hb
    have hsfb : SameFields P b.1 := hb1 ▸ hsf
    have houts := reformat_outs_eq_marked dev net res hsp hno hfresh hP hsfb
    rw [StepRecord, houts] at hsr
    obtain ⟨-, hcase⟩ := hsr
    constructor
    · intro hor
      rcases hcase with ⟨-, he⟩ | ⟨hty, hne, -⟩
      · exact he
      · rcases hor with h | h
        · exact absurd (hsfb.1 ▸ h) hty
        · exact absurd h hne
    · intro hPt hne
      rcases hcase with ⟨hor, -⟩ | ⟨-, -, n, hn0, hn, he, hfull⟩
      · rcases hor with h | h
        · exact absurd (hsfb.1 ▸ h) hPt
        · exact absurd h hne
      · refine ⟨_, he, rfl, by rw [hsfb.2.2.1]; rfl, rfl, ⟨n, hn0, rfl⟩, fun hscale => ?_⟩
        have hn' := hfull (by
          cases hq : b.1.param.quantized with
          | true => exact Or.inl rfl
          | false =>
            right
            intro o ho
            have hqP : P.param.quantized = false := by rw [← hsfb.2.2.2.2]; exact hq
            obtain ⟨hk, hPk⟩ := List.getElem?_eq_some_iff.1 hP
            have hm := mem_markedOutputs.1 ho
            rw [hqP] at hm
            have hsc := hscale k hk (hPk ▸ hPt) (hPk ▸ hqP) o (hPk ▸ hm.1) hm.2
            obtain ⟨v, hv⟩ := Option.ne_none_iff_exists'.1 hsc
            have hext := mapExtends_trans
              (phaseA_mapExtends dev net.input_data_type_map net.layers.length
                net.inputs_shape_map (OptState.init net res))
              (phaseB_mapExtends dev net.layers.length k _)
            rw [hext _ v hv]
            exact Option.some_ne_none v)
        show ((markedOutputs net.layers k P).take n).map _ = _
        rw [hn', List.take_length]
        rfl

theorem C14_one_reformat_per_producer_witness :
    (Optimize DeviceType.DEVICE_ARM (some netTwoOutputs)
        { resource_map := [("a.scale", 7), ("b.scale", 7)] }).1 = Status.TNN_OK ∧
      SingleProducer netTwoOutputs.layers ∧ OutputsNotInputs netTwoOutputs ∧
      OutputsFresh netTwoOutputs.layers ∧
      markedOutputs netTwoOutputs.layers 0 (plainLayer "P" false ["in"] ["a", "b"]) =
        ["a", "b"] ∧
      wiring (resultLayers (Optimize DeviceType.DEVICE_ARM (some netTwoOutputs)
        { resource_map := [("a.scale", 7), ("b.scale", 7)] })) =
        [("P", ["in"], ["a", "b"]),
         ("P_int8_reformat", ["a", "b"], ["a_int8_reformat", "b_int8_reformat"]),
         ("Q", ["a_int8_reformat", "b_int8_reformat"], ["q"])] ∧
      ∃ (A : List LayerInfo) (blocks : List (LayerInfo × List LayerInfo)),
        resultLayers (Optimize DeviceType.DEVICE_ARM (some netTwoOutputs)
          { resource_map := [("a.scale", 7), ("b.scale", 7)] }) = A ++ flattenBlocks blocks ∧
        blocks.map Prod.fst = layersAfter DeviceType.DEVICE_ARM netTwoOutputs
          { resource_map := [("a.scale", 7), ("b.scale", 7)] } ∧
        (∀ R ∈ A, CreatedForInput DeviceType.DEVICE_ARM netTwoOutputs R) ∧
        ∀ (k : Nat) (P : LayerInfo), netTwoOutputs.layers[k]? = some P →
          ∃ b, blocks[k]? = some b ∧ SameFields P b.1 ∧
            ((P.type = LayerType.LAYER_REFORMAT ∨ markedOutputs netTwoOutputs.layers k P = []) →
              b.2 = []) ∧
            (P.type ≠ LayerType.LAYER_REFORMAT → markedOutputs netTwoOutputs.layers k P ≠ [] →
              ∃ R, b.2 = [R] ∧ R.type = LayerType.LAYER_REFORMAT ∧
                R.name = P.name ++ REFORMAT_NAME_SUFFIX ∧
                R.inputs = markedOutputs netTwoOutputs.layers k P ∧
                (∃ n, 0 < n ∧
                  R.outputs = (R.inputs.take n).map (· ++ REFORMAT_NAME_SUFFIX)) ∧
                (InteriorScales netTwoOutputs.layers [("a.scale", 7), ("b.scale", 7)] →
                  R.outputs = R.inputs.map (· ++ REFORMAT_NAME_SUFFIX))) :=
  ⟨by decide, by decide, by decide, by decide, by decide, by decide,
    C14_one_reformat_per_producer DeviceType.DEVICE_ARM netTwoOutputs
      { resource_map := [("a.scale", 7), ("b.scale", 7)] } (by decide) (by decide) (by decide)
      (by decide)⟩

/-- C14 as stated fails.  (1) In `netTwoProducers` the layer `P2` has the marked output
`x` (read by the int8 layer `C`), but `C` is rewired when `P1` is handled and no
`Reformat` layer is inserted after `P2`.  (2) In `netCollideChain` the layer `P2` has no
marked output, but after the rewiring made for `P1` the layer `C` reads the output of
`P2`, and a `Reformat` layer is inserted after `P2`.  (3) In `netOutputIsFloatInput`
the layer `P` has the marked output `x`, but `x` is also a graph input and `C` is
rewired by the first loop: no `Reformat` layer is inserted after `P`. -/
theorem C14_counterexample :
    ((Optimize DeviceType.DEVICE_ARM (some netTwoProducers)
        { resource_map := [("x.scale", 7)] }).1 = Status.TNN_OK ∧
      netTwoProducers.layers[1]? = some (plainLayer "P2" false ["in"] ["x"]) ∧
      markedOutputs netTwoProducers.layers 1 (plainLayer "P2" false ["in"] ["x"]) = ["x"] ∧
      wiring (resultLayers (Optimize DeviceType.DEVICE_ARM (some netTwoProducers)
        { resource_map := [("x.scale", 7)] })) =
        [("P1", ["in"], ["x"]), ("P1_int8_reformat", ["x"], ["x_int8_reformat"]),
         ("P2", ["in"], ["x"]), ("C", ["x_int8_reformat"], ["y"])]) ∧
    ((Optimize DeviceType.DEVICE_ARM (some netCollideChain)
        { resource_map := [("x.scale", 7)] }).1 = Status.TNN_OK ∧
      netCollideChain.layers[1]? = some (plainLayer "P2" false ["in"] ["x_int8_reformat"]) ∧
      markedOutputs netCollideChain.layers 1
        (plainLayer "P2" false ["in"] ["x_int8_reformat"]) = [] ∧
      wiring (resultLayers (Optimize DeviceType.DEVICE_ARM (some netCollideChain)
        { resource_map := [("x.scale", 7)] })) =
        [("P1", ["in"], ["x"]), ("P1_int8_reformat", ["x"], ["x_int8_reformat"]),
         ("P2", ["in"], ["x_int8_reformat"]),
         ("P2_int8_reformat", ["x_int8_reformat"], ["x_int8_reformat_int8_reformat"]),
         ("C", ["x_int8_reformat_int8_reformat"], ["y"])]) ∧
    ((Optimize DeviceType.DEVICE_ARM (some netOutputIsFloatInput)
        { resource_map := [("x.scale", 7)] }).1 = Status.TNN_OK ∧
      netOutputIsFloatInput.layers[0]? = some (plainLayer "P" false [] ["x"]) ∧
      markedOutputs netOutputIsFloatInput.layers 0 (plainLayer "P" false [] ["x"]) = ["x"] ∧
      wiring (resultLayers (Optimize DeviceType.DEVICE_ARM (some netOutputIsFloatInput)
        { resource_map := [("x.scale", 7)] })) =
        [("x_int8_reformat__from_model_input__", ["x"], ["x_int8_reformat"]),
         ("P", [], ["x"]), ("C", ["x_int8_reformat"], ["c"]), ("D", ["x"], ["d"])]) := by
  decide

/-! ## C15: direction of the inserted layers -/

/-- C15: after a successful `Optimize` the resulting sequence consists of `Reformat`
layers made for graph inputs and of the original layers, each followed by at most
one inserted `Reformat` layer.  A layer made for a graph input converts int8 to float
when the input is declared int8 and float to int8 when it is declared float; a
layer inserted after a producer converts int8 to float when the producer is
quantized and float to int8 otherwise.  In each case `src_type` differs from
`dst_type`, and the formats are set for ARM only: NHWC4 to NC4HW4 for int8 to float
and NC4HW4 to NHWC4 for float to int8. -/
theorem C15_reformat_direction (dev : DeviceType) (net : NetStructure) (res : NetResource)
    (hok : (Optimize dev (some net) res).1 = Status.TNN_OK) :
    ∃ (A : List LayerInfo) (blocks : List (LayerInfo × List LayerInfo)),
      resultLayers (Optimize dev (some net) res) = A ++ flattenBlocks blocks ∧
      blocks.map Prod.fst = layersAfter dev net res ∧
      (∀ R ∈ A, ∃ K ∈ net.inputs_shape_map, R.inputs = [K] ∧
        ((net.input_data_type_map K = DataType.DATA_TYPE_INT8 ∧ ConvertsFrom dev true R) ∨
          (net.input_data_type_map K = DataType.DATA_TYPE_FLOAT ∧
            ConvertsFrom dev false R))) ∧
      (∀ b ∈ blocks, b.2 = [] ∨
        ∃ R, b.2 = [R] ∧ R.name = b.1.name ++ REFORMAT_NAME_SUFFIX ∧
          ConvertsFrom dev b.1.param.quantized R) := by
  obtain ⟨A, blocks, hres, hfst, hA, hins, -⟩ := result_blocks dev net res hok
  refine ⟨A, blocks, hres, hfst, ?_, ?_⟩
  · intro R hR
    obtain ⟨K, hK, v, hv, rfl⟩ := hA R hR
    refine ⟨K, hK, rfl, ?_⟩
    rcases src_quantized_of_cases hv with ⟨ht, rfl⟩ | ⟨ht, rfl⟩
    · exact Or.inl ⟨ht, reformatFor_converts _ _ _ _ _⟩
    · exact Or.inr ⟨ht, reformatFor_converts _ _ _ _ _⟩
  · intro b hb
    rcases hins b hb with he | ⟨-, outs, n, -, -, -, he⟩
    · exact Or.inl he
    · exact Or.inr ⟨_, he, rfl, reformatFor_converts _ _ _ _ _⟩

theorem C15_reformat_direction_witness :
    (Optimize DeviceType.DEVICE_X86 (some netTwoBoundaries)
        { resource_map := [("data.scale", 3), ("a.scale", 7)] }).1 = Status.TNN_OK ∧
    ∃ (A : List LayerInfo) (blocks : List (LayerInfo × List LayerInfo)),
      resultLayers (Optimize DeviceType.DEVICE_X86 (some netTwoBoundaries)
        { resource_map := [("data.scale", 3), ("a.scale", 7)] }) = A ++ flattenBlocks blocks ∧
      blocks.map Prod.fst = layersAfter DeviceType.DEVICE_X86 netTwoBoundaries
        { resource_map := [("data.scale", 3), ("a.scale", 7)] } ∧
      (∀ R ∈ A, ∃ K ∈ netTwoBoundaries.inputs_shape_map, R.inputs = [K] ∧
        ((netTwoBoundaries.input_data_type_map K = DataType.DATA_TYPE_INT8 ∧
            ConvertsFrom DeviceType.DEVICE_X86 true R) ∨
          (netTwoBoundaries.input_data_type_map K = DataType.DATA_TYPE_FLOAT ∧
            ConvertsFrom DeviceType.DEVICE_X86 false R))) ∧
      (∀ b ∈ blocks, b.2 = [] ∨
        ∃ R, b.2 = [R] ∧ R.name = b.1.name ++ REFORMAT_NAME_SUFFIX ∧
          ConvertsFrom DeviceType.DEVICE_X86 b.1.param.quantized R) :=
  ⟨by decide, C15_reformat_direction DeviceType.DEVICE_X86 netTwoBoundaries
    { resource_map := [("data.scale", 3), ("a.scale", 7)] } (by decide)⟩

/-! ## C16: blobs -/

/-- C16: after a successful `Optimize` the resulting sequence consists of `Reformat`
layers `A` made for graph inputs and of the original layers, each followed by the
`Reformat` layer inserted after it, if any; a name is in the blob set after the run
exactly when it was in the blob set before or is an output of an inserted `Reformat`
layer. -/
theorem C16_blobs_extended (dev : DeviceType) (net : NetStructure) (res : NetResource)
    (hok : (Optimize dev (some net) res).1 = Status.TNN_OK) :
    ∃ (A : List LayerInfo) (blocks : List (LayerInfo × List LayerInfo)),
      resultLayers (Optimize dev (some net) res) = A ++ flattenBlocks blocks ∧
      blocks.map Prod.fst = layersAfter dev net res ∧
      (∀ R ∈ A, CreatedForInput dev net R) ∧
      (∀ b ∈ blocks, InsertedAfter dev b.1 b.2) ∧
      ∀ x, x ∈ resultBlobs (Optimize dev (some net) res) ↔
        x ∈ net.blobs ∨ ∃ R ∈ A ++ blocks.flatMap Prod.snd, x ∈ R.outputs := by
  obtain ⟨A, blocks, h1, h2, h3, h4, h5, -⟩ := result_trace dev net res hok
  exact ⟨A, blocks, h1, h2, h3, h4, h5⟩

theorem C16_blobs_extended_witness :
    (Optimize DeviceType.DEVICE_ARM (some netTwoBoundaries)
        { resource_map := [("data.scale", 3), ("a.scale", 7)] }).1 = Status.TNN_OK ∧
      resultBlobs (Optimize DeviceType.DEVICE_ARM (some netTwoBoundaries)
        { resource_map := [("data.scale", 3), ("a.scale", 7)] }) =
        ["data", "a", "b", "data_int8_reformat", "a_int8_reformat"] ∧
      ∃ (A : List LayerInfo) (blocks : List (LayerInfo × List LayerInfo)),
        resultLayers (Optimize DeviceType.DEVICE_ARM (some netTwoBoundaries)
          { resource_map := [("data.scale", 3), ("a.scale", 7)] }) = A ++ flattenBlocks blocks ∧
        blocks.map Prod.fst = layersAfter DeviceType.DEVICE_ARM netTwoBoundaries
          { resource_map := [("data.scale", 3), ("a.scale", 7)] } ∧
        (∀ R ∈ A, CreatedForInput DeviceType.DEVICE_ARM netTwoBoundaries R) ∧
        (∀ b ∈ blocks, InsertedAfter DeviceType.DEVICE_ARM b.1 b.2) ∧
        ∀ x, x ∈ resultBlobs (Optimize DeviceType.DEVICE_ARM (some netTwoBoundaries)
            { resource_map := [("data.scale", 3), ("a.scale", 7)] }) ↔
          x ∈ netTwoBoundaries.blobs ∨ ∃ R ∈ A ++ blocks.flatMap Prod.snd, x ∈ R.outputs :=
  ⟨by decide, by decide, C16_blobs_extended DeviceType.DEVICE_ARM netTwoBoundaries
    { resource_map := [("data.scale", 3), ("a.scale", 7)] } (by decide)⟩

/-! ## C17: topological order -/

/-- C17: `Optimize` preserves topological order.  When every input of a layer is a
declared graph input or an output of an earlier layer, the same holds for the layer
sequence of the structure after a successful call, inserted `Reformat` layers
included; the declared graph inputs are the same.  No scale entry is required. -/
theorem C17_topological_preserved (dev : DeviceType) (net : NetStructure) (res : NetResource)
    (htopo : Topological net)
    (hok : (Optimize dev (some net) res).1 = Status.TNN_OK) :
    ∃ net', (Optimize dev (some net) res).2.1 = some net' ∧
      net'.inputs_shape_map = net.inputs_shape_map ∧ Topological net' := by
  by_cases hfast : net.layers.length ≤ 1 ∨ GetQuantizedInfoFromNetStructure net = false
  · rw [Optimize_of_run_none ((run_eq_none_iff dev net res).2 hfast)]
    exact ⟨net, rfl, rfl, htopo⟩
  · rw [not_or] at hfast
    have h1 : 1 < net.layers.length := by omega
    have h2 : GetQuantizedInfoFromNetStructure net = true := by simpa using hfast.2
    have hAok := phaseA_ok_of_Optimize_ok h1 h2 hok
    rw [Optimize_of_run_ok (run_of_phaseA_ok dev res h1 h2 hAok)]
    refine ⟨_, rfl, rfl, ?_⟩
    obtain ⟨A, hAf, hAll, -⟩ := phaseA_trace dev net net.layers.length
      net.inputs_shape_map (OptState.init net res) (fun _ h => h)
    have hdelA := phaseA_delivers dev net.input_data_type_map net.layers.length net.layers
      net.inputs_shape_map (OptState.init net res)
      (layersRel_refl (fun _ _ _ => Or.inl rfl) _)
    have hA : TopoList net.inputs_shape_map
        (phaseA dev net.input_data_type_map net.layers.length net.inputs_shape_map
          (OptState.init net res)).2.layers_fused := by
      rw [hAf]
      have hnil : (OptState.init net res).layers_fused = [] := rfl
      rw [hnil, List.nil_append, ← List.reverse_reverse A]
      refine topoList_of_keys A.reverse ?_
      rw [List.reverse_reverse]
      intro l hl x hx
      obtain ⟨K, hK, v, -, rfl⟩ := hAll l hl
      have : x ∈ [K] := hx
      rw [List.mem_singleton] at this
      exact this ▸ hK
    exact (phaseB_topo dev net.layers.length net _ htopo hdelA hA net.layers.length).1

theorem C17_topological_preserved_witness :
    Topological netTwoOutputs ∧
      (Optimize DeviceType.DEVICE_ARM (some netTwoOutputs)
        { resource_map := [("b.scale", 1)] }).1 = Status.TNN_OK ∧
      wiring (resultLayers (Optimize DeviceType.DEVICE_ARM (some netTwoOutputs)
        { resource_map := [("b.scale", 1)] })) =
        [("P", ["in"], ["a", "b"]), ("P_int8_reformat", ["a", "b"], ["a_int8_reformat"]),
         ("Q", ["a_int8_reformat", "b"], ["q"])] ∧
      ∃ net', (Optimize DeviceType.DEVICE_ARM (some netTwoOutputs)
          { resource_map := [("b.scale", 1)] }).2.1 = some net' ∧
        net'.inputs_shape_map = netTwoOutputs.inputs_shape_map ∧ Topological net' :=
  ⟨by decide, by decide, by decide, C17_topological_preserved DeviceType.DEVICE_ARM
    netTwoOutputs { resource_map := [("b.scale", 1)] } (by decide) (by decide)⟩

/-! ## C18: failure -/

/-- C18 (as amended): a null graph reference makes `Optimize` fail and leaves the
scale store as it was; and when the first declared graph input that is read by both
kinds of layers has a declared type that is neither float nor int8, `Optimize`
fails and leaves the graph (layer sequence, inputs of every layer, blobs) and the
scale store exactly as they were. -/
theorem C18_failure_atomic_first (dev : DeviceType) (net : NetStructure) (res : NetResource)
    (pre post : List String) (K : String)
    (hkeys : net.inputs_shape_map = pre ++ K :: post)
    (hpre : ∀ K' ∈ pre, ¬ ReadByBoth net.layers K')
    (hK : ReadByBoth net.layers K)
    (hty : net.input_data_type_map K ≠ DataType.DATA_TYPE_FLOAT ∧
      net.input_data_type_map K ≠ DataType.DATA_TYPE_INT8) :
    Optimize dev none res = (Status.TNNERR_NET_ERR, none, res) ∧
      Optimize dev (some net) res = (Status.TNNERR_UNSUPPORT_NET, some net, res) := by
  refine ⟨rfl, ?_⟩
  obtain ⟨h1, h2⟩ := readByBoth_length hK
  have hsrc : src_quantized_of (net.input_data_type_map K) = none := by
    unfold src_quantized_of
    rw [if_neg hty.1, if_neg hty.2]
  have hA := phaseA_first_unsupported dev net.input_data_type_map net.layers.length
    (OptState.init net res) K post hK hsrc pre hpre
  rw [← hkeys] at hA
  have hrun := @run_of_phaseA_err dev net res h1 h2 (by rw [hA]; simp)
  rw [hA] at hrun
  rw [Optimize_of_run_err hrun (by simp)]
  rfl

theorem C18_failure_atomic_first_witness :
    netHalfInput.inputs_shape_map = [] ++ "data" :: [] ∧
      ReadByBoth netHalfInput.layers "data" ∧
      Optimize DeviceType.DEVICE_ARM none { resource_map := [("a.scale", 1)] } =
        (Status.TNNERR_NET_ERR, none, { resource_map := [("a.scale", 1)] }) ∧
      Optimize DeviceType.DEVICE_ARM (some netHalfInput) { resource_map := [("a.scale", 1)] } =
        (Status.TNNERR_UNSUPPORT_NET, some netHalfInput, { resource_map := [("a.scale", 1)] }) :=
  ⟨rfl, by decide, C18_failure_atomic_first DeviceType.DEVICE_ARM netHalfInput
    { resource_map := [("a.scale", 1)] } [] [] "data" rfl (by decide) (by decide)
    (by decide)⟩

/-- C18 as stated fails: in `netTwoInputsOneHalf` the call fails on the input `other`
(half) after the input `data` (float) has been handled: the layer `B` reads
`data_int8_reformat`, and the blobs and the scale store hold the names made for
`data`. -/
theorem C18_counterexample :
    (Optimize DeviceType.DEVICE_ARM (some netTwoInputsOneHalf)
        { resource_map := [("data.scale", 1)] }).1 = Status.TNNERR_UNSUPPORT_NET ∧
      wiring netTwoInputsOneHalf.layers =
        [("A", ["data", "other"], ["a"]), ("B", ["data", "other"], ["b"])] ∧
      wiring (resultLayers (Optimize DeviceType.DEVICE_ARM (some netTwoInputsOneHalf)
        { resource_map := [("data.scale", 1)] })) =
        [("A", ["data", "other"], ["a"]), ("B", ["data_int8_reformat", "other"], ["b"])] ∧
      netTwoInputsOneHalf.blobs = ["data", "other", "a", "b"] ∧
      resultBlobs (Optimize DeviceType.DEVICE_ARM (some netTwoInputsOneHalf)
        { resource_map := [("data.scale", 1)] }) =
        ["data", "other", "a", "b", "data_int8_reformat"] ∧
      scalesAfter (Optimize DeviceType.DEVICE_ARM (some netTwoInputsOneHalf)
        { resource_map := [("data.scale", 1)] }) =
        [("data.scale", 1), ("data_int8_reformat.scale", 1)] := by
  decide

/-! ## C19: second run -/

/-- C19: with interior boundaries only, a second run changes nothing.  On a graph
without `Reformat` layers, in topological order, in which no declared graph input is
read by both kinds of layers, no layer output shares its name with a graph input,
no tensor name ends in the reformat suffix and every float tensor at a float-to-int8
boundary has its scale entry: running `Optimize` on the structure and the scale
store that a successful `Optimize` leaves returns success and leaves them unchanged. -/
theorem C19_second_run_unchanged (dev : DeviceType) (net : NetStructure) (res : NetResource)
    (_hnoref : NoReformat net.layers) (_htopo : Topological net)
    (hmix : NoMixedInput net) (hno : OutputsNotInputs net) (hnames : NamesFresh net)
    (hscale : InteriorScales net.layers res.resource_map)
    (hok : (Optimize dev (some net) res).1 = Status.TNN_OK) :
    Optimize dev (Optimize dev (some net) res).2.1 (Optimize dev (some net) res).2.2 =
      (Status.TNN_OK, (Optimize dev (some net) res).2.1, (Optimize dev (some net) res).2.2) := by
  by_cases hfast : net.layers.length ≤ 1 ∨ GetQuantizedInfoFromNetStructure net = false
  · have hnone := (run_eq_none_iff dev net res).2 hfast
    rw [Optimize_of_run_none hnone]
    exact Optimize_of_run_none hnone
  · obtain ⟨A, blocks, hres, hfst, -, hins, -, -, hrec⟩ := result_trace dev net res hok
    rw [not_or] at hfast
    have h1 : 1 < net.layers.length := by omega
    have h2 : GetQuantizedInfoFromNetStructure net = true := by simpa using hfast.2
    have hAeq : phaseA dev net.input_data_type_map net.layers.length net.inputs_shape_map
        (OptState.init net res) = (Status.TNN_OK, OptState.init net res) :=
      phaseA_no_mixed dev _ _ _ _ hmix
    have hA : A = [] := by
      rw [(hrec h1 h2).1, hAeq]; rfl
    rw [hA, List.nil_append] at hres
    have hrun := run_of_phaseA_ok dev res h1 h2 (by rw [hAeq])
    have hafter : layersAfter dev net res = (phaseB dev net.layers.length net.layers.length
        (OptState.init net res)).layers_orig := by
      unfold layersAfter; rw [hrun, hAeq]
    have hfresh := namesFresh_outputs hnames
    have hinf := namesFresh_inputs hnames
    have horig : LayersRel (fun _ _ x b => ¬ EndsWithSuffix b → b = x) net.layers
        (layersAfter dev net res) :=
      layersAfter_rel dev net res _ (fun _ _ _ _ => rfl)
        (fun _ _ _ o _ _ _ _ _ _ hne => absurd (endsWithSuffix_append o) hne)
        (fun _ _ _ _ _ o _ _ _ _ _ _ _ hne => absurd (endsWithSuffix_append o) hne)
    have hex : ∀ b ∈ blocks, ∀ l ∈ b.2, l.type = LayerType.LAYER_REFORMAT :=
      fun b hb l hl => (insertedAfter_reformat (hins b hb) l hl).1
    rw [Optimize_of_run_ok hrun] at hres ⊢
    simp only [resultLayers] at hres
    refine Optimize_of_no_boundary dev _ _ ?_ ?_
    · -- no declared input is read by both kinds of layers of the result
      intro K hK hboth
      have hKf : ¬ EndsWithSuffix K := hinf K hK
      have hback : ∀ q, ReadBy (flattenBlocks blocks) K q → ReadBy net.layers K q := by
        rintro q ⟨l, hl, hKl, hlq⟩
        obtain ⟨b, hb, hlb⟩ := mem_flattenBlocks.1 hl
        rcases hlb with rfl | hlb
        · refine readBy_backward horig (fun _ _ _ hr => (hr hKf).symm) ⟨b.1, ?_, hKl, hlq⟩
          rw [← hfst]
          exact List.mem_map_of_mem _ hb
        · exfalso
          have hKo := (insertedAfter_reformat (hins b hb) l hlb).2 K hKl
          have hb1 : b.1 ∈ layersAfter dev net res := by
            rw [← hfst]; exact List.mem_map_of_mem _ hb
          obtain ⟨j, hj, hjb⟩ := List.getElem_of_mem hb1
          obtain ⟨a, ha, hsf⟩ := shape_get (layersRel_mono (fun _ _ _ _ _ => trivial) horig)
            (hjb ▸ List.getElem?_eq_getElem hj)
          exact hno a (mem_of_getElem?_some ha) K (hsf.2.2.2.1 ▸ hKo) hK
      have hb' : ReadByBoth (flattenBlocks blocks) K := by
        rw [← hres]; exact hboth
      exact hmix K hK ⟨hback true hb'.1, hback false hb'.2⟩
    · -- no output is marked in the result
      intro k cur hcur hcty o ho hlr
      have hcur' : (flattenBlocks blocks)[k]? = some cur := by rw [← hres]; exact hcur
      have hlr' : LaterReader (flattenBlocks blocks) k o (!cur.param.quantized) := by
        rw [← hres]; exact hlr
      obtain ⟨c, hc, hcty', hoc, hcq⟩ := hlr'
      obtain ⟨i, j, hij, hi, hj⟩ := later_in_blocks blocks hex k cur c hcur' hcty hc hcty'
      rw [hfst] at hi hj
      obtain ⟨P, hP, hsfP⟩ := shape_get (layersRel_mono (fun _ _ _ _ _ => trivial) horig) hi
      obtain ⟨C, hC, hsfC⟩ := shape_get (layersRel_mono (fun _ _ _ _ _ => trivial) horig) hj
      obtain ⟨p, hp, hpo⟩ := List.getElem_of_mem hoc
      have hhorigA : LayersRel (fun _ _ x b => ¬ EndsWithSuffix b → b = x) net.layers
          (OptState.init net res).layers_orig := layersRel_refl (fun _ _ _ _ => rfl) _
      rw [hafter] at hj
      refine boundary_is_renamed dev net.layers res.resource_map (OptState.init net res)
        hhorigA (mapExtends_refl _) hfresh hscale i j p P C c o hP hC hij
        (hsfP.1 ▸ hcty) (hsfC.1 ▸ hcty') (hsfP.2.2.2.1 ▸ ho) ?_ hj
        (hpo ▸ List.getElem?_eq_getElem hp)
      rw [← hsfP.2.2.2.2, ← hsfC.2.2.2.2, hcq]
      cases cur.param.quantized <;> simp

theorem C19_second_run_unchanged_witness :
    NoReformat netScenario2.layers ∧ Topological netScenario2 ∧ NoMixedInput netScenario2 ∧
      OutputsNotInputs netScenario2 ∧ NamesFresh netScenario2 ∧
      InteriorScales netScenario2.layers [("x.scale", 7)] ∧
      (Optimize DeviceType.DEVICE_ARM (some netScenario2)
        { resource_map := [("x.scale", 7)] }).1 = Status.TNN_OK ∧
      reformatCount (resultLayers (Optimize DeviceType.DEVICE_ARM (some netScenario2)
        { resource_map := [("x.scale", 7)] })) = 1 ∧
      Optimize DeviceType.DEVICE_ARM
          (Optimize DeviceType.DEVICE_ARM (some netScenario2)
            { resource_map := [("x.scale", 7)] }).2.1
          (Optimize DeviceType.DEVICE_ARM (some netScenario2)
            { resource_map := [("x.scale", 7)] }).2.2 =
        (Status.TNN_OK,
          (Optimize DeviceType.DEVICE_ARM (some netScenario2)
            { resource_map := [("x.scale", 7)] }).2.1,
          (Optimize DeviceType.DEVICE_ARM (some netScenario2)
            { resource_map := [("x.scale", 7)] }).2.2) :=
  ⟨by decide, by decide, by decide, by decide, by decide, by decide, by decide, by decide,
    C19_second_run_unchanged DeviceType.DEVICE_ARM netScenario2
      { resource_map := [("x.scale", 7)] } (by decide) (by decide) (by decide) (by decide)
      (by decide) (by decide) (by decide)⟩
end optimizer

end TNN
